import Mathlib

/-!
# Post-processing chain of `Scene.cpp`

A shallow embedding of the post-processing part of `src/Scene.cpp` and theorems
about it.

Conventions of the embedding.

* The C++ globals touched by the post-processing code are the fields of `SceneState`;
  every C++ function becomes a function `SceneState α → SceneState α`.
* `float`/`double` values are elements of a linearly ordered field `α` (exact
  arithmetic); the C library (`exp`, `cos`, `fmod`, `PI`, `Random`) and the camera
  are the fields of `Env α`.  Instantiating `α := ℝ` with `Real.exp` and `Real.pi`
  gives the real-arithmetic reading of the numeric code, `α := ℚ` gives an
  executable one.
* `int` values are `Int`; `%` and `/` on them are the truncating `Int.tmod` and
  `Int.tdiv` of C++.  The decrement of lines 783-786 is the one `int` operation of the
  modelled code that can leave the 32-bit range (at `INT_MIN`); it is modelled with its
  wrap-around (`decrementInt32`).  Loop counters and list positions never get near the
  32-bit range.
* Direct3D is modelled by the binding state `Context` (render target, pixel-shader
  texture slots 0..2, pixel and vertex shader) and by the log `draws`: every
  `Draw(4, 0)` and every `Model::Render()` appends one `Draw` record holding the
  bindings in force, labelled with the function that issued it and its `postProcess`
  and `i` arguments.  Blend, depth, rasteriser and sampler states and constant-buffer
  uploads are not modelled.
* An index outside a `std::vector`/`std::array` is undefined behaviour in C++.  The
  model records it in `faults` and goes on with a default value, so the functions
  stay total.  `weight` and `kernel` live in `PostProcessingConstants` (declared in
  `Common.h`, whose array bound is not part of this file); they are modelled as
  maps from `Int`, and every index written is logged in `weightWrites`/`kernelWrites`.
-/

set_option linter.unusedSectionVars false

namespace ScenePP

/-! ## Scene data (lines 37-103) -/

/-- Available post-processes (`enum class PostProcess`, lines 37-57). -/
inductive PostProcess where
  | None
  | Copy
  | Tint
  | GreyNoise
  | Burn
  | Distort
  | Spiral
  | HeatHaze
  | HueTint
  | BlurH
  | BlurV
  | Underwater
  | Inverted
  | NightVision
  | Retro
  | Bloom1
  | Bloom2
  | DepthOfField
  deriving DecidableEq, Repr

/-- Application mode of an entry (`enum class PostProcessMode`, lines 59-64). -/
inductive PostProcessMode where
  | Fullscreen
  | Area
  | Polygon
  deriving DecidableEq, Repr

/-- One entry of the effect list (`struct ProcessAndMode`, lines 66-70). -/
structure ProcessAndMode where
  process : PostProcess
  mode : PostProcessMode
  deriving DecidableEq, Repr

/-- Two-component vector (`CVector2`). -/
structure CVector2 (α : Type) where
  x : α
  y : α

/-- Three-component vector (`CVector3`). -/
structure CVector3 (α : Type) where
  x : α
  y : α
  z : α

/-- Four-component vector (`CVector4`). -/
structure CVector4 (α : Type) where
  x : α
  y : α
  z : α
  w : α

/-- Per-entry parameter record (`struct Constants`, lines 72-95). -/
structure Constants (α : Type) where
  tintTopColour : CVector3 α
  tintBottomColour : CVector3 α
  HueWiggle : α
  HueWiggleSpeed : α
  waterColour : CVector3 α
  Wiggle : α
  WiggleSpeed : α
  bloomThreshold : α
  depthThreshold : α
  blurStrength : Int

/-- The value built by `Constants()`: the default member initialisers of lines 75-94. -/
def Constants.ctor {α : Type} [LinearOrderedField α] : Constants α where
  tintTopColour := ⟨0, 0, 1⟩
  tintBottomColour := ⟨0, 1, 0⟩
  HueWiggle := 0
  HueWiggleSpeed := 0
  waterColour := ⟨0, 0, 0⟩
  Wiggle := 0
  WiggleSpeed := 0
  bloomThreshold := 8 / 10
  depthThreshold := 0
  blurStrength := 7

/-! ## Direct3D objects (lines 201-222 and `InitGeometry`) -/

/-- GPU textures: the three scene-sized textures created at lines 328-342, the swap
chain back buffer, the depth buffer and the auxiliary maps loaded at lines 262-270. -/
inductive Texture where
  | gSceneTexture
  | gSceneTextureOne
  | gSceneTextureTwo
  | backBuffer
  | depthBuffer
  | gNoiseMap
  | gBurnMap
  | gDistortMap
  | modelMap
  deriving DecidableEq, Repr

/-- Render-target views. -/
inductive RenderTargetView where
  | gSceneRenderTarget
  | gSceneRenderTargetCopy
  | gSceneRenderTargetTwo
  | gBackBufferRenderTarget
  deriving DecidableEq, Repr

/-- Texture a render-target view writes to (`CreateRenderTargetView`, lines 346-361). -/
def RenderTargetView.texture : RenderTargetView → Texture
  | .gSceneRenderTarget => .gSceneTexture
  | .gSceneRenderTargetCopy => .gSceneTextureOne
  | .gSceneRenderTargetTwo => .gSceneTextureTwo
  | .gBackBufferRenderTarget => .backBuffer

/-- Shader-resource views. -/
inductive ShaderResourceView where
  | gSceneTextureSRV
  | gSceneTextureOneSRV
  | gSceneTextureTwoSRV
  | gNoiseMapSRV
  | gBurnMapSRV
  | gDistortMapSRV
  | gDepthShaderView
  | gGroundDiffuseSpecularMapSRV
  | gCrateDiffuseSpecularMapSRV
  | gCubeDiffuseSpecularMapSRV
  | gWallDiffuseSpecularMapSRV
  | gStarsDiffuseSpecularMapSRV
  | gLightDiffuseMapSRV
  deriving DecidableEq, Repr

/-- Texture a shader-resource view samples (`CreateShaderResourceView`, lines 369-383,
and `LoadTexture`, lines 262-270). -/
def ShaderResourceView.texture : ShaderResourceView → Texture
  | .gSceneTextureSRV => .gSceneTexture
  | .gSceneTextureOneSRV => .gSceneTextureOne
  | .gSceneTextureTwoSRV => .gSceneTextureTwo
  | .gNoiseMapSRV => .gNoiseMap
  | .gBurnMapSRV => .gBurnMap
  | .gDistortMapSRV => .gDistortMap
  | .gDepthShaderView => .depthBuffer
  | _ => .modelMap

/-- Pixel shaders bound in `Scene.cpp`. -/
inductive PixelShader where
  | gCopyPostProcess
  | gTintPostProcess
  | gGreyNoisePostProcess
  | gBurnPostProcess
  | gDistortPostProcess
  | gSpiralPostProcess
  | gHeatHazePostProcess
  | gHueTintPostProcess
  | gUnderwaterPostProcess
  | gInvertedColourPostProcess
  | gNightVisionPostProcess
  | gBlurHPostProcess
  | gBlurVPostProcess
  | gRetroPostProcess
  | gBloom1PostProcess
  | gBloom2PostProcess
  | gDepthOfFieldPostProcess
  | gDepthOnlyPixelShader
  | gPixelLightingPixelShader
  | gTintedTexturePixelShader
  deriving DecidableEq, Repr

/-- Vertex shaders bound in `Scene.cpp`. -/
inductive VertexShader where
  | g2DQuadVertexShader
  | g2DPolygonVertexShader
  | gBasicTransformVertexShader
  | gPixelLightingVertexShader
  deriving DecidableEq, Repr

/-- The part of the device-context state the post-processing code depends on. -/
structure Context where
  renderTarget : Option RenderTargetView
  psResource0 : Option ShaderResourceView
  psResource1 : Option ShaderResourceView
  psResource2 : Option ShaderResourceView
  pixelShader : Option PixelShader
  vertexShader : Option VertexShader
  deriving DecidableEq, Repr

/-- Functions of `Scene.cpp` that issue draw calls. -/
inductive Caller where
  | RenderDepthBufferFromCamera
  | RenderSceneFromCamera
  | FullScreenPostProcess
  | SaveBaseSceneTexture
  | AreaPostProcess
  | PolygonPostProcess
  deriving DecidableEq, Repr

/-- One logged draw call: who issued it (with its `postProcess` and `i` arguments)
and the bindings in force when it was issued. -/
structure Draw where
  caller : Caller
  postProcess : PostProcess
  index : Int
  renderTarget : Option RenderTargetView
  texture0 : Option ShaderResourceView
  texture1 : Option ShaderResourceView
  pixelShader : Option PixelShader
  vertexShader : Option VertexShader
  deriving DecidableEq, Repr

/-- Out-of-range accesses to the containers whose size is known in `Scene.cpp`. -/
inductive Fault where
  | gConstantsList (i : Int)
  | points (i : Int)
  deriving DecidableEq, Repr

/-! ## Constant buffer and global state -/

/-- The fields of `gPostProcessingConstants` (type declared in `Common.h`) used by
`Scene.cpp`. -/
structure PostProcessingConstants (α : Type) where
  area2DTopLeft : CVector2 α
  area2DSize : CVector2 α
  area2DDepth : α
  polygon2DPoints : Fin 4 → CVector4 α
  tintTopColour : CVector3 α
  tintBottomColour : CVector3 α
  noiseScale : CVector2 α
  noiseOffset : CVector2 α
  burnHeight : α
  spiralLevel : α
  heatHazeTimer : α
  HueWiggle : α
  waterColour : CVector3 α
  Wiggle : α
  bloomThreshold : α
  depthThreshold : α
  blurStrength : Int
  weight : Int → α
  kernel : Int → Int
  MidLine : α
  MidLineEnabled : Bool
  IsFullScreen : Bool

/-- The C library, the random source, the viewport and the camera, as used by the
post-processing code. -/
structure Env (α : Type) where
  exp : α → α
  cos : α → α
  fmod : α → α → α
  PI : α
  /-- The value returned by the `k`-th call of `Random(lo, hi)`. -/
  Random : Nat → α → α → α
  gViewportWidth : α
  gViewportHeight : α
  /-- The map `p ↦ CVector4(p, 1) * worldMatrix * gCamera->ViewProjectionMatrix()`. -/
  project : CVector3 α → CVector4 α
  NearClip : α
  FarClip : α
  PixelFromWorldPt : CVector3 α → CVector3 α
  PixelSizeInWorldSpace : α → CVector2 α

/-- The globals of `Scene.cpp` read or written by the post-processing code, the
function-local `static float spiral` (line 728), the device context and the logs. -/
structure SceneState (α : Type) where
  gConstantsList : List (Constants α)
  gPostProcessList : List ProcessAndMode
  gCurrentPostProcess : PostProcess
  gCurrentSecondPostProcess : PostProcess
  gPostProcessingConstants : PostProcessingConstants α
  spiral : α
  context : Context
  draws : List Draw
  faults : List Fault
  weightWrites : List Int
  kernelWrites : List Int
  randomCalls : Nat

/-! ## Device-context calls and container accesses -/

variable {α : Type} [LinearOrderedField α]

/-- The call `OMSetRenderTargets(1, &rt, gDepthStencil)`, or with no colour target. -/
def SceneState.OMSetRenderTargets (s : SceneState α) (rt : Option RenderTargetView) :
    SceneState α :=
  { s with context := { s.context with renderTarget := rt } }

/-- The call `PSSetShaderResources(slot, 1, &srv)` for the slots 0, 1 and 2. -/
def SceneState.PSSetShaderResources (s : SceneState α) (slot : Nat)
    (srv : Option ShaderResourceView) : SceneState α :=
  match slot with
  | 0 => { s with context := { s.context with psResource0 := srv } }
  | 1 => { s with context := { s.context with psResource1 := srv } }
  | 2 => { s with context := { s.context with psResource2 := srv } }
  | _ => s

/-- The call `PSSetShader(ps, nullptr, 0)`. -/
def SceneState.PSSetShader (s : SceneState α) (ps : PixelShader) : SceneState α :=
  { s with context := { s.context with pixelShader := some ps } }

/-- The call `VSSetShader(vs, nullptr, 0)`. -/
def SceneState.VSSetShader (s : SceneState α) (vs : VertexShader) : SceneState α :=
  { s with context := { s.context with vertexShader := some vs } }

/-- A draw call (`Draw(4, 0)` or `Model::Render()`): logs the current bindings. -/
def SceneState.Draw (s : SceneState α) (caller : Caller) (postProcess : PostProcess)
    (i : Int) : SceneState α :=
  { s with draws := s.draws ++
      [{ caller := caller, postProcess := postProcess, index := i,
         renderTarget := s.context.renderTarget,
         texture0 := s.context.psResource0, texture1 := s.context.psResource1,
         pixelShader := s.context.pixelShader, vertexShader := s.context.vertexShader }] }

/-- Whether `i` is a valid position of a container of `n` elements. -/
def inRange (i : Int) (n : Nat) : Bool := decide (0 ≤ i) && decide (i.toNat < n)

/-- The value read by `gConstantsList[i]`; out of range the model reads `Constants()`. -/
def SceneState.constantsAt (s : SceneState α) (i : Int) : Constants α :=
  if inRange i s.gConstantsList.length then s.gConstantsList.getD i.toNat Constants.ctor
  else Constants.ctor

/-- Bookkeeping of one evaluation of `gConstantsList[i]`: out of range it is logged. -/
def SceneState.touchConstants (s : SceneState α) (i : Int) : SceneState α :=
  if inRange i s.gConstantsList.length then s
  else { s with faults := s.faults ++ [Fault.gConstantsList i] }

/-- An update of the record `gConstantsList[i]` in place. -/
def SceneState.modifyConstants (s : SceneState α) (i : Int)
    (f : Constants α → Constants α) : SceneState α :=
  if inRange i s.gConstantsList.length then
    { s with gConstantsList :=
        s.gConstantsList.set i.toNat (f (s.gConstantsList.getD i.toNat Constants.ctor)) }
  else { s with faults := s.faults ++ [Fault.gConstantsList i] }

/-- An update of `gPostProcessingConstants`. -/
def SceneState.modifyPP (s : SceneState α)
    (f : PostProcessingConstants α → PostProcessingConstants α) : SceneState α :=
  { s with gPostProcessingConstants := f s.gPostProcessingConstants }

/-- The assignment `gPostProcessingConstants.weight[x].x = v`. -/
def SceneState.setWeight (s : SceneState α) (x : Int) (v : α) : SceneState α :=
  { s with
    gPostProcessingConstants :=
      { s.gPostProcessingConstants with
        weight := Function.update s.gPostProcessingConstants.weight x v }
    weightWrites := s.weightWrites ++ [x] }

/-- The assignment `gPostProcessingConstants.kernel[x].x = v`. -/
def SceneState.setKernel (s : SceneState α) (x : Int) (v : Int) : SceneState α :=
  { s with
    gPostProcessingConstants :=
      { s.gPostProcessingConstants with
        kernel := Function.update s.gPostProcessingConstants.kernel x v }
    kernelWrites := s.kernelWrites ++ [x] }

/-- The loop `for (int x = lo; x < hi; ++x) body`, for a body that changes neither
`x` nor the bound. -/
def forLoop {σ : Type} (lo hi : Int) (body : Int → σ → σ) (s : σ) : σ :=
  (List.range (hi - lo).toNat).foldl (fun acc (k : Nat) => body (lo + (k : Int)) acc) s

/-! ## `SelectPostProcessShaderAndTextures` (lines 672-843) -/

/-- The expression of line 795 for the weight at `x`. -/
def blurWeightExpr (M : Env α) (mean sigma : α) (x : Int) : α :=
  M.exp (-(1 / 2) * ((((x : α) - mean) / sigma) ^ 2 + (((x : α) - mean) / sigma) ^ 2))
    / (2 * M.PI * sigma * sigma)

/-- The first loop of the `BlurH` branch with the locals `sigma`, `mean` and `sum`
(lines 788-799); returns the state paired with `sum`. -/
def blurWeightLoop (M : Env α) (s : SceneState α) : SceneState α × α :=
  let sigma : α := 40
  let mean : α := ((Int.tdiv (s.gPostProcessingConstants.blurStrength - 1) 2 : Int) : α)
  forLoop 0 s.gPostProcessingConstants.blurStrength
    (fun x acc =>
      let s1 := acc.1.setWeight x (blurWeightExpr M mean sigma x)
      (s1, acc.2 + s1.gPostProcessingConstants.weight x))
    (s, 0)

/-- The second loop of the `BlurH` branch (lines 802-805), from the state and `sum`
left by the first. -/
def blurNormaliseLoop (r : SceneState α × α) : SceneState α :=
  forLoop 0 r.1.gPostProcessingConstants.blurStrength
    (fun x acc => acc.setWeight x (acc.gPostProcessingConstants.weight x / r.2)) r.1

/-- The offsets of the `BlurH` branch (lines 808-815). -/
def blurKernelOffsets (s : SceneState α) : SceneState α :=
  let midpoint : Int := Int.tdiv (s.gPostProcessingConstants.blurStrength - 1) 2
  forLoop 1 (midpoint + 1)
    (fun x acc => (acc.setKernel (midpoint + x) x).setKernel (midpoint - x) (-x))
    (s.setKernel midpoint 0)

/-- The statement `x -= 1` on a 32-bit `int`: a result below `INT_MIN = -2147483648`
wraps around by `2^32`, so `INT_MIN` is decremented to `INT_MAX = 2147483647`; every
other 32-bit value `x` gives `x - 1`. -/
def decrementInt32 (x : Int) : Int :=
  if x - 1 < -2147483648 then x - 1 + 4294967296 else x - 1

/-- The odd coercion of lines 783-786, on a strength: an even strength is decremented,
as a 32-bit `int`. -/
def effectiveBlurStrength (blurStrength : Int) : Int :=
  if Int.tmod blurStrength 2 = 0 then decrementInt32 blurStrength else blurStrength

/-- Line 781: `gPostProcessingConstants.blurStrength = gConstantsList[i].blurStrength`. -/
def SceneState.loadBlurStrength (s : SceneState α) (i : Int) : SceneState α :=
  (s.touchConstants i).modifyPP
    (fun pp => { pp with blurStrength := (s.constantsAt i).blurStrength })

/-- Lines 783-786: an even `gPostProcessingConstants.blurStrength` is decremented. -/
def SceneState.coerceBlurStrength (s : SceneState α) : SceneState α :=
  s.modifyPP (fun pp => { pp with blurStrength := effectiveBlurStrength pp.blurStrength })

/-- The `BlurH` branch (lines 771-816). -/
def selectBlurH (M : Env α) (i : Int) (s : SceneState α) : SceneState α :=
  blurKernelOffsets (blurNormaliseLoop (blurWeightLoop M
    (((s.PSSetShader .gBlurHPostProcess).loadBlurStrength i).coerceBlurStrength)))

/-- Two calls of `Random` have been made. -/
def SceneState.advanceRandom (s : SceneState α) : SceneState α :=
  { s with randomCalls := s.randomCalls + 2 }

/-- Line 733: `spiral += spiralSpeed * frameTime`. -/
def SceneState.advanceSpiral (s : SceneState α) (spiralSpeed frameTime : α) : SceneState α :=
  { s with spiral := s.spiral + spiralSpeed * frameTime }

/-- Select the shader plus any additional textures and parameters required for a
post-process (lines 672-843).  The chain of `else if` on `postProcess` is the `match`;
`PostProcess::None` matches no branch. -/
def SelectPostProcessShaderAndTextures (M : Env α) (postProcess : PostProcess)
    (frameTime : α) (i : Int) (s : SceneState α) : SceneState α :=
  match postProcess with
  | .Copy => s.PSSetShader .gCopyPostProcess
  | .Tint =>
    let c := s.constantsAt i
    let s := (s.touchConstants i).modifyPP
      (fun pp => { pp with tintBottomColour := c.tintBottomColour })
    let c := s.constantsAt i
    let s := (s.touchConstants i).modifyPP
      (fun pp => { pp with tintTopColour := c.tintTopColour })
    s.PSSetShader .gTintPostProcess
  | .GreyNoise =>
    let s := s.PSSetShader .gGreyNoisePostProcess
    let grainSize : α := 140
    let s := s.modifyPP (fun pp =>
      { pp with noiseScale := ⟨M.gViewportWidth / grainSize, M.gViewportHeight / grainSize⟩ })
    let s := (s.modifyPP (fun pp =>
      { pp with noiseOffset :=
          ⟨M.Random s.randomCalls 0 1, M.Random (s.randomCalls + 1) 0 1⟩ })).advanceRandom
    s.PSSetShaderResources 1 (some .gNoiseMapSRV)
  | .Burn =>
    let s := s.PSSetShader .gBurnPostProcess
    let burnSpeed : α := 2 / 10
    let s := s.modifyPP (fun pp =>
      { pp with burnHeight := M.fmod (pp.burnHeight + burnSpeed * frameTime) 1 })
    s.PSSetShaderResources 1 (some .gBurnMapSRV)
  | .Distort =>
    let s := s.PSSetShader .gDistortPostProcess
    s.PSSetShaderResources 1 (some .gDistortMapSRV)
  | .Spiral =>
    let s := s.PSSetShader .gSpiralPostProcess
    let spiralSpeed : α := 1
    let s := s.modifyPP (fun pp => { pp with spiralLevel := (1 - M.cos s.spiral) * 4 })
    let s := s.advanceSpiral spiralSpeed frameTime
    s.PSSetShader .gSpiralPostProcess
  | .HeatHaze =>
    let s := s.PSSetShader .gHeatHazePostProcess
    s.modifyPP (fun pp => { pp with heatHazeTimer := pp.heatHazeTimer + frameTime })
  | .HueTint =>
    let s := s.PSSetShader .gHueTintPostProcess
    let c := s.constantsAt i
    (s.touchConstants i).modifyPP
      (fun pp => { pp with HueWiggle := pp.HueWiggle + c.HueWiggleSpeed * frameTime })
  | .Underwater =>
    let s := s.PSSetShader .gUnderwaterPostProcess
    let s := s.modifyPP (fun pp => { pp with waterColour := ⟨2 / 10, 4 / 10, 1⟩ })
    let speed := (s.constantsAt i).WiggleSpeed
    let s := s.touchConstants i
    let s := s.modifyConstants i (fun c => { c with Wiggle := c.Wiggle + speed * frameTime })
    let c := s.constantsAt i
    (s.touchConstants i).modifyPP (fun pp => { pp with Wiggle := c.Wiggle })
  | .Inverted => s.PSSetShader .gInvertedColourPostProcess
  | .NightVision => s.PSSetShader .gNightVisionPostProcess
  | .BlurH => selectBlurH M i s
  | .BlurV => s.PSSetShader .gBlurVPostProcess
  | .Retro => s.PSSetShader .gRetroPostProcess
  | .Bloom1 =>
    let c := s.constantsAt i
    let s := (s.touchConstants i).modifyPP
      (fun pp => { pp with bloomThreshold := c.bloomThreshold })
    s.PSSetShader .gBloom1PostProcess
  | .Bloom2 =>
    let s := s.PSSetShader .gBloom2PostProcess
    s.PSSetShaderResources 1 (some .gSceneTextureOneSRV)
  | .DepthOfField =>
    let c := s.constantsAt i
    let s := (s.touchConstants i).modifyPP
      (fun pp => { pp with depthThreshold := c.depthThreshold })
    s.PSSetShader .gDepthOfFieldPostProcess
  | .None => s

/-! ## The pass functions (lines 848-1079) -/

/-- The three assignments `area2DTopLeft = {0,0}`, `area2DSize = {1,1}`,
`area2DDepth = 0` (lines 887-889 and 943-945). -/
def SceneState.setFullScreenArea (s : SceneState α) : SceneState α :=
  s.modifyPP (fun pp =>
    { pp with area2DTopLeft := ⟨0, 0⟩, area2DSize := ⟨1, 1⟩, area2DDepth := 0 })

/-- The surface selection by parity of `i` shared by `FullScreenPostProcess`
(lines 865-879) and `PolygonPostProcess` (lines 1035-1048). -/
def SceneState.selectPingPong (s : SceneState α) (i : Int) : SceneState α :=
  let s := s.PSSetShaderResources 0 none
  if Int.tmod i 2 = 0 then
    (s.OMSetRenderTargets (some .gSceneRenderTargetTwo)).PSSetShaderResources 0
      (some .gSceneTextureSRV)
  else
    (s.OMSetRenderTargets (some .gSceneRenderTarget)).PSSetShaderResources 0
      (some .gSceneTextureTwoSRV)

/-- Perform a full-screen post process (lines 848-904). -/
def FullScreenPostProcess (M : Env α) (postProcess : PostProcess) (frameTime : α) (i : Int)
    (s : SceneState α) : SceneState α :=
  let s := s.VSSetShader .g2DQuadVertexShader
  let s := s.selectPingPong i
  let s := SelectPostProcessShaderAndTextures M postProcess frameTime i s
  let s := s.setFullScreenArea
  let s := s.Draw .FullScreenPostProcess postProcess i
  let s := s.OMSetRenderTargets (some .gBackBufferRenderTarget)
  s.Draw .FullScreenPostProcess postProcess i

/-- Copy the current read surface into `gSceneTextureOne` (lines 907-959). -/
def SaveBaseSceneTexture (i : Int) (s : SceneState α) : SceneState α :=
  let s := s.VSSetShader .g2DQuadVertexShader
  let s := s.PSSetShaderResources 0 none
  let s := s.OMSetRenderTargets (some .gSceneRenderTargetCopy)
  let s :=
    if Int.tmod i 2 = 0 then s.PSSetShaderResources 0 (some .gSceneTextureSRV)
    else s.PSSetShaderResources 0 (some .gSceneTextureTwoSRV)
  let s := s.PSSetShader .gCopyPostProcess
  let s := s.setFullScreenArea
  let s := s.Draw .SaveBaseSceneTexture .Copy i
  let s := s.OMSetRenderTargets (some .gBackBufferRenderTarget)
  s.Draw .SaveBaseSceneTexture .Copy i

/-- Perform an area post process at a point of the world (lines 962-1025). -/
def AreaPostProcess (M : Env α) (postProcess : PostProcess) (worldPoint : CVector3 α)
    (areaSize : CVector2 α) (frameTime : α) (i : Int) (s : SceneState α) : SceneState α :=
  let s := FullScreenPostProcess M .Copy frameTime i s
  let s := SelectPostProcessShaderAndTextures M postProcess frameTime i s
  let worldPointTo2D := M.PixelFromWorldPt worldPoint
  let area2DCentre : CVector2 α := ⟨worldPointTo2D.x, worldPointTo2D.y⟩
  let areaDistance := worldPointTo2D.z
  if areaDistance < M.NearClip then s
  else
    let area2DCentre : CVector2 α :=
      ⟨area2DCentre.x / M.gViewportWidth, area2DCentre.y / M.gViewportHeight⟩
    let pixelSizeAtPoint := M.PixelSizeInWorldSpace areaDistance
    let area2DSize : CVector2 α :=
      ⟨areaSize.x / pixelSizeAtPoint.x, areaSize.y / pixelSizeAtPoint.y⟩
    let area2DSize : CVector2 α :=
      ⟨area2DSize.x / M.gViewportWidth, area2DSize.y / M.gViewportHeight⟩
    let s := s.modifyPP (fun pp =>
      { pp with
        area2DTopLeft :=
          ⟨area2DCentre.x - (1 / 2) * area2DSize.x, area2DCentre.y - (1 / 2) * area2DSize.y⟩
        area2DSize := area2DSize })
    let s := s.modifyPP (fun pp =>
      { pp with
        area2DDepth := M.FarClip * (areaDistance - M.NearClip) / (M.FarClip - M.NearClip) })
    let s := s.modifyPP (fun pp => { pp with area2DDepth := pp.area2DDepth / areaDistance })
    s.Draw .AreaPostProcess postProcess i

/-- Perform a post process within a four-point polygon (lines 1029-1079). -/
def PolygonPostProcess (M : Env α) (postProcess : PostProcess) (points : Fin 4 → CVector3 α)
    (frameTime : α) (i : Int) (s : SceneState α) : SceneState α :=
  let s := FullScreenPostProcess M .Copy frameTime i s
  let s := s.selectPingPong i
  let s := SelectPostProcessShaderAndTextures M postProcess frameTime i s
  let s := s.modifyPP (fun pp => { pp with polygon2DPoints := fun k => M.project (points k) })
  let s := s.VSSetShader .g2DPolygonVertexShader
  let s := s.Draw .PolygonPostProcess postProcess i
  let s := s.OMSetRenderTargets (some .gBackBufferRenderTarget)
  s.Draw .PolygonPostProcess postProcess i

/-! ## Scene rendering (lines 539-664 and 1126-1551) -/

/-- Depth-only rendering of the four models (lines 539-566). -/
def RenderDepthBufferFromCamera (s : SceneState α) : SceneState α :=
  let s := s.VSSetShader .gBasicTransformVertexShader
  let s := s.PSSetShader .gDepthOnlyPixelShader
  let s := s.Draw .RenderDepthBufferFromCamera .None 0
  let s := s.Draw .RenderDepthBufferFromCamera .None 0
  let s := s.Draw .RenderDepthBufferFromCamera .None 0
  s.Draw .RenderDepthBufferFromCamera .None 0

/-- Render everything in the scene (lines 569-664): four lit models, the sky and the
two lights, onto the render target bound by the caller. -/
def RenderSceneFromCamera (s : SceneState α) : SceneState α :=
  let s := s.PSSetShader .gPixelLightingPixelShader
  let s := s.VSSetShader .gPixelLightingVertexShader
  let s := s.PSSetShader .gPixelLightingPixelShader
  let s := s.PSSetShaderResources 0 (some .gGroundDiffuseSpecularMapSRV)
  let s := s.Draw .RenderSceneFromCamera .None 0
  let s := s.PSSetShaderResources 0 (some .gCrateDiffuseSpecularMapSRV)
  let s := s.Draw .RenderSceneFromCamera .None 0
  let s := s.PSSetShaderResources 0 (some .gCubeDiffuseSpecularMapSRV)
  let s := s.Draw .RenderSceneFromCamera .None 0
  let s := s.PSSetShaderResources 0 (some .gWallDiffuseSpecularMapSRV)
  let s := s.Draw .RenderSceneFromCamera .None 0
  let s := s.VSSetShader .gBasicTransformVertexShader
  let s := s.PSSetShader .gTintedTexturePixelShader
  let s := s.PSSetShaderResources 0 (some .gStarsDiffuseSpecularMapSRV)
  let s := s.Draw .RenderSceneFromCamera .None 0
  let s := s.VSSetShader .gBasicTransformVertexShader
  let s := s.PSSetShader .gTintedTexturePixelShader
  let s := s.PSSetShaderResources 0 (some .gLightDiffuseMapSRV)
  forLoop 0 2 (fun _ acc => acc.Draw .RenderSceneFromCamera .None 0) s

/-- The table `points` of lines 1196-1200: the four window quads. -/
def points (i : Fin 4) (k : Fin 4) : CVector3 α :=
  let left : α := match i with
    | 0 => 22
    | 1 => 36
    | 2 => 50
    | 3 => 64
  let right : α := match i with
    | 0 => 33
    | 1 => 49
    | 2 => 63
    | 3 => 78
  match k with
  | 0 => ⟨left, 25, -50⟩
  | 1 => ⟨left, 5, -50⟩
  | 2 => ⟨right, 25, -50⟩
  | 3 => ⟨right, 5, -50⟩

/-- The value read by `points[i]` at line 1216; out of range the model reads a quad of
zero vectors. -/
def pointsAt (i : Int) : Fin 4 → CVector3 α :=
  if h : 0 ≤ i ∧ i.toNat < 4 then points ⟨i.toNat, h.2⟩ else fun _ => ⟨0, 0, 0⟩

/-- Bookkeeping of the evaluation of `points[i]`: out of range it is logged. -/
def SceneState.touchPoints (s : SceneState α) (i : Int) : SceneState α :=
  if inRange i 4 then s else { s with faults := s.faults ++ [Fault.points i] }

/-- The entry read by `gPostProcessList[i]` inside the loops of `RenderScene`. -/
def SceneState.entryAt (s : SceneState α) (i : Int) : Option ProcessAndMode :=
  if 0 ≤ i then s.gPostProcessList[i.toNat]? else none

/-- Body of the polygon loop (lines 1214-1217). -/
def RenderScene.polygonStep (M : Env α) (frameTime : α) (i : Int) (s : SceneState α) :
    SceneState α :=
  match s.entryAt i with
  | some e =>
    if e.mode = .Polygon then
      PolygonPostProcess M e.process (pointsAt i) frameTime i (s.touchPoints i)
    else s
  | none => s

/-- Body of the full-screen loop (lines 1230-1235). -/
def RenderScene.fullscreenStep (M : Env α) (frameTime : α) (i : Int) (s : SceneState α) :
    SceneState α :=
  match s.entryAt i with
  | some e =>
    if e.mode = .Fullscreen ∧ e.process ≠ .Bloom1 then
      let s := { s with gCurrentPostProcess := e.process }
      FullScreenPostProcess M e.process frameTime i s
    else s
  | none => s

/-- The expansion of a bloom entry at position `i` (lines 1246-1306). -/
def RenderScene.bloomExpansion (M : Env α) (frameTime : α) (i : Int) (process : PostProcess)
    (s : SceneState α) : SceneState α :=
  let j := i
  let s := SaveBaseSceneTexture i s
  let s := { s with gCurrentPostProcess := process }
  let s := FullScreenPostProcess M process frameTime j s
  let j := j + 1
  let s := s.modifyConstants i (fun c => { c with blurStrength := 90 })
  let s := { s with gCurrentPostProcess := .BlurH }
  let s := FullScreenPostProcess M .BlurH frameTime j s
  let j := j + 1
  let s := { s with gCurrentPostProcess := .BlurV }
  let s := FullScreenPostProcess M .BlurV frameTime j s
  let j := j + 1
  let s := { s with gCurrentPostProcess := .Bloom2 }
  let s := FullScreenPostProcess M .Bloom2 frameTime j s
  FullScreenPostProcess M .Copy frameTime i s

/-- Body of the bloom loop (lines 1243-1307). -/
def RenderScene.bloomStep (M : Env α) (frameTime : α) (i : Int) (s : SceneState α) :
    SceneState α :=
  match s.entryAt i with
  | some e =>
    if e.process = .Bloom1 then RenderScene.bloomExpansion M frameTime i e.process s else s
  | none => s

/-- The polygon sweep (lines 1209-1219). -/
def RenderScene.polygonSweep (M : Env α) (frameTime : α) (s : SceneState α) : SceneState α :=
  if s.gPostProcessList.length ≠ 0 then
    forLoop 0 s.gPostProcessList.length (RenderScene.polygonStep M frameTime) s
  else s

/-- The full-screen sweep (lines 1226-1237). -/
def RenderScene.fullscreenSweep (M : Env α) (frameTime : α) (s : SceneState α) :
    SceneState α :=
  if s.gPostProcessList.length ≠ 0 then
    forLoop 0 s.gPostProcessList.length (RenderScene.fullscreenStep M frameTime) s
  else s

/-- The bloom sweep (lines 1239-1309). -/
def RenderScene.bloomSweep (M : Env α) (frameTime : α) (s : SceneState α) : SceneState α :=
  if s.gPostProcessList.length ≠ 0 then
    forLoop 0 s.gPostProcessList.length (RenderScene.bloomStep M frameTime) s
  else s

/-- Rendering the scene (lines 1126-1551).  The ImGui panel (lines 1323-1524), whose
sliders are user input on the records of `gConstantsList`, and `Present` are not
modelled. -/
def RenderScene (M : Env α) (frameTime : α) (s : SceneState α) : SceneState α :=
  let s := s.OMSetRenderTargets none
  let s := RenderDepthBufferFromCamera s
  let s :=
    if s.gPostProcessList.length ≠ 0 then s.OMSetRenderTargets (some .gSceneRenderTarget)
    else s.OMSetRenderTargets (some .gBackBufferRenderTarget)
  let s := s.PSSetShaderResources 2 (some .gDepthShaderView)
  let s := RenderSceneFromCamera s
  let s := s.modifyPP (fun pp => { pp with IsFullScreen := false })
  let s := RenderScene.polygonSweep M frameTime s
  let s := s.modifyPP (fun pp => { pp with IsFullScreen := true })
  let s := RenderScene.fullscreenSweep M frameTime s
  let s := RenderScene.bloomSweep M frameTime s
  let s := s.OMSetRenderTargets (some .gBackBufferRenderTarget)
  s.PSSetShaderResources 0 none

/-! ## Scene set-up and update (lines 392-467 and 1560-1686) -/

/-- The post-processing part of `InitScene` (lines 441-464). -/
def InitScene (s : SceneState α) : SceneState α :=
  let window1 : ProcessAndMode := ⟨.NightVision, .Polygon⟩
  let s := { s with gConstantsList := s.gConstantsList ++ [Constants.ctor] }
  let window2 : ProcessAndMode := ⟨.Underwater, .Polygon⟩
  let s := { s with gConstantsList := s.gConstantsList ++ [Constants.ctor] }
  let window3 : ProcessAndMode := ⟨.Inverted, .Polygon⟩
  let s := { s with gConstantsList := s.gConstantsList ++ [Constants.ctor] }
  let window4 : ProcessAndMode := ⟨.HueTint, .Polygon⟩
  let s := { s with gConstantsList := s.gConstantsList ++ [Constants.ctor] }
  let s := s.modifyPP (fun pp =>
    { pp with tintTopColour := ⟨0, 0, 1⟩, tintBottomColour := ⟨0, 1, 0⟩, blurStrength := 13,
              MidLine := 1 / 2 })
  let s := { s with gPostProcessList := s.gPostProcessList ++ [window1] }
  let s := { s with gPostProcessList := s.gPostProcessList ++ [window2] }
  let s := { s with gPostProcessList := s.gPostProcessList ++ [window3] }
  { s with gPostProcessList := s.gPostProcessList ++ [window4] }

/-- The keys polled by the `else if` chain of `UpdateScene`, in the order polled. -/
inductive KeyCode where
  | Key_1
  | Key_2
  | Key_3
  | Key_4
  | Key_5
  | Key_6
  | Key_7
  | Key_8
  | Key_I
  | Key_N
  | Key_T
  | Key_R
  | Key_G
  | Key_B
  | Key_0
  deriving DecidableEq, Repr

/-- The statement `gPostProcessList.push_back(process)`. -/
def SceneState.pushProcess (s : SceneState α) (process : PostProcess) (mode : PostProcessMode) :
    SceneState α :=
  { s with gPostProcessList := s.gPostProcessList ++ [⟨process, mode⟩] }

/-- The statement `gConstantsList.push_back(constants)`. -/
def SceneState.pushConstants (s : SceneState α) (constants : Constants α) : SceneState α :=
  { s with gConstantsList := s.gConstantsList ++ [constants] }

/-- The post-processing part of `UpdateScene` (lines 1568-1620): the chain of
`else if (KeyHit(..))`.  Light, camera and frame-counter updates (lines 1654-1685) do
not touch the post-processing state and are not modelled. -/
def UpdateScene (KeyHit : KeyCode → Bool) (s : SceneState α) : SceneState α :=
  if KeyHit .Key_1 then
    let s := s.pushProcess .HueTint .Fullscreen
    let s := s.modifyPP (fun pp =>
      { pp with tintTopColour := ⟨0, 0, 1⟩, tintBottomColour := ⟨0, 1, 0⟩ })
    s.pushConstants Constants.ctor
  else if KeyHit .Key_2 then
    let s := s.pushProcess .BlurH .Fullscreen
    let s := s.pushProcess .BlurV .Fullscreen
    let constants : Constants α := Constants.ctor
    (s.pushConstants constants).pushConstants constants
  else if KeyHit .Key_3 then
    (s.pushProcess .Underwater .Fullscreen).pushConstants Constants.ctor
  else if KeyHit .Key_4 then
    (s.pushProcess .Distort .Fullscreen).pushConstants Constants.ctor
  else if KeyHit .Key_5 then
    (s.pushProcess .Spiral .Fullscreen).pushConstants Constants.ctor
  else if KeyHit .Key_6 then
    (s.pushProcess .HeatHaze .Fullscreen).pushConstants Constants.ctor
  else if KeyHit .Key_7 then
    (s.pushProcess .Burn .Fullscreen).pushConstants Constants.ctor
  else if KeyHit .Key_8 then
    (s.pushProcess .DepthOfField .Fullscreen).pushConstants Constants.ctor
  else if KeyHit .Key_I then
    (s.pushProcess .Inverted .Fullscreen).pushConstants Constants.ctor
  else if KeyHit .Key_N then
    (s.pushProcess .NightVision .Fullscreen).pushConstants Constants.ctor
  else if KeyHit .Key_T then
    (s.pushProcess .Tint .Fullscreen).pushConstants Constants.ctor
  else if KeyHit .Key_R then
    (s.pushProcess .Retro .Fullscreen).pushConstants Constants.ctor
  else if KeyHit .Key_G then
    (s.pushProcess .GreyNoise .Fullscreen).pushConstants Constants.ctor
  else if KeyHit .Key_B then
    let s := s.pushProcess .Bloom1 .Fullscreen
    let constants : Constants α := { (Constants.ctor : Constants α) with blurStrength := 90 }
    (((s.pushConstants constants).pushConstants constants).pushConstants
      constants).pushConstants constants
  else if KeyHit .Key_0 then
    let s := { s with gConstantsList := [] }
    let s := { s with gPostProcessList := [] }
    let s := { s with gCurrentPostProcess := .None }
    let s := { s with gCurrentSecondPostProcess := .None }
    let s := s.modifyPP (fun pp =>
      { pp with bloomThreshold := 13 / 10, blurStrength := 13, MidLine := 1 / 2 })
    let s := s.pushConstants Constants.ctor
    let s := s.pushConstants Constants.ctor
    let s := s.pushConstants Constants.ctor
    let s := s.pushConstants Constants.ctor
    let s := s.modifyPP (fun pp =>
      { pp with tintTopColour := ⟨0, 0, 1⟩, tintBottomColour := ⟨0, 1, 0⟩ })
    let s := s.pushProcess .NightVision .Polygon
    let s := s.pushProcess .Underwater .Polygon
    let s := s.pushProcess .Inverted .Polygon
    s.pushProcess .HueTint .Polygon
  else s

/-! ## Passes: the off-screen draws of the post-processing functions -/

/-- One post-processing pass, seen through its off-screen draw: the function that
issued it, its `postProcess` and `i` arguments, the texture sampled at slot 0 and the
texture rendered to. -/
structure Pass where
  caller : Caller
  postProcess : PostProcess
  index : Int
  read : Option Texture
  write : Texture
  deriving DecidableEq, Repr

/-- The pass of a draw: a draw of a post-processing function onto a render target
other than the back buffer. -/
def Draw.toPass? (d : Draw) : Option Pass :=
  match d.caller with
  | .RenderDepthBufferFromCamera => none
  | .RenderSceneFromCamera => none
  | _ =>
    match d.renderTarget with
    | none => none
    | some .gBackBufferRenderTarget => none
    | some rt =>
      some { caller := d.caller, postProcess := d.postProcess, index := d.index,
             read := d.texture0.map ShaderResourceView.texture, write := rt.texture }

/-- The passes of a draw log, in the order issued. -/
def passesOf (draws : List Draw) : List Pass := draws.filterMap Draw.toPass?

/-- The draws logged between the states `s` and `s'`. -/
def drawsSince (s s' : SceneState α) : List Draw := s'.draws.drop s.draws.length

/-- A draw samples at slot 0 a texture other than the one it renders to, when it
renders off screen. -/
def Draw.readsOtherSurface (d : Draw) : Prop :=
  ∀ rt, d.renderTarget = some rt → rt ≠ .gBackBufferRenderTarget →
    ∃ srv, d.texture0 = some srv ∧ srv.texture ≠ rt.texture

/-- The label of a pass: caller, post-process and pass index. -/
structure PassLabel where
  caller : Caller
  postProcess : PostProcess
  index : Int
  deriving DecidableEq, Repr

/-- The label of a pass. -/
def Pass.label (p : Pass) : PassLabel := ⟨p.caller, p.postProcess, p.index⟩

/-! ## The ping-pong rule in the words of the specification -/

/-- Surface read by a pass of index `i`: the scene surface for even `i`, the second
surface for odd `i`. -/
def pingRead (i : Int) : Texture :=
  if i % 2 = 0 then .gSceneTexture else .gSceneTextureTwo

/-- Surface written by a pass of index `i`: the second surface for even `i`, the
scene surface for odd `i`. -/
def pingWrite (i : Int) : Texture :=
  if i % 2 = 0 then .gSceneTextureTwo else .gSceneTexture

/-- The pass a full-screen call with arguments `postProcess`, `i` is expected to be. -/
def fullScreenPass (postProcess : PostProcess) (i : Int) : Pass :=
  ⟨.FullScreenPostProcess, postProcess, i, some (pingRead i), pingWrite i⟩

/-- The patch pass a polygon call with arguments `postProcess`, `i` is expected to be. -/
def polygonPass (postProcess : PostProcess) (i : Int) : Pass :=
  ⟨.PolygonPostProcess, postProcess, i, some (pingRead i), pingWrite i⟩

/-- The snapshot pass `SaveBaseSceneTexture(i)` is expected to be. -/
def snapshotPass (i : Int) : Pass :=
  ⟨.SaveBaseSceneTexture, .Copy, i, some (pingRead i), .gSceneTextureOne⟩

/-- The six passes of the expansion of a bloom entry at position `i`. -/
def bloomPasses (i : Int) : List Pass :=
  [snapshotPass i, fullScreenPass .Bloom1 i, fullScreenPass .BlurH (i + 1),
   fullScreenPass .BlurV (i + 2), fullScreenPass .Bloom2 (i + 3), fullScreenPass .Copy i]

/-- The passes of one frame for the effect list `l`, sweep after sweep: the polygon
entries (copy, then patch), the full-screen entries other than `Bloom1`, the
expansions of the `Bloom1` entries. -/
def framePasses (l : List ProcessAndMode) : List Pass :=
  ((l.enum.filter (fun p => p.2.mode = .Polygon)).flatMap
      (fun p => [fullScreenPass .Copy p.1, polygonPass p.2.process p.1]))
  ++ ((l.enum.filter (fun p => p.2.mode = .Fullscreen ∧ p.2.process ≠ .Bloom1)).flatMap
      (fun p => [fullScreenPass p.2.process p.1]))
  ++ ((l.enum.filter (fun p => p.2.process = .Bloom1)).flatMap
      (fun p => bloomPasses p.1))

/-- What a callee leaves untouched: the draw log, the render target, texture slot 0,
the vertex shader, the effect list and the length of the parameter list. -/
def Preserves (s s' : SceneState α) : Prop :=
  s'.draws = s.draws ∧ s'.context.renderTarget = s.context.renderTarget ∧
  s'.context.psResource0 = s.context.psResource0 ∧
  s'.context.vertexShader = s.context.vertexShader ∧
  s'.gPostProcessList = s.gPostProcessList ∧
  s'.gConstantsList.length = s.gConstantsList.length

/-- Render-target view selected by the parity of `i` (lines 868-879, 1037-1048). -/
def pingTarget (i : Int) : RenderTargetView :=
  if Int.tmod i 2 = 0 then .gSceneRenderTargetTwo else .gSceneRenderTarget

/-- Shader-resource view selected by the parity of `i` (lines 868-879, 930-937,
1037-1048). -/
def pingSource (i : Int) : ShaderResourceView :=
  if Int.tmod i 2 = 0 then .gSceneTextureSRV else .gSceneTextureTwoSRV

/-- A draw of the scene geometry rather than of a post-processing function. -/
def Draw.isGeometry (d : Draw) : Prop :=
  d.caller = .RenderDepthBufferFromCamera ∨ d.caller = .RenderSceneFromCamera

/-- From `s` to `s'` the draws `ds` were logged, each post-processing draw among them
sampling a texture other than its off-screen target, the passes among them are `ps`,
and the effect list and the length of the parameter list did not change. -/
def Runs (s s' : SceneState α) (ps : List Pass) : Prop :=
  ∃ ds, s'.draws = s.draws ++ ds ∧ passesOf ds = ps ∧
    (∀ d ∈ ds, ¬ d.isGeometry → d.readsOtherSurface) ∧
    s'.gPostProcessList = s.gPostProcessList ∧
    s'.gConstantsList.length = s.gConstantsList.length

/-- The passes `f e` for the entry `e` at position `x` of `l`, none past the end. -/
def atEntry (l : List ProcessAndMode) (x : Nat) (f : ProcessAndMode → List Pass) : List Pass :=
  match l[x]? with
  | some e => f e
  | none => []

/-- Passes of the polygon loop body at position `x` of the list `l`. -/
def polygonStepPasses (l : List ProcessAndMode) (x : Nat) : List Pass :=
  atEntry l x (fun e =>
    if e.mode = .Polygon then [fullScreenPass .Copy x, polygonPass e.process x] else [])

/-- Passes of the full-screen loop body at position `x` of the list `l`. -/
def fullscreenStepPasses (l : List ProcessAndMode) (x : Nat) : List Pass :=
  atEntry l x (fun e =>
    if e.mode = .Fullscreen ∧ e.process ≠ .Bloom1 then [fullScreenPass e.process x] else [])

/-- Passes of the bloom loop body at position `x` of the list `l`. -/
def bloomStepPasses (l : List ProcessAndMode) (x : Nat) : List Pass :=
  atEntry l x (fun e => if e.process = .Bloom1 then bloomPasses x else [])

/-! ## Statements of the specification, as predicates on pass lists -/

/-- A draw renders off screen and samples at slot 0 a texture other than its target. -/
def Draw.samplesOtherSurface (d : Draw) : Prop :=
  ∃ rt srv, d.renderTarget = some rt ∧ rt ≠ .gBackBufferRenderTarget ∧
    d.texture0 = some srv ∧ srv.texture ≠ rt.texture

/-- The pass `q` reads the surface the pass `p` wrote. -/
def Pass.readsOutputOf (q p : Pass) : Bool := q.read == some p.write

/-- Every full-screen pass after the first pass reads the surface written by the pass
executed immediately before it. -/
def chainsFullScreen (ps : List Pass) : Prop :=
  ∀ k p q, ps[k]? = some p → ps[k + 1]? = some q → q.caller = .FullScreenPostProcess →
    q.readsOutputOf p = true

/-- In a list of six passes, each of the five after the first reads the surface
written by the pass before it. -/
def chainsAfterSnapshot (ps : List Pass) : Prop :=
  ∀ k p q, k < 5 → ps[k]? = some p → ps[k + 1]? = some q → q.readsOutputOf p = true

/-- The pass indices of the bloom passes continue strictly increasing from those of
the full-screen sweep. -/
def indicesContinue (fullscreen bloom : List Pass) : Prop :=
  (∀ p ∈ fullscreen, ∀ q ∈ bloom, p.index < q.index) ∧
    List.Chain' (fun a b => a < b) (bloom.map Pass.index)

/-- The pass indices used for a bloom entry at position `i`. -/
def bloomIndices (i : Int) : List Int := [i, i, i + 1, i + 2, i + 3, i]

/-- The positions of the `Bloom1` entries of `l`. -/
def bloomPositions (l : List ProcessAndMode) : List Nat :=
  (l.enum.filter (fun p => p.2.process = .Bloom1)).map Prod.fst

/-- The number of `Bloom1` entries of `l`. -/
def bloomCount (l : List ProcessAndMode) : Nat :=
  l.countP (fun e => e.process = .Bloom1)

/-- The kind of a pass: caller and post-process, without the index. -/
def Pass.kind (p : Pass) : Caller × PostProcess := (p.caller, p.postProcess)

/-- The list of the ordering scenario. -/
def orderingScenario : List ProcessAndMode :=
  [⟨.Inverted, .Polygon⟩, ⟨.HueTint, .Fullscreen⟩, ⟨.Bloom1, .Fullscreen⟩]

/-- The pass kinds expected for the ordering scenario: polygon Inverted (after its
copy), full-screen HueTint, then the bloom expansion. -/
def orderingScenarioKinds : List (Caller × PostProcess) :=
  [(.FullScreenPostProcess, .Copy), (.PolygonPostProcess, .Inverted),
   (.FullScreenPostProcess, .HueTint),
   (.SaveBaseSceneTexture, .Copy), (.FullScreenPostProcess, .Bloom1),
   (.FullScreenPostProcess, .BlurH), (.FullScreenPostProcess, .BlurV),
   (.FullScreenPostProcess, .Bloom2), (.FullScreenPostProcess, .Copy)]

/-! ## Concrete inputs -/

/-- A constant buffer of zeros. -/
def PostProcessingConstants.zero : PostProcessingConstants α where
  area2DTopLeft := ⟨0, 0⟩
  area2DSize := ⟨0, 0⟩
  area2DDepth := 0
  polygon2DPoints := fun _ => ⟨0, 0, 0, 0⟩
  tintTopColour := ⟨0, 0, 0⟩
  tintBottomColour := ⟨0, 0, 0⟩
  noiseScale := ⟨0, 0⟩
  noiseOffset := ⟨0, 0⟩
  burnHeight := 0
  spiralLevel := 0
  heatHazeTimer := 0
  HueWiggle := 0
  waterColour := ⟨0, 0, 0⟩
  Wiggle := 0
  bloomThreshold := 0
  depthThreshold := 0
  blurStrength := 0
  weight := fun _ => 0
  kernel := fun _ => 0
  MidLine := 0
  MidLineEnabled := false
  IsFullScreen := false

/-- The state at program start: the empty vectors of lines 97 and 103, the
initialisers of lines 99-100 and 728, nothing bound and empty logs. -/
def SceneState.start : SceneState α where
  gConstantsList := []
  gPostProcessList := []
  gCurrentPostProcess := .None
  gCurrentSecondPostProcess := .None
  gPostProcessingConstants := PostProcessingConstants.zero
  spiral := 0
  context := ⟨none, none, none, none, none, none⟩
  draws := []
  faults := []
  weightWrites := []
  kernelWrites := []
  randomCalls := 0

/-- An executable environment over `ℚ`; `exp`, `cos`, `fmod` and `Random` are
stand-ins, which the pass structure does not depend on. -/
def Env.sample : Env ℚ where
  exp := fun _ => 1
  cos := fun _ => 1
  fmod := fun x _ => x
  PI := 3
  Random := fun _ lo _ => lo
  gViewportWidth := 1280
  gViewportHeight := 960
  project := fun p => ⟨p.x, p.y, p.z, 1⟩
  NearClip := 1
  FarClip := 1000
  PixelFromWorldPt := fun p => p
  PixelSizeInWorldSpace := fun _ => ⟨1, 1⟩

/-- Only the key `k` is hit. -/
def onlyKey (k : KeyCode) : KeyCode → Bool := fun x => decide (x = k)

/-- The state with the effect list replaced by `l`. -/
def SceneState.withList (s : SceneState α) (l : List ProcessAndMode) : SceneState α :=
  { s with gPostProcessList := l }

/-- The states the program reaches: `InitScene` at program start (both vectors empty,
lines 97 and 103), then any sequence of `UpdateScene` with any keys hit and of
`RenderScene` frames. -/
inductive Reachable (M : Env α) : SceneState α → Prop where
  | init (s : SceneState α) (hc : s.gConstantsList = []) (hl : s.gPostProcessList = []) :
      Reachable M (InitScene s)
  | update (KeyHit : KeyCode → Bool) (s : SceneState α) :
      Reachable M s → Reachable M (UpdateScene KeyHit s)
  | render (frameTime : α) (s : SceneState α) :
      Reachable M s → Reachable M (RenderScene M frameTime s)

/-- The state after `InitScene`, then the B key (bloom), then the 1 key (hue tint). -/
def bloomThenHue : SceneState ℚ :=
  UpdateScene (onlyKey .Key_1) (UpdateScene (onlyKey .Key_B) (InitScene SceneState.start))

/-- The passes of the frame rendered from `bloomThenHue`. -/
def bloomThenHuePasses : List Pass :=
  passesOf (drawsSince bloomThenHue (RenderScene Env.sample 0 bloomThenHue))

/-- The state after `InitScene`, then the B key (bloom), the 1 key (hue tint) four
times and the B key again: the second bloom entry is at list position 9, while its four
records are at positions 12 to 15 of the parameter list. -/
def twoBlooms : SceneState ℚ :=
  UpdateScene (onlyKey .Key_B)
    (UpdateScene (onlyKey .Key_1)
      (UpdateScene (onlyKey .Key_1)
        (UpdateScene (onlyKey .Key_1)
          (UpdateScene (onlyKey .Key_1)
            (UpdateScene (onlyKey .Key_B) (InitScene SceneState.start))))))

/-! ## Further observations and concrete inputs -/

/-- The indices of `weight` written between the states `s` and `s'`. -/
def weightWritesSince (s s' : SceneState α) : List Int :=
  s'.weightWrites.drop s.weightWrites.length

/-- The indices of `kernel` written between the states `s` and `s'`. -/
def kernelWritesSince (s s' : SceneState α) : List Int :=
  s'.kernelWrites.drop s.kernelWrites.length

/-- A state with one parameter record, of blur strength `b`. -/
def oneRecord (b : Int) : SceneState α :=
  SceneState.start.pushConstants { (Constants.ctor : Constants α) with blurStrength := b }

/-- The environment with the given `exp`, `cos`, `fmod` and `PI`, the other fields as
in `Env.sample`. -/
def Env.ofMath (exp cos : α → α) (fmod : α → α → α) (PI : α) : Env α where
  exp := exp
  cos := cos
  fmod := fmod
  PI := PI
  Random := fun _ lo _ => lo
  gViewportWidth := 1280
  gViewportHeight := 960
  project := fun p => ⟨p.x, p.y, p.z, 1⟩
  NearClip := 1
  FarClip := 1000
  PixelFromWorldPt := fun p => p
  PixelSizeInWorldSpace := fun _ => ⟨1, 1⟩

/-- The weight before normalisation in the words of the specification:
`exp(-((x-mean)^2)/(2σ²)) / (2π σ²)` with `σ = 40` and `mean = (n-1)/2`. -/
def specifiedWeight (M : Env α) (n : Int) (x : Int) : α :=
  M.exp (-(((x : α) - ((n : α) - 1) / 2) ^ 2) / (2 * 40 ^ 2)) / (2 * M.PI * 40 ^ 2)

/-- The weight before normalisation as line 795 computes it, the squared term being
added twice and halved once: `exp(-((x-mean)^2)/σ²) / (2π σ²)`. -/
def codedWeight (M : Env α) (n : Int) (x : Int) : α :=
  M.exp (-(((x : α) - ((n : α) - 1) / 2) ^ 2) / 40 ^ 2) / (2 * M.PI * 40 ^ 2)

/-- The C library function `fmod` in exact arithmetic: `x - y * n`, where `n` is the
quotient `x / y` truncated towards zero. -/
def fmodExact [FloorRing α] (x y : α) : α :=
  x - y * (((if 0 ≤ x / y then ⌊x / y⌋ else ⌈x / y⌉ : Int)) : α)

/-- The state after Burn selections with the elapsed times `ts`, one after the other. -/
def burnSequence (M : Env α) (i : Int) (ts : List α) (s : SceneState α) : SceneState α :=
  ts.foldl (fun acc t => SelectPostProcessShaderAndTextures M .Burn t i acc) s

/-- The depth value in the words of the specification,
`far * (dist - near) / ((far - near) * dist)`. -/
def specifiedDepth (near far dist : α) : α := far * (dist - near) / ((far - near) * dist)

/-- The bloom expansion up to and including its `BlurH` pass (lines 1246-1293). -/
def RenderScene.bloomExpansionBlurH (M : Env α) (frameTime : α) (i : Int)
    (process : PostProcess) (s : SceneState α) : SceneState α :=
  let j := i
  let s := SaveBaseSceneTexture i s
  let s := { s with gCurrentPostProcess := process }
  let s := FullScreenPostProcess M process frameTime j s
  let j := j + 1
  let s := s.modifyConstants i (fun c => { c with blurStrength := 90 })
  let s := { s with gCurrentPostProcess := .BlurH }
  FullScreenPostProcess M .BlurH frameTime j s

/-- The bloom expansion after its `BlurH` pass (lines 1294-1306). -/
def RenderScene.bloomExpansionRest (M : Env α) (frameTime : α) (i : Int)
    (s : SceneState α) : SceneState α :=
  let j := i + 1 + 1
  let s := { s with gCurrentPostProcess := .BlurV }
  let s := FullScreenPostProcess M .BlurV frameTime j s
  let j := j + 1
  let s := { s with gCurrentPostProcess := .Bloom2 }
  let s := FullScreenPostProcess M .Bloom2 frameTime j s
  FullScreenPostProcess M .Copy frameTime i s

/-- The state after the B key was hit once on the initial scene: the bloom entry is at
position 4 and the parameter list has eight records. -/
def afterQuickAdd : SceneState ℚ :=
  UpdateScene (onlyKey .Key_B) (InitScene SceneState.start)

/-- The faults logged between the states `s` and `s'`. -/
def faultsSince (s s' : SceneState α) : List Fault := s'.faults.drop s.faults.length

/-- From `s` to `s'` no out-of-range access was logged, and the effect list and the
length of the parameter list did not change. -/
def SameFaults (s s' : SceneState α) : Prop :=
  s'.gPostProcessList = s.gPostProcessList ∧
  s'.gConstantsList.length = s.gConstantsList.length ∧
  s'.faults = s.faults

/-- The four window entries which `InitScene` and the Key_0 branch of `UpdateScene`
push. -/
def windowEntries : List ProcessAndMode :=
  [⟨.NightVision, .Polygon⟩, ⟨.Underwater, .Polygon⟩, ⟨.Inverted, .Polygon⟩,
   ⟨.HueTint, .Polygon⟩]

/-- The four window entries at positions 0 to 3, followed only by Fullscreen-mode
entries. -/
def WindowsThenFullscreen (l : List ProcessAndMode) : Prop :=
  ∃ rest, l = windowEntries ++ rest ∧ ∀ e ∈ rest, e.mode = .Fullscreen

/-- The passes, entry by entry from position `a`, of a list without `Bloom1` and
Area-mode entries: the copy and the patch pass of a Polygon-mode entry, the one pass of
a Fullscreen-mode entry. -/
def entryPasses (a : Nat) : List ProcessAndMode → List Pass
  | [] => []
  | e :: l =>
    (if e.mode = .Polygon then [fullScreenPass .Copy a, polygonPass e.process a]
     else [fullScreenPass e.process a]) ++ entryPasses (a + 1) l

/-- The pass `q`, executed directly after the pass `p`, reads the surface `p` wrote,
unless `q` is the patch pass of a Polygon-mode entry: then `p` is the copy pass of that
entry and `q` reads and writes the surfaces `p` read and wrote. -/
def ChainsOrPatches (p q : Pass) : Prop :=
  (q.caller ≠ .PolygonPostProcess → q.read = some p.write) ∧
  (q.caller = .PolygonPostProcess →
    p = fullScreenPass .Copy q.index ∧ q.read = p.read ∧ q.write = p.write ∧
    q.read ≠ some p.write)

/-- Every pass after the first reads the surface written by the pass executed
immediately before it. -/
def chainsEveryPass (ps : List Pass) : Prop :=
  ∀ k p q, ps[k]? = some p → ps[k + 1]? = some q → q.readsOutputOf p = true

/-- The state after `InitScene` and the 1 key: the four windows, then a full-screen
HueTint entry. -/
def windowsThenHue : SceneState ℚ :=
  UpdateScene (onlyKey .Key_1) (InitScene SceneState.start)

/-- From `s` to `s'` the heat-haze timer was advanced `h` times and the spiral phase
`sp` times by the elapsed time `t`, and the effect list did not change. -/
def Advances (t : α) (s s' : SceneState α) (h sp : Nat) : Prop :=
  s'.gPostProcessList = s.gPostProcessList ∧
  s'.gPostProcessingConstants.heatHazeTimer
    = s.gPostProcessingConstants.heatHazeTimer + (h : α) * t ∧
  s'.spiral = s.spiral + (sp : α) * t

/-- The number of entries of kind `K` in Polygon or Fullscreen mode. -/
def executions (K : PostProcess) (l : List ProcessAndMode) : Nat :=
  l.countP (fun e => e.process = K ∧ (e.mode = .Polygon ∨ e.mode = .Fullscreen))

/-- One if the kinds are equal, else zero. -/
def kindHit (K p : PostProcess) : Nat := if p = K then 1 else 0

/-- The state after `InitScene` and the 6 key hit twice: the four windows, then two
full-screen HeatHaze entries. -/
def twoHeatHaze : SceneState ℚ :=
  UpdateScene (onlyKey .Key_6) (UpdateScene (onlyKey .Key_6) (InitScene SceneState.start))

/-- The value `f e` for the entry `e` at position `k` of `l`, zero past the end. -/
def hitsAt (l : List ProcessAndMode) (k : Nat) (f : ProcessAndMode → Nat) : Nat :=
  match l[k]? with
  | some e => f e
  | none => 0

/-! # Theorems -/

/-! ## Basic facts -/

theorem passesOf_append (a b : List Draw) : passesOf (a ++ b) = passesOf a ++ passesOf b := by
  simp [passesOf, List.filterMap_append]

theorem forLoop_invariant {σ : Type} (P : σ → Prop) (lo hi : Int) (body : Int → σ → σ)
    (h : ∀ x s, P s → P (body x s)) (s : σ) (hs : P s) : P (forLoop lo hi body s) := by
  unfold forLoop
  generalize List.range (hi - lo).toNat = ks
  induction ks generalizing s with
  | nil => simpa using hs
  | cons k ks ih => exact ih _ (h _ _ hs)

theorem tmod_two_eq_zero_iff (i : Int) : Int.tmod i 2 = 0 ↔ i % 2 = 0 := by
  rw [← Int.dvd_iff_tmod_eq_zero, Int.dvd_iff_emod_eq_zero]

theorem preserves_refl (s : SceneState α) : Preserves s s := by
  simp [Preserves]

theorem preserves_trans {s t u : SceneState α} (h1 : Preserves s t) (h2 : Preserves t u) :
    Preserves s u := by
  rcases h1 with ⟨hdraws, htarget, hslot, hvs, hlist, hlen⟩
  rcases h2 with ⟨kdraws, ktarget, kslot, kvs, klist, klen⟩
  exact ⟨kdraws.trans hdraws, ktarget.trans htarget, kslot.trans hslot, kvs.trans hvs,
    klist.trans hlist, klen.trans hlen⟩

theorem preserves_setWeight (s : SceneState α) (x : Int) (v : α) :
    Preserves s (s.setWeight x v) := by
  simp [Preserves, SceneState.setWeight]

theorem preserves_setKernel (s : SceneState α) (x : Int) (v : Int) :
    Preserves s (s.setKernel x v) := by
  simp [Preserves, SceneState.setKernel]

theorem preserves_modifyPP (s : SceneState α)
    (f : PostProcessingConstants α → PostProcessingConstants α) :
    Preserves s (s.modifyPP f) := by
  simp [Preserves, SceneState.modifyPP]

theorem preserves_PSSetShader (s : SceneState α) (ps : PixelShader) :
    Preserves s (s.PSSetShader ps) := by
  simp [Preserves, SceneState.PSSetShader]

theorem preserves_touchConstants (s : SceneState α) (i : Int) :
    Preserves s (s.touchConstants i) := by
  unfold SceneState.touchConstants
  split <;> simp [Preserves]

theorem preserves_modifyConstants (s : SceneState α) (i : Int)
    (f : Constants α → Constants α) : Preserves s (s.modifyConstants i f) := by
  unfold SceneState.modifyConstants
  split <;> simp [Preserves]

theorem preserves_setSlot1 (s : SceneState α) (srv : Option ShaderResourceView) :
    Preserves s (s.PSSetShaderResources 1 srv) := by
  simp [Preserves, SceneState.PSSetShaderResources]

theorem preserves_blurWeightLoop (M : Env α) (s : SceneState α) :
    Preserves s (blurWeightLoop M s).1 := by
  unfold blurWeightLoop
  simp only []
  refine forLoop_invariant (fun t => Preserves s t.1) _ _ _ ?_ (s, (0 : α)) (preserves_refl _)
  intro x t ht
  exact preserves_trans ht (preserves_setWeight _ _ _)

theorem preserves_blurNormaliseLoop (r : SceneState α × α) :
    Preserves r.1 (blurNormaliseLoop r) := by
  unfold blurNormaliseLoop
  refine forLoop_invariant (fun t => Preserves r.1 t) _ _ _ ?_ r.1 (preserves_refl _)
  intro x t ht
  exact preserves_trans ht (preserves_setWeight _ _ _)

theorem preserves_blurKernelOffsets (s : SceneState α) :
    Preserves s (blurKernelOffsets s) := by
  unfold blurKernelOffsets
  simp only []
  refine forLoop_invariant (fun t => Preserves s t) _ _ _ ?_ _ (preserves_setKernel _ _ _)
  intro x t ht
  exact preserves_trans ht (preserves_trans (preserves_setKernel _ _ _) (preserves_setKernel _ _ _))

theorem preserves_loadBlurStrength (s : SceneState α) (i : Int) :
    Preserves s (s.loadBlurStrength i) :=
  preserves_trans (preserves_touchConstants s i) (preserves_modifyPP _ _)

theorem preserves_advanceRandom (s : SceneState α) : Preserves s s.advanceRandom := by
  simp [Preserves, SceneState.advanceRandom]

theorem preserves_advanceSpiral (s : SceneState α) (a b : α) :
    Preserves s (s.advanceSpiral a b) := by
  simp [Preserves, SceneState.advanceSpiral]

theorem preserves_selectBlurH (M : Env α) (i : Int) (s : SceneState α) :
    Preserves s (selectBlurH M i s) := by
  unfold selectBlurH
  refine preserves_trans ?_ (preserves_blurKernelOffsets _)
  refine preserves_trans ?_ (preserves_blurNormaliseLoop _)
  refine preserves_trans ?_ (preserves_blurWeightLoop M _)
  refine preserves_trans ?_ (preserves_modifyPP _ _)
  refine preserves_trans ?_ (preserves_loadBlurStrength _ _)
  exact preserves_PSSetShader _ _

theorem preserves_select (M : Env α) (postProcess : PostProcess) (frameTime : α) (i : Int)
    (s : SceneState α) :
    Preserves s (SelectPostProcessShaderAndTextures M postProcess frameTime i s) := by
  cases postProcess
  case BlurH => exact preserves_selectBlurH M i s
  all_goals
    simp only [SelectPostProcessShaderAndTextures]
    repeat
      first
      | with_reducible exact preserves_refl _
      | with_reducible refine preserves_trans ?_ (preserves_PSSetShader _ _)
      | with_reducible refine preserves_trans ?_ (preserves_modifyPP _ _)
      | with_reducible refine preserves_trans ?_ (preserves_touchConstants _ _)
      | with_reducible refine preserves_trans ?_ (preserves_modifyConstants _ _ _)
      | with_reducible refine preserves_trans ?_ (preserves_setSlot1 _ _)
      | with_reducible refine preserves_trans ?_ (preserves_advanceRandom _)
      | with_reducible refine preserves_trans ?_ (preserves_advanceSpiral _ _ _)

theorem selectPingPong_spec (s : SceneState α) (i : Int) :
    (s.selectPingPong i).draws = s.draws ∧
    (s.selectPingPong i).context.renderTarget = some (pingTarget i) ∧
    (s.selectPingPong i).context.psResource0 = some (pingSource i) ∧
    (s.selectPingPong i).context.vertexShader = s.context.vertexShader ∧
    (s.selectPingPong i).gPostProcessList = s.gPostProcessList ∧
    (s.selectPingPong i).gConstantsList = s.gConstantsList := by
  unfold SceneState.selectPingPong pingTarget pingSource
  split <;> simp [SceneState.PSSetShaderResources, SceneState.OMSetRenderTargets]

theorem FullScreenPostProcess_draws (M : Env α) (postProcess : PostProcess) (frameTime : α)
    (i : Int) (s : SceneState α) :
    ∃ t1 ps,
      (FullScreenPostProcess M postProcess frameTime i s).draws = s.draws ++
        [⟨.FullScreenPostProcess, postProcess, i, some (pingTarget i), some (pingSource i),
            t1, ps, some .g2DQuadVertexShader⟩,
         ⟨.FullScreenPostProcess, postProcess, i, some .gBackBufferRenderTarget,
            some (pingSource i), t1, ps, some .g2DQuadVertexShader⟩] ∧
      (FullScreenPostProcess M postProcess frameTime i s).gPostProcessList
        = s.gPostProcessList ∧
      (FullScreenPostProcess M postProcess frameTime i s).gConstantsList.length
        = s.gConstantsList.length := by
  obtain ⟨h1, h2, h3, h4, h5, h6⟩ := selectPingPong_spec (s.VSSetShader .g2DQuadVertexShader) i
  obtain ⟨p1, p2, p3, p4, p5, p6⟩ := preserves_select M postProcess frameTime i
    ((s.VSSetShader .g2DQuadVertexShader).selectPingPong i)
  have e1 := p1.trans h1
  have e2 := p2.trans h2
  have e3 := p3.trans h3
  have e4 := p4.trans h4
  have e5 := p5.trans h5
  have e6 := p6.trans (congrArg List.length h6)
  unfold FullScreenPostProcess
  simp only []
  generalize SelectPostProcessShaderAndTextures M postProcess frameTime i
    ((s.VSSetShader .g2DQuadVertexShader).selectPingPong i) = t at e1 e2 e3 e4 e5 e6
  refine ⟨t.context.psResource1, t.context.pixelShader, ?_, ?_, ?_⟩
  · simp [SceneState.Draw, SceneState.OMSetRenderTargets,
      SceneState.setFullScreenArea, SceneState.modifyPP, e1, e2, e3, e4, SceneState.VSSetShader]
  · simp [SceneState.Draw, SceneState.OMSetRenderTargets,
      SceneState.setFullScreenArea, SceneState.modifyPP, e5, SceneState.VSSetShader]
  · simp [SceneState.Draw, SceneState.OMSetRenderTargets,
      SceneState.setFullScreenArea, SceneState.modifyPP, e6, SceneState.VSSetShader]

theorem PolygonPostProcess_draws (M : Env α) (postProcess : PostProcess)
    (quad : Fin 4 → CVector3 α) (frameTime : α) (i : Int) (s : SceneState α) :
    ∃ t1 ps t1' ps',
      (PolygonPostProcess M postProcess quad frameTime i s).draws = s.draws ++
        [⟨.FullScreenPostProcess, .Copy, i, some (pingTarget i), some (pingSource i),
            t1, ps, some .g2DQuadVertexShader⟩,
         ⟨.FullScreenPostProcess, .Copy, i, some .gBackBufferRenderTarget,
            some (pingSource i), t1, ps, some .g2DQuadVertexShader⟩,
         ⟨.PolygonPostProcess, postProcess, i, some (pingTarget i), some (pingSource i),
            t1', ps', some .g2DPolygonVertexShader⟩,
         ⟨.PolygonPostProcess, postProcess, i, some .gBackBufferRenderTarget,
            some (pingSource i), t1', ps', some .g2DPolygonVertexShader⟩] ∧
      (PolygonPostProcess M postProcess quad frameTime i s).gPostProcessList
        = s.gPostProcessList ∧
      (PolygonPostProcess M postProcess quad frameTime i s).gConstantsList.length
        = s.gConstantsList.length := by
  obtain ⟨t1, ps, f1, f2, f3⟩ := FullScreenPostProcess_draws M .Copy frameTime i s
  obtain ⟨h1, h2, h3, h4, h5, h6⟩ :=
    selectPingPong_spec (FullScreenPostProcess M .Copy frameTime i s) i
  obtain ⟨p1, p2, p3, p4, p5, p6⟩ := preserves_select M postProcess frameTime i
    ((FullScreenPostProcess M .Copy frameTime i s).selectPingPong i)
  have e1 := (p1.trans h1).trans f1
  have e2 := p2.trans h2
  have e3 := p3.trans h3
  have e5 := (p5.trans h5).trans f2
  have e6 := (p6.trans (congrArg List.length h6)).trans f3
  unfold PolygonPostProcess
  simp only []
  generalize SelectPostProcessShaderAndTextures M postProcess frameTime i
    ((FullScreenPostProcess M .Copy frameTime i s).selectPingPong i) = t at e1 e2 e3 e5 e6
  refine ⟨t1, ps, t.context.psResource1, t.context.pixelShader, ?_, ?_, ?_⟩
  · simp [SceneState.Draw, SceneState.OMSetRenderTargets,
      SceneState.modifyPP, e1, e2, e3, SceneState.VSSetShader]
  · simp [SceneState.Draw, SceneState.OMSetRenderTargets,
      SceneState.modifyPP, e5, SceneState.VSSetShader]
  · simp [SceneState.Draw, SceneState.OMSetRenderTargets,
      SceneState.modifyPP, e6, SceneState.VSSetShader]

theorem SaveBaseSceneTexture_draws (i : Int) (s : SceneState α) :
    (SaveBaseSceneTexture i s).draws = s.draws ++
        [⟨.SaveBaseSceneTexture, .Copy, i, some .gSceneRenderTargetCopy, some (pingSource i),
            s.context.psResource1, some .gCopyPostProcess, some .g2DQuadVertexShader⟩,
         ⟨.SaveBaseSceneTexture, .Copy, i, some .gBackBufferRenderTarget,
            some (pingSource i), s.context.psResource1, some .gCopyPostProcess,
            some .g2DQuadVertexShader⟩] ∧
      (SaveBaseSceneTexture i s).gPostProcessList = s.gPostProcessList ∧
      (SaveBaseSceneTexture i s).gConstantsList = s.gConstantsList := by
  unfold SaveBaseSceneTexture pingSource
  split <;>
    simp [SceneState.Draw, SceneState.OMSetRenderTargets, SceneState.setFullScreenArea,
      SceneState.modifyPP, SceneState.VSSetShader, SceneState.PSSetShader,
      SceneState.PSSetShaderResources]

theorem pingSource_texture (i : Int) : (pingSource i).texture = pingRead i := by
  unfold pingSource pingRead
  by_cases h : i % 2 = 0
  · simp [h, (tmod_two_eq_zero_iff i).2 h, ShaderResourceView.texture]
  · simp [h, mt (tmod_two_eq_zero_iff i).1 h, ShaderResourceView.texture]

theorem pingTarget_texture (i : Int) : (pingTarget i).texture = pingWrite i := by
  unfold pingTarget pingWrite
  by_cases h : i % 2 = 0
  · simp [h, (tmod_two_eq_zero_iff i).2 h, RenderTargetView.texture]
  · simp [h, mt (tmod_two_eq_zero_iff i).1 h, RenderTargetView.texture]

theorem pingTarget_ne_backBuffer (i : Int) : pingTarget i ≠ .gBackBufferRenderTarget := by
  unfold pingTarget
  split <;> simp

theorem pingRead_ne_pingWrite (i : Int) : pingRead i ≠ pingWrite i := by
  unfold pingRead pingWrite
  split <;> simp

theorem pingRead_ne_one (i : Int) : pingRead i ≠ .gSceneTextureOne := by
  unfold pingRead
  split <;> simp

theorem readsOtherSurface_offScreen (c : Caller) (pp : PostProcess) (i k : Int)
    (t1 : Option ShaderResourceView) (ps : Option PixelShader) (vs : Option VertexShader) :
    Draw.readsOtherSurface ⟨c, pp, i, some (pingTarget k), some (pingSource k), t1, ps, vs⟩ := by
  intro rt hrt _
  simp only [Option.some.injEq] at hrt
  subst hrt
  exact ⟨_, rfl, by rw [pingSource_texture, pingTarget_texture]; exact pingRead_ne_pingWrite k⟩

theorem readsOtherSurface_backBuffer (c : Caller) (pp : PostProcess) (i : Int)
    (t0 t1 : Option ShaderResourceView) (ps : Option PixelShader) (vs : Option VertexShader) :
    Draw.readsOtherSurface ⟨c, pp, i, some .gBackBufferRenderTarget, t0, t1, ps, vs⟩ := by
  intro rt hrt hne
  simp only [Option.some.injEq] at hrt
  exact absurd hrt.symm hne

theorem readsOtherSurface_snapshot (c : Caller) (pp : PostProcess) (i k : Int)
    (t1 : Option ShaderResourceView) (ps : Option PixelShader) (vs : Option VertexShader) :
    Draw.readsOtherSurface
      ⟨c, pp, i, some .gSceneRenderTargetCopy, some (pingSource k), t1, ps, vs⟩ := by
  intro rt hrt _
  simp only [Option.some.injEq] at hrt
  subst hrt
  exact ⟨_, rfl, by rw [pingSource_texture]; exact pingRead_ne_one k⟩

theorem toPass_offScreen (pp : PostProcess) (i k : Int)
    (t1 : Option ShaderResourceView) (ps : Option PixelShader) (vs : Option VertexShader) :
    Draw.toPass? ⟨.FullScreenPostProcess, pp, i, some (pingTarget k), some (pingSource k),
      t1, ps, vs⟩ = some ⟨.FullScreenPostProcess, pp, i, some (pingRead k), pingWrite k⟩ := by
  have h1 := pingSource_texture k
  have h2 := pingTarget_texture k
  have h3 := pingTarget_ne_backBuffer k
  unfold Draw.toPass?
  cases h : pingTarget k <;> simp_all

theorem toPass_offScreen_polygon (pp : PostProcess) (i k : Int)
    (t1 : Option ShaderResourceView) (ps : Option PixelShader) (vs : Option VertexShader) :
    Draw.toPass? ⟨.PolygonPostProcess, pp, i, some (pingTarget k), some (pingSource k),
      t1, ps, vs⟩ = some ⟨.PolygonPostProcess, pp, i, some (pingRead k), pingWrite k⟩ := by
  have h1 := pingSource_texture k
  have h2 := pingTarget_texture k
  have h3 := pingTarget_ne_backBuffer k
  unfold Draw.toPass?
  cases h : pingTarget k <;> simp_all

theorem toPass_backBuffer (c : Caller) (pp : PostProcess) (i : Int)
    (t0 t1 : Option ShaderResourceView) (ps : Option PixelShader) (vs : Option VertexShader) :
    Draw.toPass? ⟨c, pp, i, some .gBackBufferRenderTarget, t0, t1, ps, vs⟩ = none := by
  unfold Draw.toPass?
  cases c <;> rfl

theorem runs_refl (s : SceneState α) : Runs s s [] :=
  ⟨[], by simp, rfl, by simp, rfl, rfl⟩

theorem runs_trans {s t u : SceneState α} {a b : List Pass} (h1 : Runs s t a)
    (h2 : Runs t u b) : Runs s u (a ++ b) := by
  obtain ⟨da, a1, a2, a3, a4, a5⟩ := h1
  obtain ⟨db, b1, b2, b3, b4, b5⟩ := h2
  refine ⟨da ++ db, ?_, ?_, ?_, b4.trans a4, b5.trans a5⟩
  · rw [b1, a1, List.append_assoc]
  · rw [passesOf_append, a2, b2]
  · intro d hd
    rcases List.mem_append.1 hd with h | h
    · exact a3 d h
    · exact b3 d h

theorem runs_of_eq {s t : SceneState α} (h1 : t.draws = s.draws)
    (h2 : t.gPostProcessList = s.gPostProcessList)
    (h3 : t.gConstantsList.length = s.gConstantsList.length) : Runs s t [] :=
  ⟨[], by simp [h1], rfl, by simp, h2, h3⟩

theorem runs_FullScreenPostProcess (M : Env α) (postProcess : PostProcess) (frameTime : α)
    (i : Int) (s : SceneState α) :
    Runs s (FullScreenPostProcess M postProcess frameTime i s) [fullScreenPass postProcess i] := by
  obtain ⟨t1, ps, h1, h2, h3⟩ := FullScreenPostProcess_draws M postProcess frameTime i s
  refine ⟨_, h1, ?_, ?_, h2, h3⟩
  · simp [passesOf, List.filterMap_cons, toPass_offScreen, toPass_backBuffer, fullScreenPass]
  · intro d hd _
    simp only [List.mem_cons, List.mem_singleton, List.not_mem_nil, or_false] at hd
    rcases hd with rfl | rfl
    · exact readsOtherSurface_offScreen _ _ _ _ _ _ _
    · exact readsOtherSurface_backBuffer _ _ _ _ _ _ _

theorem runs_PolygonPostProcess (M : Env α) (postProcess : PostProcess)
    (quad : Fin 4 → CVector3 α) (frameTime : α) (i : Int) (s : SceneState α) :
    Runs s (PolygonPostProcess M postProcess quad frameTime i s)
      [fullScreenPass .Copy i, polygonPass postProcess i] := by
  obtain ⟨t1, ps, t1', ps', h1, h2, h3⟩ :=
    PolygonPostProcess_draws M postProcess quad frameTime i s
  refine ⟨_, h1, ?_, ?_, h2, h3⟩
  · simp [passesOf, List.filterMap_cons, toPass_offScreen, toPass_offScreen_polygon,
      toPass_backBuffer, fullScreenPass, polygonPass]
  · intro d hd _
    simp only [List.mem_cons, List.mem_singleton, List.not_mem_nil, or_false] at hd
    rcases hd with rfl | rfl | rfl | rfl
    · exact readsOtherSurface_offScreen _ _ _ _ _ _ _
    · exact readsOtherSurface_backBuffer _ _ _ _ _ _ _
    · exact readsOtherSurface_offScreen _ _ _ _ _ _ _
    · exact readsOtherSurface_backBuffer _ _ _ _ _ _ _

theorem runs_SaveBaseSceneTexture (i : Int) (s : SceneState α) :
    Runs s (SaveBaseSceneTexture i s) [snapshotPass i] := by
  obtain ⟨h1, h2, h3⟩ := SaveBaseSceneTexture_draws i s
  refine ⟨_, h1, ?_, ?_, h2, congrArg List.length h3⟩
  · simp [passesOf, List.filterMap_cons, toPass_backBuffer, snapshotPass, Draw.toPass?,
      pingSource_texture, RenderTargetView.texture]
  · intro d hd _
    simp only [List.mem_cons, List.mem_singleton, List.not_mem_nil, or_false] at hd
    rcases hd with rfl | rfl
    · exact readsOtherSurface_snapshot _ _ _ _ _ _ _
    · exact readsOtherSurface_backBuffer _ _ _ _ _ _ _

theorem runs_forLoop (l : List ProcessAndMode) (n : Nat) (body : Int → SceneState α → SceneState α)
    (g : Nat → List Pass)
    (h : ∀ (k : Nat) (s : SceneState α), s.gPostProcessList = l →
      Runs s (body (0 + (k : Int)) s) (g k))
    (s : SceneState α) (hs : s.gPostProcessList = l) :
    Runs s (forLoop 0 (n : Int) body s) ((List.range n).flatMap g) := by
  unfold forLoop
  simp only [sub_zero, Int.toNat_ofNat]
  induction n with
  | zero => simpa using runs_refl s
  | succ n ih =>
    rw [List.range_succ, List.foldl_append, List.flatMap_append]
    refine runs_trans ih ?_
    simp only [List.foldl_cons, List.foldl_nil, List.flatMap_singleton]
    exact h n _ (by obtain ⟨_, _, _, _, e, _⟩ := ih; exact e.trans hs)

theorem entryAt_natCast (s : SceneState α) (k : Nat) :
    s.entryAt (0 + (k : Int)) = s.gPostProcessList[k]? := by
  simp [SceneState.entryAt]

theorem runs_touchPoints (s : SceneState α) (i : Int) : Runs s (s.touchPoints i) [] := by
  unfold SceneState.touchPoints
  split
  · exact runs_refl s
  · exact runs_of_eq rfl rfl rfl

theorem runs_polygonStep (M : Env α) (frameTime : α) (k : Nat) (s : SceneState α) :
    Runs s (RenderScene.polygonStep M frameTime (0 + (k : Int)) s)
      (polygonStepPasses s.gPostProcessList k) := by
  unfold RenderScene.polygonStep polygonStepPasses atEntry
  rw [entryAt_natCast]
  cases s.gPostProcessList[k]? with
  | none => exact runs_refl s
  | some e =>
    simp only []
    split
    · have := runs_trans (runs_touchPoints s (0 + (k : Int)))
        (runs_PolygonPostProcess M e.process (pointsAt (0 + (k : Int))) frameTime
          (0 + (k : Int)) (s.touchPoints (0 + (k : Int))))
      simpa using this
    · exact runs_refl s

theorem runs_fullscreenStep (M : Env α) (frameTime : α) (k : Nat) (s : SceneState α) :
    Runs s (RenderScene.fullscreenStep M frameTime (0 + (k : Int)) s)
      (fullscreenStepPasses s.gPostProcessList k) := by
  unfold RenderScene.fullscreenStep fullscreenStepPasses atEntry
  rw [entryAt_natCast]
  cases s.gPostProcessList[k]? with
  | none => exact runs_refl s
  | some e =>
    simp only []
    split
    · have := runs_trans (runs_of_eq (s := s) (t := { s with gCurrentPostProcess := e.process })
        rfl rfl rfl)
        (runs_FullScreenPostProcess M e.process frameTime (0 + (k : Int))
          { s with gCurrentPostProcess := e.process })
      simpa using this
    · exact runs_refl s

theorem runs_setCurrent (s : SceneState α) (p : PostProcess) :
    Runs s { s with gCurrentPostProcess := p } [] :=
  runs_of_eq rfl rfl rfl

theorem runs_modifyConstants (s : SceneState α) (i : Int) (f : Constants α → Constants α) :
    Runs s (s.modifyConstants i f) [] := by
  obtain ⟨h1, _, _, _, h5, h6⟩ := preserves_modifyConstants s i f
  exact runs_of_eq h1 h5 h6

theorem runs_bloomExpansion (M : Env α) (frameTime : α) (i : Int) (process : PostProcess)
    (s : SceneState α) :
    Runs s (RenderScene.bloomExpansion M frameTime i process s)
      [snapshotPass i, fullScreenPass process i, fullScreenPass .BlurH (i + 1),
       fullScreenPass .BlurV (i + 1 + 1), fullScreenPass .Bloom2 (i + 1 + 1 + 1),
       fullScreenPass .Copy i] := by
  unfold RenderScene.bloomExpansion
  simp only []
  have b1 := runs_trans (runs_SaveBaseSceneTexture i s) (runs_setCurrent _ process)
  have b2 := runs_trans b1 (runs_FullScreenPostProcess M process frameTime i _)
  have b3 := runs_trans b2 (runs_modifyConstants _ i (fun c => { c with blurStrength := 90 }))
  have b4 := runs_trans b3 (runs_setCurrent _ .BlurH)
  have b5 := runs_trans b4 (runs_FullScreenPostProcess M .BlurH frameTime (i + 1) _)
  have b6 := runs_trans b5 (runs_setCurrent _ .BlurV)
  have b7 := runs_trans b6 (runs_FullScreenPostProcess M .BlurV frameTime (i + 1 + 1) _)
  have b8 := runs_trans b7 (runs_setCurrent _ .Bloom2)
  have b9 := runs_trans b8 (runs_FullScreenPostProcess M .Bloom2 frameTime (i + 1 + 1 + 1) _)
  have this := runs_trans b9 (runs_FullScreenPostProcess M .Copy frameTime i _)
  simpa using this

theorem runs_bloomStep (M : Env α) (frameTime : α) (k : Nat) (s : SceneState α) :
    Runs s (RenderScene.bloomStep M frameTime (0 + (k : Int)) s)
      (bloomStepPasses s.gPostProcessList k) := by
  unfold RenderScene.bloomStep bloomStepPasses atEntry
  rw [entryAt_natCast]
  cases s.gPostProcessList[k]? with
  | none => exact runs_refl s
  | some e =>
    simp only []
    split
    · next hb =>
      have := runs_bloomExpansion M frameTime (0 + (k : Int)) e.process s
      simpa [bloomPasses, hb, add_assoc] using this
    · exact runs_refl s

theorem runs_polygonSweep (M : Env α) (frameTime : α) (s : SceneState α) :
    Runs s (RenderScene.polygonSweep M frameTime s)
      ((List.range s.gPostProcessList.length).flatMap (polygonStepPasses s.gPostProcessList)) := by
  unfold RenderScene.polygonSweep
  split
  · exact runs_forLoop s.gPostProcessList _ _ _
      (fun k t ht => by simpa [ht] using runs_polygonStep M frameTime k t) s rfl
  · next h =>
    have : s.gPostProcessList.length = 0 := by simpa using h
    simpa [this] using runs_refl s

theorem runs_fullscreenSweep (M : Env α) (frameTime : α) (s : SceneState α) :
    Runs s (RenderScene.fullscreenSweep M frameTime s)
      ((List.range s.gPostProcessList.length).flatMap
        (fullscreenStepPasses s.gPostProcessList)) := by
  unfold RenderScene.fullscreenSweep
  split
  · exact runs_forLoop s.gPostProcessList _ _ _
      (fun k t ht => by simpa [ht] using runs_fullscreenStep M frameTime k t) s rfl
  · next h =>
    have : s.gPostProcessList.length = 0 := by simpa using h
    simpa [this] using runs_refl s

theorem runs_bloomSweep (M : Env α) (frameTime : α) (s : SceneState α) :
    Runs s (RenderScene.bloomSweep M frameTime s)
      ((List.range s.gPostProcessList.length).flatMap (bloomStepPasses s.gPostProcessList)) := by
  unfold RenderScene.bloomSweep
  split
  · exact runs_forLoop s.gPostProcessList _ _ _
      (fun k t ht => by simpa [ht] using runs_bloomStep M frameTime k t) s rfl
  · next h =>
    have : s.gPostProcessList.length = 0 := by simpa using h
    simpa [this] using runs_refl s

theorem runs_geometryDraw (s : SceneState α) (c : Caller)
    (hc : c = .RenderDepthBufferFromCamera ∨ c = .RenderSceneFromCamera)
    (pp : PostProcess) (i : Int) : Runs s (s.Draw c pp i) [] := by
  refine ⟨_, rfl, ?_, ?_, rfl, rfl⟩
  · rcases hc with rfl | rfl <;> rfl
  · intro d hd hg
    simp only [List.mem_singleton] at hd
    subst hd
    exact absurd hc hg

theorem runs_VSSetShader (s : SceneState α) (vs : VertexShader) :
    Runs s (s.VSSetShader vs) [] :=
  runs_of_eq rfl rfl rfl

theorem runs_PSSetShader (s : SceneState α) (ps : PixelShader) :
    Runs s (s.PSSetShader ps) [] :=
  runs_of_eq rfl rfl rfl

theorem runs_OMSetRenderTargets (s : SceneState α) (rt : Option RenderTargetView) :
    Runs s (s.OMSetRenderTargets rt) [] :=
  runs_of_eq rfl rfl rfl

theorem runs_PSSetShaderResources (s : SceneState α) (slot : Nat)
    (srv : Option ShaderResourceView) : Runs s (s.PSSetShaderResources slot srv) [] := by
  unfold SceneState.PSSetShaderResources
  split <;> exact runs_of_eq rfl rfl rfl

theorem runs_modifyPP (s : SceneState α)
    (f : PostProcessingConstants α → PostProcessingConstants α) : Runs s (s.modifyPP f) [] :=
  runs_of_eq rfl rfl rfl

theorem runs_step {s t u : SceneState α} (h1 : Runs s t []) (h2 : Runs t u []) :
    Runs s u [] := by
  simpa using runs_trans h1 h2

theorem runs_RenderDepthBufferFromCamera (s : SceneState α) :
    Runs s (RenderDepthBufferFromCamera s) [] := by
  unfold RenderDepthBufferFromCamera
  simp only []
  repeat
    first
    | with_reducible exact runs_refl _
    | with_reducible refine runs_step ?_ (runs_geometryDraw _ _ (Or.inl rfl) _ _)
    | with_reducible refine runs_step ?_ (runs_PSSetShader _ _)
    | with_reducible refine runs_step ?_ (runs_VSSetShader _ _)

theorem runs_RenderSceneFromCamera (s : SceneState α) :
    Runs s (RenderSceneFromCamera s) [] := by
  unfold RenderSceneFromCamera
  simp only []
  refine forLoop_invariant (fun t => Runs s t []) _ _ _ ?_ _ ?_
  · intro x t ht
    exact runs_step ht (runs_geometryDraw _ _ (Or.inr rfl) _ _)
  repeat
    first
    | with_reducible exact runs_refl _
    | with_reducible refine runs_step ?_ (runs_geometryDraw _ _ (Or.inr rfl) _ _)
    | with_reducible refine runs_step ?_ (runs_PSSetShader _ _)
    | with_reducible refine runs_step ?_ (runs_VSSetShader _ _)
    | with_reducible refine runs_step ?_ (runs_PSSetShaderResources _ _ _)

theorem runs_list_eq {s t : SceneState α} {a : List Pass} (h : Runs s t a) :
    t.gPostProcessList = s.gPostProcessList := by
  obtain ⟨_, _, _, _, e, _⟩ := h
  exact e

/-- The passes of a frame, position by position of the effect list. -/
theorem runs_RenderScene_range (M : Env α) (frameTime : α) (s : SceneState α) :
    Runs s (RenderScene M frameTime s)
      ((List.range s.gPostProcessList.length).flatMap (polygonStepPasses s.gPostProcessList)
       ++ (List.range s.gPostProcessList.length).flatMap
            (fullscreenStepPasses s.gPostProcessList)
       ++ (List.range s.gPostProcessList.length).flatMap
            (bloomStepPasses s.gPostProcessList)) := by
  unfold RenderScene
  simp only []
  have a1 := runs_OMSetRenderTargets s none
  have a2 := runs_step a1 (runs_RenderDepthBufferFromCamera (s.OMSetRenderTargets none))
  have a3 : Runs s
      (if (RenderDepthBufferFromCamera (s.OMSetRenderTargets none)).gPostProcessList.length ≠ 0
       then (RenderDepthBufferFromCamera (s.OMSetRenderTargets none)).OMSetRenderTargets
          (some .gSceneRenderTarget)
       else (RenderDepthBufferFromCamera (s.OMSetRenderTargets none)).OMSetRenderTargets
          (some .gBackBufferRenderTarget)) [] := by
    split
    · exact runs_step a2 (runs_OMSetRenderTargets _ _)
    · exact runs_step a2 (runs_OMSetRenderTargets _ _)
  have a4 := runs_step a3 (runs_PSSetShaderResources _ 2 (some .gDepthShaderView))
  have a5 := runs_step a4 (runs_RenderSceneFromCamera _)
  have a6 := runs_step a5 (runs_modifyPP _ (fun pp => { pp with IsFullScreen := false }))
  have a7 := runs_trans a6 (runs_polygonSweep M frameTime _)
  have a8 := runs_trans a7 (runs_modifyPP _ (fun pp => { pp with IsFullScreen := true }))
  have a9 := runs_trans a8 (runs_fullscreenSweep M frameTime _)
  have a10 := runs_trans a9 (runs_bloomSweep M frameTime _)
  have a11 := runs_trans a10 (runs_OMSetRenderTargets _ (some .gBackBufferRenderTarget))
  have a12 := runs_trans a11 (runs_PSSetShaderResources _ 0 none)
  rw [runs_list_eq a6, runs_list_eq a8, runs_list_eq a9] at a12
  simpa using a12

theorem filter_flatMap_eq {β γ : Type} (L : List β) (p : β → Bool) (f : β → List γ) :
    (L.filter p).flatMap f = L.flatMap (fun q => if p q then f q else []) := by
  induction L with
  | nil => rfl
  | cons a L ih =>
    by_cases h : p a
    · simp [List.filter_cons, h, ih]
    · simp [List.filter_cons, h, ih]

theorem range_flatMap_atEntry (l : List ProcessAndMode) (g : Nat → ProcessAndMode → List Pass) :
    (List.range l.length).flatMap (fun k => atEntry l k (g k))
      = l.enum.flatMap (fun q => g q.1 q.2) := by
  induction l using List.reverseRecOn with
  | nil => rfl
  | append_singleton l a ih =>
    rw [List.length_append, List.length_singleton, List.range_succ, List.flatMap_append,
      List.enum_append, List.flatMap_append, ← ih]
    congr 1
    · refine List.flatMap_congr (fun k hk => ?_)
      have hk' : k < l.length := List.mem_range.1 hk
      simp [atEntry, List.getElem?_append_left hk']
    · simp [atEntry]

theorem framePasses_eq_range (l : List ProcessAndMode) :
    (List.range l.length).flatMap (polygonStepPasses l)
      ++ (List.range l.length).flatMap (fullscreenStepPasses l)
      ++ (List.range l.length).flatMap (bloomStepPasses l) = framePasses l := by
  unfold framePasses
  rw [filter_flatMap_eq, filter_flatMap_eq, filter_flatMap_eq]
  have h1 := range_flatMap_atEntry l (fun k e =>
    if e.mode = .Polygon then [fullScreenPass .Copy k, polygonPass e.process k] else [])
  have h2 := range_flatMap_atEntry l (fun k e =>
    if e.mode = .Fullscreen ∧ e.process ≠ .Bloom1 then [fullScreenPass e.process k] else [])
  have h3 := range_flatMap_atEntry l (fun k e =>
    if e.process = .Bloom1 then bloomPasses k else [])
  have e1 : polygonStepPasses l = fun k => atEntry l k (fun e =>
    if e.mode = .Polygon then [fullScreenPass .Copy k, polygonPass e.process k] else []) := rfl
  have e2 : fullscreenStepPasses l = fun k => atEntry l k (fun e =>
    if e.mode = .Fullscreen ∧ e.process ≠ .Bloom1 then [fullScreenPass e.process k]
    else []) := rfl
  have e3 : bloomStepPasses l = fun k => atEntry l k (fun e =>
    if e.process = .Bloom1 then bloomPasses k else []) := rfl
  rw [e1, e2, e3, h1, h2, h3]
  simp

/-- The passes of a frame are `framePasses` of the effect list. -/
theorem runs_RenderScene (M : Env α) (frameTime : α) (s : SceneState α) :
    Runs s (RenderScene M frameTime s) (framePasses s.gPostProcessList) := by
  rw [← framePasses_eq_range]
  exact runs_RenderScene_range M frameTime s

theorem passesOf_drawsSince {s t : SceneState α} {a : List Pass} (h : Runs s t a) :
    passesOf (drawsSince s t) = a := by
  obtain ⟨ds, h1, h2, _, _, _⟩ := h
  simp [drawsSince, h1, h2]

theorem samplesOtherSurface_ping (c : Caller) (pp : PostProcess) (i k : Int)
    (t1 : Option ShaderResourceView) (ps : Option PixelShader) (vs : Option VertexShader) :
    Draw.samplesOtherSurface
      ⟨c, pp, i, some (pingTarget k), some (pingSource k), t1, ps, vs⟩ :=
  ⟨_, _, rfl, pingTarget_ne_backBuffer k, rfl,
    by rw [pingSource_texture, pingTarget_texture]; exact pingRead_ne_pingWrite k⟩

theorem drawsSince_of_append {s t : SceneState α} {ds : List Draw}
    (h : t.draws = s.draws ++ ds) : drawsSince s t = ds := by
  simp [drawsSince, h]

/-- Claim C1. Every off-screen draw issued by `FullScreenPostProcess(.., i)`, by the copy step
and the patch step of `PolygonPostProcess(.., i)` and by `SaveBaseSceneTexture(i)`
samples at texture slot 0 a surface different from the surface it renders to: each of
these calls logs its off-screen draw followed by a back-buffer draw, and the
off-screen draw reads another texture than its target. -/
theorem pass_never_reads_its_target (M : Env α) (postProcess : PostProcess)
    (quad : Fin 4 → CVector3 α) (frameTime : α) (i : Int) (s : SceneState α) :
    (∃ d b, drawsSince s (FullScreenPostProcess M postProcess frameTime i s) = [d, b] ∧
        d.samplesOtherSurface ∧ b.renderTarget = some .gBackBufferRenderTarget) ∧
    (∃ c cb d b, drawsSince s (PolygonPostProcess M postProcess quad frameTime i s)
          = [c, cb, d, b] ∧
        c.caller = .FullScreenPostProcess ∧ c.postProcess = .Copy ∧ c.samplesOtherSurface ∧
        cb.renderTarget = some .gBackBufferRenderTarget ∧
        d.caller = .PolygonPostProcess ∧ d.samplesOtherSurface ∧
        b.renderTarget = some .gBackBufferRenderTarget) ∧
    (∃ d b, drawsSince s (SaveBaseSceneTexture i s) = [d, b] ∧
        d.samplesOtherSurface ∧ b.renderTarget = some .gBackBufferRenderTarget) := by
  refine ⟨?_, ?_, ?_⟩
  · obtain ⟨t1, ps, h, _, _⟩ := FullScreenPostProcess_draws M postProcess frameTime i s
    exact ⟨_, _, drawsSince_of_append h, samplesOtherSurface_ping _ _ _ _ _ _ _, rfl⟩
  · obtain ⟨t1, ps, t1', ps', h, _, _⟩ :=
      PolygonPostProcess_draws M postProcess quad frameTime i s
    exact ⟨_, _, _, _, drawsSince_of_append h, rfl, rfl,
      samplesOtherSurface_ping _ _ _ _ _ _ _, rfl, rfl,
      samplesOtherSurface_ping _ _ _ _ _ _ _, rfl⟩
  · obtain ⟨h, _, _⟩ := SaveBaseSceneTexture_draws i s
    refine ⟨_, _, drawsSince_of_append h, ⟨_, _, rfl, by simp, rfl, ?_⟩, rfl⟩
    rw [pingSource_texture]
    exact pingRead_ne_one i

theorem pingRead_succ (i : Int) : pingRead (i + 1) = pingWrite i := by
  unfold pingRead pingWrite
  rcases Int.emod_two_eq i with h | h
  · have : (i + 1) % 2 = 1 := by omega
    simp [h, this]
  · have : (i + 1) % 2 = 0 := by omega
    simp [h, this]

theorem pingWrite_succ (i : Int) : pingWrite (i + 1) = pingRead i := by
  unfold pingRead pingWrite
  rcases Int.emod_two_eq i with h | h
  · have : (i + 1) % 2 = 1 := by omega
    simp [h, this]
  · have : (i + 1) % 2 = 0 := by omega
    simp [h, this]

/-- Claim C2. The read/write pair of `FullScreenPostProcess` alternates strictly with the pass
index: for every integer `i` the call is one pass reading `pingRead i` and writing
`pingWrite i`, which for even `i` are the scene surface and the second surface and for
odd `i` the second surface and the scene surface; pass `i + 1` reads the surface
written by pass `i` and writes the surface read by pass `i`. -/
theorem fullScreen_pingpong_alternates (M : Env α) (postProcess : PostProcess)
    (frameTime : α) (i : Int) (s : SceneState α) :
    passesOf (drawsSince s (FullScreenPostProcess M postProcess frameTime i s))
      = [⟨.FullScreenPostProcess, postProcess, i, some (pingRead i), pingWrite i⟩] ∧
    (pingRead i, pingWrite i)
      = (if Even i then (Texture.gSceneTexture, Texture.gSceneTextureTwo)
         else (Texture.gSceneTextureTwo, Texture.gSceneTexture)) ∧
    passesOf (drawsSince s (FullScreenPostProcess M postProcess frameTime (i + 1) s))
      = [⟨.FullScreenPostProcess, postProcess, i + 1, some (pingWrite i), pingRead i⟩] := by
  refine ⟨?_, ?_, ?_⟩
  · exact passesOf_drawsSince (runs_FullScreenPostProcess M postProcess frameTime i s)
  · unfold pingRead pingWrite
    by_cases h : i % 2 = 0
    · simp [h, Int.even_iff.2 h]
    · simp [h, mt Int.even_iff.1 h]
  · rw [passesOf_drawsSince (runs_FullScreenPostProcess M postProcess frameTime (i + 1) s),
      fullScreenPass, pingRead_succ, pingWrite_succ]

theorem orderingScenario_permutations :
    ∀ l ∈ orderingScenario.permutations',
      (framePasses l).map Pass.kind = orderingScenarioKinds := by
  decide

/-- Claim C3. The passes `RenderScene` executes in one frame are the concatenation of
three sweeps (`framePasses`): every Polygon-mode entry in list order, each preceded by
its own full-screen Copy pass; then every Fullscreen-mode entry other than `Bloom1`, in
list order; then the expansion of every `Bloom1` entry, in list order.  For every
permutation of `[(Inverted, Polygon), (HueTint, Fullscreen), (Bloom1, Fullscreen)]` the
order is polygon Inverted, full-screen HueTint, bloom expansion. -/
theorem RenderScene_three_sweeps (M : Env α) (frameTime : α) (s : SceneState α) :
    passesOf (drawsSince s (RenderScene M frameTime s)) = framePasses s.gPostProcessList ∧
    ∀ l : List ProcessAndMode, l.Perm orderingScenario →
      (passesOf (drawsSince (s.withList l) (RenderScene M frameTime (s.withList l)))).map
        Pass.kind = orderingScenarioKinds := by
  refine ⟨passesOf_drawsSince (runs_RenderScene M frameTime s), ?_⟩
  intro l hl
  rw [passesOf_drawsSince (runs_RenderScene M frameTime (s.withList l))]
  exact orderingScenario_permutations l (List.mem_permutations'.2 hl)

/-- Witness of C3: the frame of the permutation Bloom1, Inverted, HueTint. -/
theorem RenderScene_three_sweeps_witness :
    List.Perm [⟨.Bloom1, .Fullscreen⟩, ⟨.Inverted, .Polygon⟩, ⟨.HueTint, .Fullscreen⟩]
      orderingScenario ∧
    (passesOf (drawsSince
      ((SceneState.start : SceneState ℚ).withList
        [⟨.Bloom1, .Fullscreen⟩, ⟨.Inverted, .Polygon⟩, ⟨.HueTint, .Fullscreen⟩])
      (RenderScene Env.sample 0 ((SceneState.start : SceneState ℚ).withList
        [⟨.Bloom1, .Fullscreen⟩, ⟨.Inverted, .Polygon⟩, ⟨.HueTint, .Fullscreen⟩])))).map
        Pass.kind = orderingScenarioKinds :=
  ⟨by decide, (RenderScene_three_sweeps Env.sample 0 SceneState.start).2 _ (by decide)⟩

theorem map_flatMap_eq {β γ δ : Type} (L : List β) (f : β → γ) (g : γ → List δ) :
    (L.map f).flatMap g = L.flatMap (fun x => g (f x)) := by
  induction L with
  | nil => rfl
  | cons a L ih => simp [ih]

theorem bloomSweep_range_eq (l : List ProcessAndMode) :
    (List.range l.length).flatMap (bloomStepPasses l)
      = (bloomPositions l).flatMap (fun i => bloomPasses i) := by
  have e3 : bloomStepPasses l = fun k => atEntry l k (fun e =>
    if e.process = .Bloom1 then bloomPasses k else []) := rfl
  rw [e3, range_flatMap_atEntry l (fun k e =>
    if e.process = .Bloom1 then bloomPasses k else [])]
  unfold bloomPositions
  rw [map_flatMap_eq, filter_flatMap_eq]
  simp

theorem fullscreenSweep_range_eq (l : List ProcessAndMode) :
    (List.range l.length).flatMap (fullscreenStepPasses l)
      = (l.enum.filter (fun p => p.2.mode = .Fullscreen ∧ p.2.process ≠ .Bloom1)).flatMap
          (fun p => [fullScreenPass p.2.process p.1]) := by
  have e2 : fullscreenStepPasses l = fun k => atEntry l k (fun e =>
    if e.mode = .Fullscreen ∧ e.process ≠ .Bloom1 then [fullScreenPass e.process k]
    else []) := rfl
  rw [e2, range_flatMap_atEntry l (fun k e =>
    if e.mode = .Fullscreen ∧ e.process ≠ .Bloom1 then [fullScreenPass e.process k]
    else []), filter_flatMap_eq]
  simp

/-- Claim C4. For every `Bloom1` entry the bloom sweep of `RenderScene` issues exactly six
passes: the passes of the sweep are, for each position `i` of a `Bloom1` entry in list
order, the six passes `bloomPasses i` of `bloomExpansion`, which are the snapshot
`SaveBaseSceneTexture(i)`, the `Bloom1` pass, a `BlurH` pass, a `BlurV` pass, the
`Bloom2` pass and a final `Copy` pass. -/
theorem bloom_expansion_six_passes (M : Env α) (frameTime : α) (s : SceneState α) :
    passesOf (drawsSince s (RenderScene.bloomSweep M frameTime s))
      = (bloomPositions s.gPostProcessList).flatMap (fun i => bloomPasses i) ∧
    (∀ i : Int, passesOf (drawsSince s (RenderScene.bloomExpansion M frameTime i .Bloom1 s))
      = bloomPasses i) ∧
    (∀ i : Int, (bloomPasses i).map Pass.label
      = [⟨.SaveBaseSceneTexture, .Copy, i⟩, ⟨.FullScreenPostProcess, .Bloom1, i⟩,
         ⟨.FullScreenPostProcess, .BlurH, i + 1⟩, ⟨.FullScreenPostProcess, .BlurV, i + 2⟩,
         ⟨.FullScreenPostProcess, .Bloom2, i + 3⟩, ⟨.FullScreenPostProcess, .Copy, i⟩]) := by
  refine ⟨?_, ?_, ?_⟩
  · rw [passesOf_drawsSince (runs_bloomSweep M frameTime s), bloomSweep_range_eq]
  · intro i
    rw [passesOf_drawsSince (runs_bloomExpansion M frameTime i .Bloom1 s)]
    simp [bloomPasses, add_assoc]
  · intro i
    rfl

/-- Claim C5, amended. In the expansion of a bloom entry at position `i` the four passes
after the `Bloom1` pass (`BlurH`, `BlurV`, `Bloom2`, `Copy`) each read the surface
written by the pass before; the `Bloom1` pass reads the surface the snapshot read, not
the snapshot surface; the final `Copy` writes the surface a single full-screen pass
of index `i` writes, which a full-screen pass of index `i + 1` reads. -/
theorem bloom_parity_continuity (M : Env α) (frameTime : α) (i : Int) (s : SceneState α) :
    ∃ snap bloom1 blurH blurV bloom2 copy,
      passesOf (drawsSince s (RenderScene.bloomExpansion M frameTime i .Bloom1 s))
        = [snap, bloom1, blurH, blurV, bloom2, copy] ∧
      blurH.read = some bloom1.write ∧ blurV.read = some blurH.write ∧
      bloom2.read = some blurV.write ∧ copy.read = some bloom2.write ∧
      snap.read = bloom1.read ∧ bloom1.read ≠ some snap.write ∧
      (∀ (postProcess : PostProcess) (t : SceneState α),
        (passesOf (drawsSince t (FullScreenPostProcess M postProcess frameTime i t))).map
          Pass.write = [copy.write]) ∧
      (∀ (postProcess : PostProcess) (t : SceneState α),
        (passesOf (drawsSince t (FullScreenPostProcess M postProcess frameTime (i + 1) t))).map
          Pass.read = [some copy.write]) := by
  refine ⟨_, _, _, _, _, _,
    passesOf_drawsSince (runs_bloomExpansion M frameTime i .Bloom1 s), ?_, ?_, ?_, ?_, ?_,
    ?_, ?_, ?_⟩
  · simp [fullScreenPass, pingRead_succ]
  · simp [fullScreenPass, pingRead_succ, pingWrite_succ]
  · simp [fullScreenPass, pingRead_succ, pingWrite_succ]
  · simp [fullScreenPass, pingRead_succ, pingWrite_succ]
  · simp [fullScreenPass, snapshotPass]
  · simp [fullScreenPass, snapshotPass, pingRead_ne_one]
  · intro pp t
    rw [passesOf_drawsSince (runs_FullScreenPostProcess M pp frameTime i t)]
    simp [fullScreenPass]
  · intro pp t
    rw [passesOf_drawsSince (runs_FullScreenPostProcess M pp frameTime (i + 1) t)]
    simp [fullScreenPass, pingRead_succ]

/-- Claim C5 as stated fails: in the expansion at position 0 the `Bloom1` pass does
not read the surface written by the pass before it (the snapshot). -/
theorem bloom_chain_counterexample :
    ¬ chainsAfterSnapshot (passesOf (drawsSince (SceneState.start : SceneState ℚ)
        (RenderScene.bloomExpansion Env.sample 0 0 .Bloom1 SceneState.start))) := by
  rw [passesOf_drawsSince (runs_bloomExpansion Env.sample 0 0 .Bloom1 SceneState.start)]
  intro h
  have := h 0 (snapshotPass 0) (fullScreenPass .Bloom1 0) (by decide) rfl rfl
  revert this
  decide

theorem pingRead_eq_pingWrite_of_parity {i j : Int} (h : i % 2 ≠ j % 2) :
    pingRead j = pingWrite i := by
  unfold pingRead pingWrite
  rcases Int.emod_two_eq i with hi | hi <;> rcases Int.emod_two_eq j with hj | hj <;>
    simp_all

theorem framePasses_shape (l : List ProcessAndMode) :
    ∀ p ∈ framePasses l, p.read = some (pingRead p.index) ∧
      (p.caller ≠ .SaveBaseSceneTexture → p.write = pingWrite p.index) := by
  intro p hp
  unfold framePasses at hp
  simp only [List.mem_append, List.mem_flatMap] at hp
  rcases hp with (⟨q, _, hq⟩ | ⟨q, _, hq⟩) | ⟨q, _, hq⟩
  · simp only [List.mem_cons, List.mem_singleton, List.not_mem_nil, or_false] at hq
    rcases hq with rfl | rfl <;> simp [fullScreenPass, polygonPass]
  · simp only [List.mem_singleton] at hq
    subst hq
    simp [fullScreenPass]
  · simp only [bloomPasses, List.mem_cons, List.mem_singleton, List.not_mem_nil,
      or_false] at hq
    rcases hq with rfl | rfl | rfl | rfl | rfl | rfl <;> simp [fullScreenPass, snapshotPass]

theorem bloomThenHue_list :
    bloomThenHue.gPostProcessList =
      [⟨.NightVision, .Polygon⟩, ⟨.Underwater, .Polygon⟩, ⟨.Inverted, .Polygon⟩,
       ⟨.HueTint, .Polygon⟩, ⟨.Bloom1, .Fullscreen⟩, ⟨.HueTint, .Fullscreen⟩] := by
  decide

/-- Claim C6, defect. On the state the program reaches by `InitScene`, the B key and the
1 key, the frame has 15 passes; the pass of position 7 is the polygon patch of window 3
(index 3), which writes `gSceneTexture`; the pass directly after it is the full-screen
HueTint pass of index 5, which reads `gSceneTextureTwo`, last written by the patch of
window 2 (position 5), and writes `gSceneTexture`, over the result of window 3: this
full-screen pass does not read the surface written by the pass executed immediately
before it. -/
theorem fullScreen_stale_read :
    Reachable Env.sample bloomThenHue ∧
    bloomThenHuePasses.length = 15 ∧
    bloomThenHuePasses[5]? = some (polygonPass .Inverted 2) ∧
    bloomThenHuePasses[6]? = some (fullScreenPass .Copy 3) ∧
    bloomThenHuePasses[7]? = some (polygonPass .HueTint 3) ∧
    bloomThenHuePasses[7 + 1]? = some (fullScreenPass .HueTint 5) ∧
    (polygonPass .Inverted 2).write = .gSceneTextureTwo ∧
    (fullScreenPass .Copy 3).write = .gSceneTexture ∧
    (polygonPass .HueTint 3).write = .gSceneTexture ∧
    (fullScreenPass .HueTint 5).caller = .FullScreenPostProcess ∧
    (fullScreenPass .HueTint 5).read = some .gSceneTextureTwo ∧
    (fullScreenPass .HueTint 5).write = .gSceneTexture ∧
    (fullScreenPass .HueTint 5).readsOutputOf (polygonPass .HueTint 3) = false ∧
    ¬ chainsFullScreen bloomThenHuePasses := by
  have hp : bloomThenHuePasses
      = framePasses [⟨.NightVision, .Polygon⟩, ⟨.Underwater, .Polygon⟩,
          ⟨.Inverted, .Polygon⟩, ⟨.HueTint, .Polygon⟩, ⟨.Bloom1, .Fullscreen⟩,
          ⟨.HueTint, .Fullscreen⟩] := by
    unfold bloomThenHuePasses
    rw [passesOf_drawsSince (runs_RenderScene Env.sample 0 bloomThenHue), bloomThenHue_list]
  rw [hp]
  refine ⟨Reachable.update _ _ (Reachable.update _ _ (Reachable.init _ rfl rfl)),
    by decide, by decide, by decide, by decide, by decide, by decide, by decide, by decide,
    by decide, by decide, by decide, by decide, ?_⟩
  intro h
  have := h 7 (polygonPass .HueTint 3) (fullScreenPass .HueTint 5) (by decide) (by decide) rfl
  revert this
  decide

/-- Claim C7, amended. The pass indices of a bloom expansion are derived from the
position `i` of the entry in the effect list, not from a running counter: the sweep
uses, for each `Bloom1` position `i` in list order, the indices `i` (snapshot), `i`
(`Bloom1`), `i + 1` (`BlurH`), `i + 2` (`BlurV`), `i + 3` (`Bloom2`) and `i` again
(`Copy`). -/
theorem bloom_pass_indices (M : Env α) (frameTime : α) (s : SceneState α) :
    (passesOf (drawsSince s (RenderScene.bloomSweep M frameTime s))).map Pass.index
      = (bloomPositions s.gPostProcessList).flatMap (fun i => bloomIndices i) := by
  rw [passesOf_drawsSince (runs_bloomSweep M frameTime s), bloomSweep_range_eq]
  generalize bloomPositions s.gPostProcessList = L
  induction L with
  | nil => rfl
  | cons a L ih =>
    rw [List.flatMap_cons, List.map_append, ih, List.flatMap_cons]
    rfl

/-- Claim C7 as stated fails on a list the program reaches (`InitScene`, B key, 1 key):
the full-screen sweep uses index 5 while the bloom expansion uses 4, 4, 5, 6, 7, 4. -/
theorem bloom_indices_counterexample :
    ¬ indicesContinue
        (passesOf (drawsSince bloomThenHue
          (RenderScene.fullscreenSweep Env.sample 0 bloomThenHue)))
        (passesOf (drawsSince bloomThenHue
          (RenderScene.bloomSweep Env.sample 0 bloomThenHue))) := by
  rw [passesOf_drawsSince (runs_fullscreenSweep Env.sample 0 bloomThenHue),
    passesOf_drawsSince (runs_bloomSweep Env.sample 0 bloomThenHue),
    fullscreenSweep_range_eq, bloomSweep_range_eq, bloomThenHue_list]
  intro h
  have := h.1 (fullScreenPass .HueTint 5) (by decide) (snapshotPass 4) (by decide)
  revert this
  decide

theorem pushProcess_list (s : SceneState α) (p : PostProcess) (m : PostProcessMode) :
    (s.pushProcess p m).gPostProcessList = s.gPostProcessList ++ [⟨p, m⟩] := rfl

theorem pushProcess_constants (s : SceneState α) (p : PostProcess) (m : PostProcessMode) :
    (s.pushProcess p m).gConstantsList = s.gConstantsList := rfl

theorem pushConstants_list (s : SceneState α) (c : Constants α) :
    (s.pushConstants c).gPostProcessList = s.gPostProcessList := rfl

theorem pushConstants_constants (s : SceneState α) (c : Constants α) :
    (s.pushConstants c).gConstantsList = s.gConstantsList ++ [c] := rfl

theorem modifyPP_list (s : SceneState α)
    (f : PostProcessingConstants α → PostProcessingConstants α) :
    (s.modifyPP f).gPostProcessList = s.gPostProcessList := rfl

theorem modifyPP_constants (s : SceneState α)
    (f : PostProcessingConstants α → PostProcessingConstants α) :
    (s.modifyPP f).gConstantsList = s.gConstantsList := rfl

theorem bloomCount_append_singleton (l : List ProcessAndMode) (e : ProcessAndMode) :
    bloomCount (l ++ [e]) = bloomCount l + (if e.process = .Bloom1 then 1 else 0) := by
  simp [bloomCount, List.countP_append, List.countP_cons]

theorem UpdateScene_lengths (KeyHit : KeyCode → Bool) (s : SceneState α)
    (h : s.gConstantsList.length
      = s.gPostProcessList.length + 3 * bloomCount s.gPostProcessList) :
    (UpdateScene KeyHit s).gConstantsList.length
      = (UpdateScene KeyHit s).gPostProcessList.length
        + 3 * bloomCount (UpdateScene KeyHit s).gPostProcessList := by
  unfold UpdateScene
  by_cases h0 : KeyHit .Key_1 = true
  · rw [if_pos h0]
    simp only [pushProcess_list, pushProcess_constants, pushConstants_list,
      pushConstants_constants, modifyPP_list, modifyPP_constants, List.length_append,
      List.length_singleton, List.length_nil, bloomCount_append_singleton, reduceCtorEq,
      if_false, if_true]
    omega
  rw [if_neg h0]
  by_cases h1 : KeyHit .Key_2 = true
  · rw [if_pos h1]
    simp only [pushProcess_list, pushProcess_constants, pushConstants_list,
      pushConstants_constants, modifyPP_list, modifyPP_constants, List.length_append,
      List.length_singleton, List.length_nil, bloomCount_append_singleton, reduceCtorEq,
      if_false, if_true]
    omega
  rw [if_neg h1]
  by_cases h2 : KeyHit .Key_3 = true
  · rw [if_pos h2]
    simp only [pushProcess_list, pushProcess_constants, pushConstants_list,
      pushConstants_constants, modifyPP_list, modifyPP_constants, List.length_append,
      List.length_singleton, List.length_nil, bloomCount_append_singleton, reduceCtorEq,
      if_false, if_true]
    omega
  rw [if_neg h2]
  by_cases h3 : KeyHit .Key_4 = true
  · rw [if_pos h3]
    simp only [pushProcess_list, pushProcess_constants, pushConstants_list,
      pushConstants_constants, modifyPP_list, modifyPP_constants, List.length_append,
      List.length_singleton, List.length_nil, bloomCount_append_singleton, reduceCtorEq,
      if_false, if_true]
    omega
  rw [if_neg h3]
  by_cases h4 : KeyHit .Key_5 = true
  · rw [if_pos h4]
    simp only [pushProcess_list, pushProcess_constants, pushConstants_list,
      pushConstants_constants, modifyPP_list, modifyPP_constants, List.length_append,
      List.length_singleton, List.length_nil, bloomCount_append_singleton, reduceCtorEq,
      if_false, if_true]
    omega
  rw [if_neg h4]
  by_cases h5 : KeyHit .Key_6 = true
  · rw [if_pos h5]
    simp only [pushProcess_list, pushProcess_constants, pushConstants_list,
      pushConstants_constants, modifyPP_list, modifyPP_constants, List.length_append,
      List.length_singleton, List.length_nil, bloomCount_append_singleton, reduceCtorEq,
      if_false, if_true]
    omega
  rw [if_neg h5]
  by_cases h6 : KeyHit .Key_7 = true
  · rw [if_pos h6]
    simp only [pushProcess_list, pushProcess_constants, pushConstants_list,
      pushConstants_constants, modifyPP_list, modifyPP_constants, List.length_append,
      List.length_singleton, List.length_nil, bloomCount_append_singleton, reduceCtorEq,
      if_false, if_true]
    omega
  rw [if_neg h6]
  by_cases h7 : KeyHit .Key_8 = true
  · rw [if_pos h7]
    simp only [pushProcess_list, pushProcess_constants, pushConstants_list,
      pushConstants_constants, modifyPP_list, modifyPP_constants, List.length_append,
      List.length_singleton, List.length_nil, bloomCount_append_singleton, reduceCtorEq,
      if_false, if_true]
    omega
  rw [if_neg h7]
  by_cases h8 : KeyHit .Key_I = true
  · rw [if_pos h8]
    simp only [pushProcess_list, pushProcess_constants, pushConstants_list,
      pushConstants_constants, modifyPP_list, modifyPP_constants, List.length_append,
      List.length_singleton, List.length_nil, bloomCount_append_singleton, reduceCtorEq,
      if_false, if_true]
    omega
  rw [if_neg h8]
  by_cases h9 : KeyHit .Key_N = true
  · rw [if_pos h9]
    simp only [pushProcess_list, pushProcess_constants, pushConstants_list,
      pushConstants_constants, modifyPP_list, modifyPP_constants, List.length_append,
      List.length_singleton, List.length_nil, bloomCount_append_singleton, reduceCtorEq,
      if_false, if_true]
    omega
  rw [if_neg h9]
  by_cases h10 : KeyHit .Key_T = true
  · rw [if_pos h10]
    simp only [pushProcess_list, pushProcess_constants, pushConstants_list,
      pushConstants_constants, modifyPP_list, modifyPP_constants, List.length_append,
      List.length_singleton, List.length_nil, bloomCount_append_singleton, reduceCtorEq,
      if_false, if_true]
    omega
  rw [if_neg h10]
  by_cases h11 : KeyHit .Key_R = true
  · rw [if_pos h11]
    simp only [pushProcess_list, pushProcess_constants, pushConstants_list,
      pushConstants_constants, modifyPP_list, modifyPP_constants, List.length_append,
      List.length_singleton, List.length_nil, bloomCount_append_singleton, reduceCtorEq,
      if_false, if_true]
    omega
  rw [if_neg h11]
  by_cases h12 : KeyHit .Key_G = true
  · rw [if_pos h12]
    simp only [pushProcess_list, pushProcess_constants, pushConstants_list,
      pushConstants_constants, modifyPP_list, modifyPP_constants, List.length_append,
      List.length_singleton, List.length_nil, bloomCount_append_singleton, reduceCtorEq,
      if_false, if_true]
    omega
  rw [if_neg h12]
  by_cases h13 : KeyHit .Key_B = true
  · rw [if_pos h13]
    simp only [pushProcess_list, pushProcess_constants, pushConstants_list,
      pushConstants_constants, modifyPP_list, modifyPP_constants, List.length_append,
      List.length_singleton, List.length_nil, bloomCount_append_singleton, reduceCtorEq,
      if_false, if_true]
    omega
  rw [if_neg h13]
  by_cases h14 : KeyHit .Key_0 = true
  · rw [if_pos h14]
    rfl
  rw [if_neg h14]
  exact h

/-- Claim C8, amended. In every state reachable from `InitScene` by any sequence of
`UpdateScene` key events (and rendered frames) the parameter list is as long as the
effect list plus three records per `Bloom1` entry: the B key appends one entry and
four records, every other appending key appends one record per entry.  The two lists
have the same length exactly when the effect list holds no `Bloom1` entry. -/
theorem constants_length_invariant (M : Env α) (s : SceneState α) (h : Reachable M s) :
    s.gConstantsList.length
      = s.gPostProcessList.length + 3 * bloomCount s.gPostProcessList ∧
    (s.gConstantsList.length = s.gPostProcessList.length
      ↔ bloomCount s.gPostProcessList = 0) := by
  have key : s.gConstantsList.length
      = s.gPostProcessList.length + 3 * bloomCount s.gPostProcessList := by
    induction h with
    | init s hc hl =>
      simp only [InitScene, modifyPP_list, modifyPP_constants, hc, hl]
      rfl
    | update KeyHit s _ ih => exact UpdateScene_lengths KeyHit s ih
    | render frameTime s _ ih =>
      obtain ⟨_, _, _, _, h1, h2⟩ := runs_RenderScene M frameTime s
      rw [h1, h2]
      exact ih
  exact ⟨key, by omega⟩

/-- Witness of C8: the state after `InitScene`, the B key and the 1 key. -/
theorem constants_length_invariant_witness :
    Reachable Env.sample bloomThenHue ∧
    bloomThenHue.gConstantsList.length
      = bloomThenHue.gPostProcessList.length + 3 * bloomCount bloomThenHue.gPostProcessList :=
  ⟨Reachable.update _ _ (Reachable.update _ _ (Reachable.init _ rfl rfl)),
   (constants_length_invariant Env.sample bloomThenHue
    (Reachable.update _ _ (Reachable.update _ _ (Reachable.init _ rfl rfl)))).1⟩

/-- Claim C8 as stated fails: after `InitScene` and the B key the parameter list has
eight records and the effect list five entries. -/
theorem constants_length_counterexample :
    ¬ ((UpdateScene (onlyKey .Key_B) (InitScene (SceneState.start : SceneState ℚ))).gConstantsList.length
      = (UpdateScene (onlyKey .Key_B)
          (InitScene (SceneState.start : SceneState ℚ))).gPostProcessList.length) := by
  decide

theorem setWeight_weight (s : SceneState α) (x : Int) (v : α) :
    (s.setWeight x v).gPostProcessingConstants.weight
      = Function.update s.gPostProcessingConstants.weight x v := rfl

theorem setWeight_blurStrength (s : SceneState α) (x : Int) (v : α) :
    (s.setWeight x v).gPostProcessingConstants.blurStrength
      = s.gPostProcessingConstants.blurStrength := rfl

theorem setKernel_weight (s : SceneState α) (x : Int) (v : Int) :
    (s.setKernel x v).gPostProcessingConstants.weight
      = s.gPostProcessingConstants.weight := rfl

theorem setKernel_blurStrength (s : SceneState α) (x : Int) (v : Int) :
    (s.setKernel x v).gPostProcessingConstants.blurStrength
      = s.gPostProcessingConstants.blurStrength := rfl

/-- The first loop leaves `sum` equal to the sum of the weight expressions, each of
them stored at its index. -/
theorem blurWeightLoop_spec (M : Env α) (s : SceneState α) :
    (blurWeightLoop M s).2
      = ∑ k ∈ Finset.range s.gPostProcessingConstants.blurStrength.toNat,
          blurWeightExpr M ((Int.tdiv (s.gPostProcessingConstants.blurStrength - 1) 2 : Int) : α)
            40 (k : Int) ∧
    (∀ x : Int, (blurWeightLoop M s).1.gPostProcessingConstants.weight x
      = if 0 ≤ x ∧ x < (s.gPostProcessingConstants.blurStrength.toNat : Int) then
          blurWeightExpr M ((Int.tdiv (s.gPostProcessingConstants.blurStrength - 1) 2 : Int) : α)
            40 x
        else s.gPostProcessingConstants.weight x) ∧
    (blurWeightLoop M s).1.gPostProcessingConstants.blurStrength
      = s.gPostProcessingConstants.blurStrength := by
  unfold blurWeightLoop forLoop
  simp only [sub_zero, zero_add, setWeight_weight, Function.update_same]
  generalize s.gPostProcessingConstants.blurStrength.toNat = m
  generalize blurWeightExpr M
    ((Int.tdiv (s.gPostProcessingConstants.blurStrength - 1) 2 : Int) : α) 40 = w
  induction m with
  | zero =>
    refine ⟨by simp, fun x => ?_, by simp⟩
    have : ¬ (0 ≤ x ∧ x < (0 : Int)) := by omega
    simp [this]
  | succ m ih =>
    obtain ⟨h1, h2, h3⟩ := ih
    rw [List.range_succ, List.foldl_append]
    simp only [List.foldl_cons, List.foldl_nil, setWeight_weight, setWeight_blurStrength]
    refine ⟨?_, fun x => ?_, h3⟩
    · rw [Finset.sum_range_succ, h1]
    · by_cases hx : x = (m : Int)
      · subst hx
        have : (0 : Int) ≤ (m : Int) ∧ (m : Int) < ((m + 1 : Nat) : Int) := by omega
        simp [this]
      · rw [Function.update_noteq hx, h2 x]
        have : (0 ≤ x ∧ x < ((m + 1 : Nat) : Int)) ↔ (0 ≤ x ∧ x < (m : Int)) := by omega
        simp only [this]

/-- The second loop divides each of the stored weights by `sum`. -/
theorem blurNormaliseLoop_spec (r : SceneState α × α) :
    (∀ x : Int, (blurNormaliseLoop r).gPostProcessingConstants.weight x
      = if 0 ≤ x ∧ x < (r.1.gPostProcessingConstants.blurStrength.toNat : Int) then
          r.1.gPostProcessingConstants.weight x / r.2
        else r.1.gPostProcessingConstants.weight x) ∧
    (blurNormaliseLoop r).gPostProcessingConstants.blurStrength
      = r.1.gPostProcessingConstants.blurStrength := by
  unfold blurNormaliseLoop forLoop
  simp only [sub_zero, zero_add]
  generalize r.1.gPostProcessingConstants.blurStrength.toNat = m
  induction m with
  | zero =>
    refine ⟨fun x => ?_, by simp⟩
    have : ¬ (0 ≤ x ∧ x < (0 : Int)) := by omega
    simp [this]
  | succ m ih =>
    obtain ⟨h2, h3⟩ := ih
    rw [List.range_succ, List.foldl_append]
    simp only [List.foldl_cons, List.foldl_nil, setWeight_weight, setWeight_blurStrength]
    refine ⟨fun x => ?_, h3⟩
    by_cases hx : x = (m : Int)
    · subst hx
      have h4 : (0 : Int) ≤ (m : Int) ∧ (m : Int) < ((m + 1 : Nat) : Int) := by omega
      have h5 : ¬ ((0 : Int) ≤ (m : Int) ∧ (m : Int) < (m : Int)) := by omega
      rw [Function.update_same, h2 (m : Int)]
      simp [h4, h5]
    · rw [Function.update_noteq hx, h2 x]
      have : (0 ≤ x ∧ x < ((m + 1 : Nat) : Int)) ↔ (0 ≤ x ∧ x < (m : Int)) := by omega
      simp only [this]

/-- The offsets loop touches neither the weights nor the strength. -/
theorem blurKernelOffsets_weight (s : SceneState α) :
    (blurKernelOffsets s).gPostProcessingConstants.weight = s.gPostProcessingConstants.weight ∧
    (blurKernelOffsets s).gPostProcessingConstants.blurStrength
      = s.gPostProcessingConstants.blurStrength := by
  unfold blurKernelOffsets
  simp only []
  refine forLoop_invariant
    (fun t : SceneState α =>
      t.gPostProcessingConstants.weight = s.gPostProcessingConstants.weight ∧
      t.gPostProcessingConstants.blurStrength = s.gPostProcessingConstants.blurStrength)
    _ _ _ ?_ _ ⟨rfl, rfl⟩
  intro x t ht
  exact ht

theorem touchConstants_pp (s : SceneState α) (i : Int) :
    (s.touchConstants i).gPostProcessingConstants = s.gPostProcessingConstants := by
  unfold SceneState.touchConstants
  split <;> rfl

theorem coerced_blurStrength (i : Int) (s : SceneState α) :
    (((s.PSSetShader .gBlurHPostProcess).loadBlurStrength i).coerceBlurStrength).gPostProcessingConstants.blurStrength
      = effectiveBlurStrength (s.constantsAt i).blurStrength := by
  simp only [SceneState.coerceBlurStrength, SceneState.loadBlurStrength, SceneState.modifyPP]
  rfl

/-- After the `BlurH` branch the strength is the odd-coerced stored strength and the
weight at each index below it is the weight expression divided by the sum of the
weight expressions. -/
theorem selectBlurH_weights (M : Env α) (i : Int) (s : SceneState α) :
    (selectBlurH M i s).gPostProcessingConstants.blurStrength
      = effectiveBlurStrength (s.constantsAt i).blurStrength ∧
    ∀ x : Int, 0 ≤ x →
      x < ((effectiveBlurStrength (s.constantsAt i).blurStrength).toNat : Int) →
      (selectBlurH M i s).gPostProcessingConstants.weight x
        = blurWeightExpr M
            ((Int.tdiv (effectiveBlurStrength (s.constantsAt i).blurStrength - 1) 2 : Int) : α)
            40 x
          / ∑ k ∈ Finset.range (effectiveBlurStrength (s.constantsAt i).blurStrength).toNat,
              blurWeightExpr M
                ((Int.tdiv (effectiveBlurStrength (s.constantsAt i).blurStrength - 1) 2 : Int) : α)
                40 (k : Int) := by
  unfold selectBlurH
  have hn := coerced_blurStrength i s
  generalize ((s.PSSetShader .gBlurHPostProcess).loadBlurStrength i).coerceBlurStrength = s1
    at hn
  obtain ⟨a1, a2, a3⟩ := blurWeightLoop_spec M s1
  obtain ⟨b2, b3⟩ := blurNormaliseLoop_spec (blurWeightLoop M s1)
  obtain ⟨c2, c3⟩ := blurKernelOffsets_weight (blurNormaliseLoop (blurWeightLoop M s1))
  rw [hn] at a1 a2
  rw [a3, hn] at b2
  refine ⟨by rw [c3, b3, a3, hn], fun x hx0 hxn => ?_⟩
  rw [c2, b2 x, if_pos ⟨hx0, hxn⟩, a2 x, if_pos ⟨hx0, hxn⟩, a1]

theorem blurWeightExpr_pos (M : Env α) (hexp : ∀ x, 0 < M.exp x) (hpi : 0 < M.PI)
    (mean : α) (x : Int) : 0 < blurWeightExpr M mean 40 x := by
  unfold blurWeightExpr
  exact div_pos (hexp _) (by positivity)

/-- In any ordered field, with a positive `exp` and a positive `PI`, the weights
generated for a stored strength of at least 1 sum to 1. -/
theorem selectBlurH_weights_sum (M : Env α) (hexp : ∀ x, 0 < M.exp x) (hpi : 0 < M.PI)
    (i : Int) (s : SceneState α) (hs : 1 ≤ (s.constantsAt i).blurStrength) :
    ∑ x ∈ Finset.range (effectiveBlurStrength (s.constantsAt i).blurStrength).toNat,
      (selectBlurH M i s).gPostProcessingConstants.weight (x : Int) = 1 := by
  obtain ⟨_, hw⟩ := selectBlurH_weights M i s
  have hn : 1 ≤ effectiveBlurStrength (s.constantsAt i).blurStrength := by
    unfold effectiveBlurStrength decrementInt32
    split
    · next h =>
      have := (tmod_two_eq_zero_iff _).1 h
      split <;> omega
    · exact hs
  have hsum : ∀ x ∈ Finset.range (effectiveBlurStrength (s.constantsAt i).blurStrength).toNat,
      (selectBlurH M i s).gPostProcessingConstants.weight (x : Int)
        = blurWeightExpr M
            ((Int.tdiv (effectiveBlurStrength (s.constantsAt i).blurStrength - 1) 2 : Int) : α)
            40 (x : Int)
          / ∑ k ∈ Finset.range (effectiveBlurStrength (s.constantsAt i).blurStrength).toNat,
              blurWeightExpr M
                ((Int.tdiv (effectiveBlurStrength (s.constantsAt i).blurStrength - 1) 2 : Int) : α)
                40 (k : Int) :=
    fun x hx => hw (x : Int) (by omega) (by exact_mod_cast Finset.mem_range.1 hx)
  rw [Finset.sum_congr rfl hsum, ← Finset.sum_div]
  refine div_self (ne_of_gt ?_)
  refine Finset.sum_pos (fun k _ => blurWeightExpr_pos M hexp hpi _ _) ?_
  refine ⟨0, Finset.mem_range.2 ?_⟩
  omega

/-- Claim C10. For every stored blur strength of at least 1, after
`SelectPostProcessShaderAndTextures` handles `BlurH` the effective strength is the
odd-coerced stored strength `n`, and the weights `weight[0..n-1]` sum to exactly 1 in
real arithmetic (`exp` and `PI` being the real exponential and the real pi). -/
theorem blurH_weights_sum_to_one (M : Env ℝ) (hexp : M.exp = Real.exp)
    (hpi : M.PI = Real.pi) (frameTime : ℝ) (i : Int) (s : SceneState ℝ)
    (hs : 1 ≤ (s.constantsAt i).blurStrength) :
    (SelectPostProcessShaderAndTextures M .BlurH frameTime i s).gPostProcessingConstants.blurStrength
      = effectiveBlurStrength (s.constantsAt i).blurStrength ∧
    ∑ x ∈ Finset.range
        (SelectPostProcessShaderAndTextures M .BlurH frameTime i
          s).gPostProcessingConstants.blurStrength.toNat,
      (SelectPostProcessShaderAndTextures M .BlurH frameTime i
        s).gPostProcessingConstants.weight (x : Int) = 1 := by
  have h1 : SelectPostProcessShaderAndTextures M .BlurH frameTime i s = selectBlurH M i s :=
    rfl
  rw [h1, (selectBlurH_weights M i s).1]
  exact ⟨rfl, selectBlurH_weights_sum M (by rw [hexp]; exact Real.exp_pos)
    (by rw [hpi]; exact Real.pi_pos) i s hs⟩

/-- Witness of C10: stored strength 8, effective strength 7, over the reals. -/
theorem blurH_weights_sum_to_one_witness :
    1 ≤ (((SceneState.start : SceneState ℝ).pushConstants
        { (Constants.ctor : Constants ℝ) with blurStrength := 8 }).constantsAt 0).blurStrength ∧
    ∑ x ∈ Finset.range 7,
      (SelectPostProcessShaderAndTextures
        (⟨Real.exp, Real.cos, fun x _ => x, Real.pi, fun _ lo _ => lo, 1280, 960,
          fun p => ⟨p.x, p.y, p.z, 1⟩, 1, 1000, fun p => p, fun _ => ⟨1, 1⟩⟩ : Env ℝ)
        .BlurH 0 0
        ((SceneState.start : SceneState ℝ).pushConstants
          { (Constants.ctor : Constants ℝ) with blurStrength := 8 })).gPostProcessingConstants.weight
        (x : Int) = 1 := by
  have h := blurH_weights_sum_to_one
    (⟨Real.exp, Real.cos, fun x _ => x, Real.pi, fun _ lo _ => lo, 1280, 960,
      fun p => ⟨p.x, p.y, p.z, 1⟩, 1, 1000, fun p => p, fun _ => ⟨1, 1⟩⟩ : Env ℝ)
    rfl rfl 0 0
    ((SceneState.start : SceneState ℝ).pushConstants
      { (Constants.ctor : Constants ℝ) with blurStrength := 8 })
    (by decide)
  refine ⟨by decide, ?_⟩
  have h7 : effectiveBlurStrength
      (((SceneState.start : SceneState ℝ).pushConstants
        { (Constants.ctor : Constants ℝ) with blurStrength := 8 }).constantsAt 0).blurStrength
      = 7 := by decide
  rw [h.1, h7] at h
  exact h.2

theorem setKernel_kernel (s : SceneState α) (x : Int) (v : Int) :
    (s.setKernel x v).gPostProcessingConstants.kernel
      = Function.update s.gPostProcessingConstants.kernel x v := rfl

theorem setKernel_kernelWrites (s : SceneState α) (x : Int) (v : Int) :
    (s.setKernel x v).kernelWrites = s.kernelWrites ++ [x] := rfl

theorem setKernel_weightWrites (s : SceneState α) (x : Int) (v : Int) :
    (s.setKernel x v).weightWrites = s.weightWrites := rfl

theorem setWeight_kernel (s : SceneState α) (x : Int) (v : α) :
    (s.setWeight x v).gPostProcessingConstants.kernel
      = s.gPostProcessingConstants.kernel := rfl

theorem setWeight_kernelWrites (s : SceneState α) (x : Int) (v : α) :
    (s.setWeight x v).kernelWrites = s.kernelWrites := rfl

theorem setWeight_weightWrites (s : SceneState α) (x : Int) (v : α) :
    (s.setWeight x v).weightWrites = s.weightWrites ++ [x] := rfl

/-- The offsets written for a midpoint `mid`: the midpoint, then `mid + x` and
`mid - x` for `x = 1, 2, ..`. -/
theorem blurKernelOffsets_spec (s : SceneState α) :
    (∀ j : Int, (blurKernelOffsets s).gPostProcessingConstants.kernel j
      = if Int.tdiv (s.gPostProcessingConstants.blurStrength - 1) 2
            - ((Int.tdiv (s.gPostProcessingConstants.blurStrength - 1) 2).toNat : Int) ≤ j ∧
           j ≤ Int.tdiv (s.gPostProcessingConstants.blurStrength - 1) 2
            + ((Int.tdiv (s.gPostProcessingConstants.blurStrength - 1) 2).toNat : Int) then
          j - Int.tdiv (s.gPostProcessingConstants.blurStrength - 1) 2
        else s.gPostProcessingConstants.kernel j) ∧
    (blurKernelOffsets s).kernelWrites
      = s.kernelWrites ++ Int.tdiv (s.gPostProcessingConstants.blurStrength - 1) 2 ::
          (List.range (Int.tdiv (s.gPostProcessingConstants.blurStrength - 1) 2).toNat).flatMap
            (fun k => [Int.tdiv (s.gPostProcessingConstants.blurStrength - 1) 2 + (1 + (k : Int)),
              Int.tdiv (s.gPostProcessingConstants.blurStrength - 1) 2 - (1 + (k : Int))]) ∧
    (blurKernelOffsets s).weightWrites = s.weightWrites := by
  unfold blurKernelOffsets forLoop
  simp only [add_sub_cancel_right]
  generalize Int.tdiv (s.gPostProcessingConstants.blurStrength - 1) 2 = mid
  generalize mid.toNat = m
  induction m with
  | zero =>
    refine ⟨fun j => ?_, by simp [setKernel_kernelWrites], by simp [setKernel_weightWrites]⟩
    simp only [List.range_zero, List.foldl_nil, setKernel_kernel, Nat.cast_zero, sub_zero,
      add_zero]
    by_cases hj : j = mid
    · subst hj
      simp
    · have : ¬ (mid ≤ j ∧ j ≤ mid) := by omega
      rw [Function.update_noteq hj, if_neg this]
  | succ m ih =>
    obtain ⟨h1, h2, h3⟩ := ih
    rw [List.range_succ, List.foldl_append, List.flatMap_append]
    simp only [List.foldl_cons, List.foldl_nil, setKernel_kernel, setKernel_kernelWrites,
      setKernel_weightWrites, List.flatMap_singleton]
    refine ⟨fun j => ?_, ?_, h3⟩
    · by_cases hj1 : j = mid - (1 + (m : Int))
      · subst hj1
        have : mid - ((m + 1 : Nat) : Int) ≤ mid - (1 + (m : Int)) ∧
            mid - (1 + (m : Int)) ≤ mid + ((m + 1 : Nat) : Int) := by omega
        rw [Function.update_same, if_pos this]
        omega
      · rw [Function.update_noteq hj1]
        by_cases hj2 : j = mid + (1 + (m : Int))
        · subst hj2
          have : mid - ((m + 1 : Nat) : Int) ≤ mid + (1 + (m : Int)) ∧
              mid + (1 + (m : Int)) ≤ mid + ((m + 1 : Nat) : Int) := by omega
          rw [Function.update_same, if_pos this]
          omega
        · rw [Function.update_noteq hj2, h1 j]
          have : (mid - ((m + 1 : Nat) : Int) ≤ j ∧ j ≤ mid + ((m + 1 : Nat) : Int)) ↔
              (mid - (m : Int) ≤ j ∧ j ≤ mid + (m : Int)) := by omega
          simp only [this]
    · rw [h2]
      simp

/-- The first loop leaves the offsets alone and logs the weight indices `0, 1, ..`. -/
theorem blurWeightLoop_logs (M : Env α) (s : SceneState α) :
    (blurWeightLoop M s).1.gPostProcessingConstants.kernel = s.gPostProcessingConstants.kernel ∧
    (blurWeightLoop M s).1.kernelWrites = s.kernelWrites ∧
    (blurWeightLoop M s).1.weightWrites
      = s.weightWrites ++
        (List.range s.gPostProcessingConstants.blurStrength.toNat).map (fun k : Nat => (k : Int)) := by
  unfold blurWeightLoop forLoop
  simp only [sub_zero, zero_add]
  generalize s.gPostProcessingConstants.blurStrength.toNat = m
  generalize blurWeightExpr M
    ((Int.tdiv (s.gPostProcessingConstants.blurStrength - 1) 2 : Int) : α) 40 = w
  induction m with
  | zero => simp
  | succ m ih =>
    obtain ⟨h1, h2, h3⟩ := ih
    rw [List.range_succ, List.foldl_append]
    simp only [List.foldl_cons, List.foldl_nil, setWeight_kernel, setWeight_kernelWrites,
      setWeight_weightWrites]
    refine ⟨h1, h2, ?_⟩
    rw [h3]
    simp

/-- The second loop leaves the offsets alone and logs the weight indices again. -/
theorem blurNormaliseLoop_logs (r : SceneState α × α) :
    (blurNormaliseLoop r).gPostProcessingConstants.kernel = r.1.gPostProcessingConstants.kernel ∧
    (blurNormaliseLoop r).kernelWrites = r.1.kernelWrites ∧
    (blurNormaliseLoop r).weightWrites
      = r.1.weightWrites ++
        (List.range r.1.gPostProcessingConstants.blurStrength.toNat).map
          (fun k : Nat => (k : Int)) := by
  unfold blurNormaliseLoop forLoop
  simp only [sub_zero, zero_add]
  generalize r.1.gPostProcessingConstants.blurStrength.toNat = m
  induction m with
  | zero => simp
  | succ m ih =>
    obtain ⟨h1, h2, h3⟩ := ih
    rw [List.range_succ, List.foldl_append]
    simp only [List.foldl_cons, List.foldl_nil, setWeight_kernel, setWeight_kernelWrites,
      setWeight_weightWrites]
    refine ⟨h1, h2, ?_⟩
    rw [h3]
    simp

theorem touchConstants_logs (s : SceneState α) (i : Int) :
    (s.touchConstants i).kernelWrites = s.kernelWrites ∧
    (s.touchConstants i).weightWrites = s.weightWrites := by
  unfold SceneState.touchConstants
  split <;> exact ⟨rfl, rfl⟩

theorem coerced_logs (i : Int) (s : SceneState α) :
    (((s.PSSetShader .gBlurHPostProcess).loadBlurStrength i).coerceBlurStrength).gPostProcessingConstants.kernel
      = s.gPostProcessingConstants.kernel ∧
    (((s.PSSetShader .gBlurHPostProcess).loadBlurStrength i).coerceBlurStrength).kernelWrites
      = s.kernelWrites ∧
    (((s.PSSetShader .gBlurHPostProcess).loadBlurStrength i).coerceBlurStrength).weightWrites
      = s.weightWrites := by
  have h := touchConstants_logs (s.PSSetShader .gBlurHPostProcess) i
  have hp := touchConstants_pp (s.PSSetShader .gBlurHPostProcess) i
  refine ⟨?_, h.1, h.2⟩
  simp only [SceneState.coerceBlurStrength, SceneState.loadBlurStrength, SceneState.modifyPP, hp]
  rfl

/-- An effective strength is odd. -/
theorem effectiveBlurStrength_odd (c : Int) : effectiveBlurStrength c % 2 = 1 := by
  unfold effectiveBlurStrength decrementInt32
  split
  · next h =>
    have := (tmod_two_eq_zero_iff c).1 h
    split <;> omega
  · next h =>
    have := mt (tmod_two_eq_zero_iff c).2 h
    omega

/-- Above `INT_MIN` the effective strength is the stored strength less one when that is
even, and the stored strength when it is odd. -/
theorem effectiveBlurStrength_of_gt {c : Int} (hc : -2147483648 < c) :
    effectiveBlurStrength c = if c % 2 = 0 then c - 1 else c := by
  unfold effectiveBlurStrength decrementInt32
  by_cases h : c % 2 = 0
  · rw [if_pos ((tmod_two_eq_zero_iff c).2 h), if_pos h, if_neg (by omega)]
  · rw [if_neg (mt (tmod_two_eq_zero_iff c).1 h), if_neg h]

theorem effectiveBlurStrength_pos {c : Int} (hc : 1 ≤ c) : 1 ≤ effectiveBlurStrength c := by
  rw [effectiveBlurStrength_of_gt (by omega)]
  split <;> omega

/-- For an odd `n ≥ 1` the truncating `(n - 1) / 2` is the exact half of `n - 1`. -/
theorem midpoint_of_odd {n : Int} (h1 : 1 ≤ n) (h2 : n % 2 = 1) :
    0 ≤ Int.tdiv (n - 1) 2 ∧ 2 * Int.tdiv (n - 1) 2 + 1 = n := by
  rw [Int.tdiv_eq_ediv (by omega) (by omega)]
  omega

/-- The state the `BlurH` branch leaves, on the offsets and the two write logs. -/
theorem selectBlurH_offsets (M : Env α) (i : Int) (s : SceneState α) :
    (∀ j : Int, (selectBlurH M i s).gPostProcessingConstants.kernel j
      = if Int.tdiv (effectiveBlurStrength (s.constantsAt i).blurStrength - 1) 2
            - ((Int.tdiv (effectiveBlurStrength (s.constantsAt i).blurStrength - 1) 2).toNat : Int)
              ≤ j ∧
           j ≤ Int.tdiv (effectiveBlurStrength (s.constantsAt i).blurStrength - 1) 2
            + ((Int.tdiv (effectiveBlurStrength (s.constantsAt i).blurStrength - 1) 2).toNat : Int)
        then j - Int.tdiv (effectiveBlurStrength (s.constantsAt i).blurStrength - 1) 2
        else s.gPostProcessingConstants.kernel j) ∧
    (selectBlurH M i s).kernelWrites
      = s.kernelWrites ++ Int.tdiv (effectiveBlurStrength (s.constantsAt i).blurStrength - 1) 2 ::
          (List.range
            (Int.tdiv (effectiveBlurStrength (s.constantsAt i).blurStrength - 1) 2).toNat).flatMap
            (fun k => [Int.tdiv (effectiveBlurStrength (s.constantsAt i).blurStrength - 1) 2
                + (1 + (k : Int)),
              Int.tdiv (effectiveBlurStrength (s.constantsAt i).blurStrength - 1) 2
                - (1 + (k : Int))]) ∧
    (selectBlurH M i s).weightWrites
      = s.weightWrites ++
        ((List.range (effectiveBlurStrength (s.constantsAt i).blurStrength).toNat).map
          (fun k : Nat => (k : Int)) ++
         (List.range (effectiveBlurStrength (s.constantsAt i).blurStrength).toNat).map
          (fun k : Nat => (k : Int))) := by
  unfold selectBlurH
  have hn := coerced_blurStrength i s
  obtain ⟨g1, g2, g3⟩ := coerced_logs i s
  generalize ((s.PSSetShader .gBlurHPostProcess).loadBlurStrength i).coerceBlurStrength = s1
    at hn g1 g2 g3
  obtain ⟨_, _, a3⟩ := blurWeightLoop_spec M s1
  obtain ⟨a4, a5, a6⟩ := blurWeightLoop_logs M s1
  obtain ⟨_, b3⟩ := blurNormaliseLoop_spec (blurWeightLoop M s1)
  obtain ⟨b4, b5, b6⟩ := blurNormaliseLoop_logs (blurWeightLoop M s1)
  obtain ⟨c1, c2, c3⟩ := blurKernelOffsets_spec (blurNormaliseLoop (blurWeightLoop M s1))
  rw [b3, a3, hn] at c1 c2
  refine ⟨fun j => ?_, ?_, ?_⟩
  · rw [c1 j, b4, a4, g1]
  · rw [c2, b5, a5, g2]
  · rw [c3, b6, a6, a3, hn, g3, List.append_assoc]

/-- Claim C11. For every stored blur strength of at least 1, with effective strength `n`
and `mid = (n - 1) / 2`, the offsets generated for `BlurH` satisfy `kernel[mid] = 0`,
`kernel[mid + k] = k` and `kernel[mid - k] = -k` for every `k` in `[1..mid]`, and
`kernel[j] = j - mid` for every `j` in `[0, n)`. -/
theorem blurH_offsets (M : Env α) (frameTime : α) (i : Int) (s : SceneState α)
    (hs : 1 ≤ (s.constantsAt i).blurStrength) :
    (SelectPostProcessShaderAndTextures M .BlurH frameTime i s).gPostProcessingConstants.kernel
        (Int.tdiv (effectiveBlurStrength (s.constantsAt i).blurStrength - 1) 2) = 0 ∧
    (∀ k : Int, 1 ≤ k →
      k ≤ Int.tdiv (effectiveBlurStrength (s.constantsAt i).blurStrength - 1) 2 →
      (SelectPostProcessShaderAndTextures M .BlurH frameTime i s).gPostProcessingConstants.kernel
          (Int.tdiv (effectiveBlurStrength (s.constantsAt i).blurStrength - 1) 2 + k) = k ∧
      (SelectPostProcessShaderAndTextures M .BlurH frameTime i s).gPostProcessingConstants.kernel
          (Int.tdiv (effectiveBlurStrength (s.constantsAt i).blurStrength - 1) 2 - k) = -k) ∧
    (∀ j : Int, 0 ≤ j → j < effectiveBlurStrength (s.constantsAt i).blurStrength →
      (SelectPostProcessShaderAndTextures M .BlurH frameTime i s).gPostProcessingConstants.kernel j
        = j - Int.tdiv (effectiveBlurStrength (s.constantsAt i).blurStrength - 1) 2) := by
  have h1 : SelectPostProcessShaderAndTextures M .BlurH frameTime i s = selectBlurH M i s :=
    rfl
  obtain ⟨hk, _, _⟩ := selectBlurH_offsets M i s
  obtain ⟨hm0, hm⟩ := midpoint_of_odd (effectiveBlurStrength_pos hs)
    (effectiveBlurStrength_odd (s.constantsAt i).blurStrength)
  rw [h1]
  generalize effectiveBlurStrength (s.constantsAt i).blurStrength = n at hk hm0 hm
  generalize Int.tdiv (n - 1) 2 = mid at hk hm0 hm
  have hcast : ((mid.toNat : Nat) : Int) = mid := Int.toNat_of_nonneg hm0
  rw [hcast] at hk
  refine ⟨?_, fun k hk1 hk2 => ⟨?_, ?_⟩, fun j hj0 hjn => ?_⟩
  · rw [hk mid, if_pos (by omega)]
    omega
  · rw [hk (mid + k), if_pos (by omega)]
    omega
  · rw [hk (mid - k), if_pos (by omega)]
    omega
  · rw [hk j, if_pos (by omega)]

/-- Witness of C11: stored strength 8, effective strength 7, midpoint 3. -/
theorem blurH_offsets_witness :
    1 ≤ (((SceneState.start : SceneState ℚ).pushConstants
        { (Constants.ctor : Constants ℚ) with blurStrength := 8 }).constantsAt 0).blurStrength ∧
    ∀ j : Int, 0 ≤ j → j < 7 →
      (SelectPostProcessShaderAndTextures Env.sample .BlurH 0 0
        ((SceneState.start : SceneState ℚ).pushConstants
          { (Constants.ctor : Constants ℚ) with blurStrength := 8 })).gPostProcessingConstants.kernel
        j = j - 3 :=
  ⟨by decide,
   (blurH_offsets Env.sample 0 0
    ((SceneState.start : SceneState ℚ).pushConstants
      { (Constants.ctor : Constants ℚ) with blurStrength := 8 }) (by decide)).2.2⟩

theorem mem_weightIndices (m : Nat) (j : Int) :
    j ∈ (List.range m).map (fun k : Nat => (k : Int)) ↔ 0 ≤ j ∧ j < (m : Int) := by
  simp only [List.mem_map, List.mem_range]
  constructor
  · rintro ⟨k, hk, rfl⟩
    omega
  · rintro ⟨h0, h1⟩
    exact ⟨j.toNat, by omega, by omega⟩

theorem mem_kernelIndices (mid : Int) (m : Nat) (j : Int) :
    j ∈ mid :: (List.range m).flatMap
        (fun k => [mid + (1 + (k : Int)), mid - (1 + (k : Int))]) ↔
      mid - (m : Int) ≤ j ∧ j ≤ mid + (m : Int) := by
  simp only [List.mem_cons, List.mem_flatMap, List.mem_range, List.mem_singleton,
    List.not_mem_nil, or_false]
  constructor
  · rintro (rfl | ⟨k, hk, rfl | rfl⟩) <;> omega
  · rintro ⟨h0, h1⟩
    by_cases hj : j = mid
    · exact Or.inl hj
    · right
      by_cases hlt : mid < j
      · exact ⟨(j - mid - 1).toNat, by omega, Or.inl (by omega)⟩
      · exact ⟨(mid - j - 1).toNat, by omega, Or.inr (by omega)⟩

theorem card_weightIndices (m : Nat) :
    ((List.range m).map (fun k : Nat => (k : Int)) ++
      (List.range m).map (fun k : Nat => (k : Int))).toFinset.card = m := by
  have h : ((List.range m).map (fun k : Nat => (k : Int)) ++
      (List.range m).map (fun k : Nat => (k : Int))).toFinset = Finset.Ico (0 : Int) (m : Int) := by
    ext j
    simp only [List.mem_toFinset, List.mem_append, mem_weightIndices, or_self, Finset.mem_Ico]
  rw [h, Int.card_Ico]
  omega

theorem card_kernelIndices (mid : Int) (m : Nat) :
    (mid :: (List.range m).flatMap
        (fun k => [mid + (1 + (k : Int)), mid - (1 + (k : Int))])).toFinset.card = 2 * m + 1 := by
  have h : (mid :: (List.range m).flatMap
      (fun k => [mid + (1 + (k : Int)), mid - (1 + (k : Int))])).toFinset
        = Finset.Icc (mid - (m : Int)) (mid + (m : Int)) := by
    ext j
    rw [List.mem_toFinset, mem_kernelIndices, Finset.mem_Icc]
  rw [h, Int.card_Icc]
  omega

theorem writesSince_selectBlurH (M : Env α) (i : Int) (s : SceneState α) :
    weightWritesSince s (selectBlurH M i s)
      = (List.range (effectiveBlurStrength (s.constantsAt i).blurStrength).toNat).map
          (fun k : Nat => (k : Int)) ++
        (List.range (effectiveBlurStrength (s.constantsAt i).blurStrength).toNat).map
          (fun k : Nat => (k : Int)) ∧
    kernelWritesSince s (selectBlurH M i s)
      = Int.tdiv (effectiveBlurStrength (s.constantsAt i).blurStrength - 1) 2 ::
          (List.range
            (Int.tdiv (effectiveBlurStrength (s.constantsAt i).blurStrength - 1) 2).toNat).flatMap
            (fun k => [Int.tdiv (effectiveBlurStrength (s.constantsAt i).blurStrength - 1) 2
                + (1 + (k : Int)),
              Int.tdiv (effectiveBlurStrength (s.constantsAt i).blurStrength - 1) 2
                - (1 + (k : Int))]) := by
  obtain ⟨_, h2, h3⟩ := selectBlurH_offsets M i s
  unfold weightWritesSince kernelWritesSince
  rw [h2, h3]
  simp

/-- Claim C12, amended. The strength used for kernel generation is the effective
strength of the stored one; for every stored blur strength `s` above
`INT_MIN = -2147483648` the effective strength is `s - 1` when `s` is even and `s` when
`s` is odd; the effective strength is odd for every stored strength; for every stored
strength of at least 1 the kernel generated has exactly that many weights and that many
offsets (the indices written are that many); a stored strength 8 gives effective
strength 7 and a kernel of 7 weights and 7 offsets. -/
theorem blur_strength_coercion (M : Env α) (frameTime : α) (i : Int) (s : SceneState α) :
    (SelectPostProcessShaderAndTextures M .BlurH frameTime i s).gPostProcessingConstants.blurStrength
      = effectiveBlurStrength (s.constantsAt i).blurStrength ∧
    (-2147483648 < (s.constantsAt i).blurStrength →
      effectiveBlurStrength (s.constantsAt i).blurStrength
        = (if Even (s.constantsAt i).blurStrength then (s.constantsAt i).blurStrength - 1
           else (s.constantsAt i).blurStrength)) ∧
    Odd (effectiveBlurStrength (s.constantsAt i).blurStrength) ∧
    (1 ≤ (s.constantsAt i).blurStrength →
      (((weightWritesSince s
          (SelectPostProcessShaderAndTextures M .BlurH frameTime i s)).toFinset.card : Nat) : Int)
        = effectiveBlurStrength (s.constantsAt i).blurStrength ∧
      (((kernelWritesSince s
          (SelectPostProcessShaderAndTextures M .BlurH frameTime i s)).toFinset.card : Nat) : Int)
        = effectiveBlurStrength (s.constantsAt i).blurStrength) ∧
    ((s.constantsAt i).blurStrength = 8 →
      (SelectPostProcessShaderAndTextures M .BlurH frameTime i
        s).gPostProcessingConstants.blurStrength = 7 ∧
      (weightWritesSince s
        (SelectPostProcessShaderAndTextures M .BlurH frameTime i s)).toFinset.card = 7 ∧
      (kernelWritesSince s
        (SelectPostProcessShaderAndTextures M .BlurH frameTime i s)).toFinset.card = 7) := by
  have h1 : SelectPostProcessShaderAndTextures M .BlurH frameTime i s = selectBlurH M i s :=
    rfl
  obtain ⟨w1, w2⟩ := writesSince_selectBlurH M i s
  have hodd := effectiveBlurStrength_odd (s.constantsAt i).blurStrength
  have hcount : 1 ≤ (s.constantsAt i).blurStrength →
      (((weightWritesSince s (selectBlurH M i s)).toFinset.card : Nat) : Int)
        = effectiveBlurStrength (s.constantsAt i).blurStrength ∧
      (((kernelWritesSince s (selectBlurH M i s)).toFinset.card : Nat) : Int)
        = effectiveBlurStrength (s.constantsAt i).blurStrength := by
    intro hs
    obtain ⟨hm0, hm⟩ := midpoint_of_odd (effectiveBlurStrength_pos hs) hodd
    have hpos := effectiveBlurStrength_pos hs
    rw [w1, w2, card_weightIndices, card_kernelIndices]
    constructor <;> omega
  rw [h1]
  refine ⟨(selectBlurH_weights M i s).1, fun hmin => ?_, Int.odd_iff.2 hodd, hcount,
    fun h8 => ?_⟩
  · rw [effectiveBlurStrength_of_gt hmin]
    by_cases h : (s.constantsAt i).blurStrength % 2 = 0
    · rw [if_pos h, if_pos (Int.even_iff.2 h)]
    · rw [if_neg h, if_neg (mt Int.even_iff.1 h)]
  · have h7 : effectiveBlurStrength (s.constantsAt i).blurStrength = 7 := by
      rw [h8]
      decide
    obtain ⟨c1, c2⟩ := hcount (by omega)
    rw [h7] at c1 c2
    exact ⟨(selectBlurH_weights M i s).1.trans h7, by omega, by omega⟩

/-- Witness of C12: a record of stored strength 8. -/
theorem blur_strength_coercion_witness :
    (-2147483648 < ((oneRecord 8 : SceneState ℚ).constantsAt 0).blurStrength ∧
      1 ≤ ((oneRecord 8 : SceneState ℚ).constantsAt 0).blurStrength ∧
      ((oneRecord 8 : SceneState ℚ).constantsAt 0).blurStrength = 8) ∧
    effectiveBlurStrength ((oneRecord 8 : SceneState ℚ).constantsAt 0).blurStrength
      = (if Even ((oneRecord 8 : SceneState ℚ).constantsAt 0).blurStrength
         then ((oneRecord 8 : SceneState ℚ).constantsAt 0).blurStrength - 1
         else ((oneRecord 8 : SceneState ℚ).constantsAt 0).blurStrength) ∧
    ((((weightWritesSince (oneRecord 8 : SceneState ℚ)
        (SelectPostProcessShaderAndTextures Env.sample .BlurH 0 0
          (oneRecord 8))).toFinset.card : Nat) : Int)
      = effectiveBlurStrength ((oneRecord 8 : SceneState ℚ).constantsAt 0).blurStrength ∧
     (((kernelWritesSince (oneRecord 8 : SceneState ℚ)
        (SelectPostProcessShaderAndTextures Env.sample .BlurH 0 0
          (oneRecord 8))).toFinset.card : Nat) : Int)
      = effectiveBlurStrength ((oneRecord 8 : SceneState ℚ).constantsAt 0).blurStrength) ∧
    (SelectPostProcessShaderAndTextures Env.sample .BlurH 0 0
      (oneRecord 8)).gPostProcessingConstants.blurStrength = 7 ∧
    (weightWritesSince (oneRecord 8)
      (SelectPostProcessShaderAndTextures Env.sample .BlurH 0 0 (oneRecord 8))).toFinset.card
      = 7 ∧
    (kernelWritesSince (oneRecord 8)
      (SelectPostProcessShaderAndTextures Env.sample .BlurH 0 0 (oneRecord 8))).toFinset.card
      = 7 :=
  ⟨⟨by decide, by decide, by decide⟩,
   (blur_strength_coercion Env.sample 0 0 (oneRecord 8)).2.1 (by decide),
   (blur_strength_coercion Env.sample 0 0 (oneRecord 8)).2.2.2.1 (by decide),
   (blur_strength_coercion Env.sample 0 0 (oneRecord 8)).2.2.2.2 (by decide)⟩

/-- Claim C12 as stated fails for a stored strength 0: the effective strength is -1,
which no number of weights or offsets equals; no weight and one offset, at index -1,
are written. -/
theorem blur_kernel_length_counterexample :
    weightWritesSince (oneRecord 0 : SceneState ℚ)
      (SelectPostProcessShaderAndTextures Env.sample .BlurH 0 0 (oneRecord 0)) = [] ∧
    kernelWritesSince (oneRecord 0 : SceneState ℚ)
      (SelectPostProcessShaderAndTextures Env.sample .BlurH 0 0 (oneRecord 0)) = [-1] ∧
    ¬ ((((weightWritesSince (oneRecord 0 : SceneState ℚ)
          (SelectPostProcessShaderAndTextures Env.sample .BlurH 0 0
            (oneRecord 0))).toFinset.card : Nat) : Int)
        = effectiveBlurStrength ((oneRecord 0 : SceneState ℚ).constantsAt 0).blurStrength ∧
      (((kernelWritesSince (oneRecord 0 : SceneState ℚ)
          (SelectPostProcessShaderAndTextures Env.sample .BlurH 0 0
            (oneRecord 0))).toFinset.card : Nat) : Int)
        = effectiveBlurStrength ((oneRecord 0 : SceneState ℚ).constantsAt 0).blurStrength) := by
  have e : effectiveBlurStrength ((oneRecord 0 : SceneState ℚ).constantsAt 0).blurStrength
      = -1 := by decide
  obtain ⟨w1, w2⟩ := writesSince_selectBlurH Env.sample 0 (oneRecord 0)
  have h1 : SelectPostProcessShaderAndTextures Env.sample .BlurH 0 0 (oneRecord 0)
      = selectBlurH Env.sample 0 (oneRecord 0) := rfl
  rw [e] at w1 w2
  refine ⟨by rw [h1, w1]; decide, by rw [h1, w2]; decide, ?_⟩
  rw [e]
  omega

/-- For an odd strength the expression of line 795 is `codedWeight`. -/
theorem blurWeightExpr_eq_codedWeight (M : Env α) {n : Int} (h1 : 1 ≤ n) (h2 : n % 2 = 1)
    (x : Int) :
    blurWeightExpr M ((Int.tdiv (n - 1) 2 : Int) : α) 40 x = codedWeight M n x := by
  obtain ⟨_, hm⟩ := midpoint_of_odd h1 h2
  have hmean : ((Int.tdiv (n - 1) 2 : Int) : α) = ((n : α) - 1) / 2 := by
    have : ((2 * Int.tdiv (n - 1) 2 + 1 : Int) : α) = (n : α) := by rw [hm]
    push_cast at this
    linarith
  have e1 : -(1 / 2) * ((((x : α) - ((n : α) - 1) / 2) / 40) ^ 2
      + (((x : α) - ((n : α) - 1) / 2) / 40) ^ 2)
      = -(((x : α) - ((n : α) - 1) / 2) ^ 2) / 40 ^ 2 := by ring
  have e2 : (2 * M.PI * 40 * 40 : α) = 2 * M.PI * 40 ^ 2 := by ring
  unfold blurWeightExpr codedWeight
  rw [hmean, e1, e2]

/-- The weight stored by the first loop at an index below the effective strength. -/
theorem blurWeightLoop_codedWeight (M : Env α) (i : Int) (s : SceneState α)
    (hs : 1 ≤ (s.constantsAt i).blurStrength) (x : Int) (hx0 : 0 ≤ x)
    (hxn : x < effectiveBlurStrength (s.constantsAt i).blurStrength) :
    (blurWeightLoop M
        (((s.PSSetShader .gBlurHPostProcess).loadBlurStrength
          i).coerceBlurStrength)).1.gPostProcessingConstants.weight x
      = codedWeight M (effectiveBlurStrength (s.constantsAt i).blurStrength) x := by
  have hn1 := effectiveBlurStrength_pos hs
  have hodd := effectiveBlurStrength_odd (s.constantsAt i).blurStrength
  have hx' : x < ((effectiveBlurStrength (s.constantsAt i).blurStrength).toNat : Int) := by
    omega
  obtain ⟨_, a2, _⟩ := blurWeightLoop_spec M
    (((s.PSSetShader .gBlurHPostProcess).loadBlurStrength i).coerceBlurStrength)
  rw [a2 x, coerced_blurStrength, if_pos ⟨hx0, hx'⟩,
    blurWeightExpr_eq_codedWeight M hn1 hodd]

/-- Claim C13, amended. For every stored strength of at least 1, with effective strength
`n`, and every `x` in `[0, n)`, the weight computed for `BlurH` before normalisation
equals `exp(-((x-mean)^2)/sigma^2) / (2*pi*sigma^2)` with `sigma = 40` and
`mean = (n-1)/2` (the squared term is added twice before it is halved), and the final
`weight[x]` is that value divided by the sum of those values over `[0, n)`. -/
theorem blurH_weight_formula (M : Env α) (frameTime : α) (i : Int) (s : SceneState α)
    (hs : 1 ≤ (s.constantsAt i).blurStrength) (x : Int) (hx0 : 0 ≤ x)
    (hxn : x < effectiveBlurStrength (s.constantsAt i).blurStrength) :
    (blurWeightLoop M
        (((s.PSSetShader .gBlurHPostProcess).loadBlurStrength
          i).coerceBlurStrength)).1.gPostProcessingConstants.weight x
      = codedWeight M (effectiveBlurStrength (s.constantsAt i).blurStrength) x ∧
    (SelectPostProcessShaderAndTextures M .BlurH frameTime i s).gPostProcessingConstants.weight x
      = codedWeight M (effectiveBlurStrength (s.constantsAt i).blurStrength) x
        / ∑ k ∈ Finset.range (effectiveBlurStrength (s.constantsAt i).blurStrength).toNat,
            codedWeight M (effectiveBlurStrength (s.constantsAt i).blurStrength) (k : Int) := by
  have hn1 := effectiveBlurStrength_pos hs
  have hodd := effectiveBlurStrength_odd (s.constantsAt i).blurStrength
  have hx' : x < ((effectiveBlurStrength (s.constantsAt i).blurStrength).toNat : Int) := by
    omega
  constructor
  · obtain ⟨_, a2, _⟩ := blurWeightLoop_spec M
      (((s.PSSetShader .gBlurHPostProcess).loadBlurStrength i).coerceBlurStrength)
    rw [a2 x, coerced_blurStrength, if_pos ⟨hx0, hx'⟩,
      blurWeightExpr_eq_codedWeight M hn1 hodd]
  · have h1 : SelectPostProcessShaderAndTextures M .BlurH frameTime i s = selectBlurH M i s :=
      rfl
    rw [h1, (selectBlurH_weights M i s).2 x hx0 hx', blurWeightExpr_eq_codedWeight M hn1 hodd]
    congr 1
    exact Finset.sum_congr rfl (fun k _ => blurWeightExpr_eq_codedWeight M hn1 hodd _)

/-- Witness of C13: stored strength 3 and index 0. -/
theorem blurH_weight_formula_witness :
    1 ≤ ((oneRecord 3 : SceneState ℚ).constantsAt 0).blurStrength ∧
    (0 : Int) < effectiveBlurStrength ((oneRecord 3 : SceneState ℚ).constantsAt 0).blurStrength ∧
    (blurWeightLoop Env.sample
        ((((oneRecord 3 : SceneState ℚ).PSSetShader .gBlurHPostProcess).loadBlurStrength
          0).coerceBlurStrength)).1.gPostProcessingConstants.weight 0
      = codedWeight Env.sample
          (effectiveBlurStrength ((oneRecord 3 : SceneState ℚ).constantsAt 0).blurStrength) 0 :=
  ⟨by decide, by decide,
   (blurH_weight_formula Env.sample 0 0 (oneRecord 3) (by decide) 0 (by decide)
    (by decide)).1⟩

/-- Claim C13 as stated fails in real arithmetic: for strength 3 the weight computed at
index 0 before normalisation is `exp(-1/1600) / (2π·1600)`, not the specified
`exp(-1/3200) / (2π·1600)`. -/
theorem blurH_weight_counterexample :
    ¬ ((blurWeightLoop (Env.ofMath Real.exp Real.cos (fun x _ => x) Real.pi)
          ((((oneRecord 3 : SceneState ℝ).PSSetShader .gBlurHPostProcess).loadBlurStrength
            0).coerceBlurStrength)).1.gPostProcessingConstants.weight 0
        = specifiedWeight (Env.ofMath Real.exp Real.cos (fun x _ => x) Real.pi) 3 0) := by
  have h := blurWeightLoop_codedWeight (Env.ofMath Real.exp Real.cos (fun x _ => x) Real.pi) 0
    (oneRecord 3 : SceneState ℝ) (by decide) 0 (by decide) (by decide)
  have e : effectiveBlurStrength ((oneRecord 3 : SceneState ℝ).constantsAt 0).blurStrength
      = 3 := by decide
  rw [h, e]
  unfold codedWeight specifiedWeight Env.ofMath
  simp only []
  intro hEq
  have hden : (2 * Real.pi * 40 ^ 2 : ℝ) ≠ 0 := by positivity
  have h2 := Real.exp_injective ((div_left_inj' hden).1 hEq)
  norm_num at h2

theorem fmodExact_one_of_nonneg [FloorRing α] {x : α} (hx : 0 ≤ x) :
    fmodExact x 1 = Int.fract x := by
  unfold fmodExact
  rw [div_one, if_pos hx, one_mul, Int.self_sub_floor]

theorem select_burn_height (M : Env α) (t : α) (i : Int) (s : SceneState α) :
    (SelectPostProcessShaderAndTextures M .Burn t i s).gPostProcessingConstants.burnHeight
      = M.fmod (s.gPostProcessingConstants.burnHeight + 2 / 10 * t) 1 := rfl

theorem burnSequence_height [FloorRing α] (M : Env α) (hfmod : ∀ x, M.fmod x 1 = fmodExact x 1)
    (i : Int) (ts : List α) (hts : ∀ t ∈ ts, 0 ≤ t) (s : SceneState α) (a : α) (ha : 0 ≤ a)
    (hs : s.gPostProcessingConstants.burnHeight = Int.fract a) :
    (burnSequence M i ts s).gPostProcessingConstants.burnHeight
      = Int.fract (a + 2 / 10 * ts.sum) := by
  unfold burnSequence
  induction ts generalizing s a with
  | nil => simpa using hs
  | cons t ts ih =>
    have ht : 0 ≤ t := hts t (List.mem_cons_self _ _)
    have hstep : 0 ≤ Int.fract a + 2 / 10 * t :=
      add_nonneg (Int.fract_nonneg a) (mul_nonneg (by norm_num) ht)
    rw [List.foldl_cons, ih (fun u hu => hts u (List.mem_cons_of_mem _ hu)) _ (a + 2 / 10 * t)
      (add_nonneg ha (mul_nonneg (by norm_num) ht))]
    · rw [List.sum_cons]
      congr 1
      ring
    · rw [select_burn_height, hs, hfmod, fmodExact_one_of_nonneg hstep]
      have : Int.fract a + 2 / 10 * t = (a + 2 / 10 * t) - (⌊a⌋ : α) := by
        rw [← Int.self_sub_floor]
        ring
      rw [this, Int.fract_sub_int]

/-- Claim C14. Each Burn selection with elapsed time `t` replaces the burn height `h` by
`fmod(h + 0.2 * t, 1)`; with the exact `fmod`, for every finite sequence of non-negative
elapsed times, starting from height 0, the final height is `fmod(0.2 * total, 1)`, and
it is 0 again when the total is 5 seconds. -/
theorem burn_ramp [FloorRing α] (M : Env α) (hfmod : ∀ x, M.fmod x 1 = fmodExact x 1)
    (i : Int) (s : SceneState α) (h0 : s.gPostProcessingConstants.burnHeight = 0)
    (ts : List α) (hts : ∀ t ∈ ts, 0 ≤ t) :
    (∀ (t : α) (u : SceneState α),
      (SelectPostProcessShaderAndTextures M .Burn t i u).gPostProcessingConstants.burnHeight
        = M.fmod (u.gPostProcessingConstants.burnHeight + 2 / 10 * t) 1) ∧
    (burnSequence M i ts s).gPostProcessingConstants.burnHeight
      = fmodExact (2 / 10 * ts.sum) 1 ∧
    (ts.sum = 5 → (burnSequence M i ts s).gPostProcessingConstants.burnHeight = 0) := by
  have hsum : 0 ≤ ts.sum := List.sum_nonneg hts
  have hmain := burnSequence_height M hfmod i ts hts s 0 le_rfl (by rw [h0]; simp)
  rw [zero_add] at hmain
  refine ⟨fun t u => select_burn_height M t i u, ?_, fun h5 => ?_⟩
  · rw [hmain, fmodExact_one_of_nonneg (mul_nonneg (by norm_num) hsum)]
  · rw [hmain, h5]
    have : (2 / 10 * 5 : α) = ((1 : Int) : α) := by norm_num
    rw [this, Int.fract_intCast]

/-- Witness of C14: two frames of 2 and 3 seconds, from the start state. -/
theorem burn_ramp_witness :
    (∀ x : ℚ, (Env.ofMath (fun _ => 1) (fun _ => 1) fmodExact 3 : Env ℚ).fmod x 1
      = fmodExact x 1) ∧
    (SceneState.start : SceneState ℚ).gPostProcessingConstants.burnHeight = 0 ∧
    (∀ t ∈ ([2, 3] : List ℚ), 0 ≤ t) ∧
    (burnSequence (Env.ofMath (fun _ => 1) (fun _ => 1) fmodExact 3 : Env ℚ) 0 [2, 3]
      SceneState.start).gPostProcessingConstants.burnHeight = 0 :=
  ⟨fun _ => rfl, rfl, by decide,
   (burn_ramp (Env.ofMath (fun _ => 1) (fun _ => 1) fmodExact 3 : Env ℚ) (fun _ => rfl) 0
    SceneState.start rfl [2, 3] (by decide)).2.2 (by norm_num)⟩

/-- Claim C15. For every phase `p` and elapsed time `t`, selecting Spiral sets
`spiralLevel` to `(1 - cos p) * 4` from the phase before it is advanced, then advances
the phase to `p + 1.0 * t`; with the real cosine the level lies in `[0, 8]`. -/
theorem spiral_level (M : Env ℝ) (hcos : M.cos = Real.cos) (t : ℝ) (i : Int)
    (s : SceneState ℝ) :
    (SelectPostProcessShaderAndTextures M .Spiral t i s).gPostProcessingConstants.spiralLevel
      = (1 - Real.cos s.spiral) * 4 ∧
    (SelectPostProcessShaderAndTextures M .Spiral t i s).spiral = s.spiral + 1 * t ∧
    0 ≤ (SelectPostProcessShaderAndTextures M .Spiral t i s).gPostProcessingConstants.spiralLevel ∧
    (SelectPostProcessShaderAndTextures M .Spiral t i s).gPostProcessingConstants.spiralLevel
      ≤ 8 := by
  have h1 : (SelectPostProcessShaderAndTextures M .Spiral t i
      s).gPostProcessingConstants.spiralLevel = (1 - M.cos s.spiral) * 4 := rfl
  have h2 : (SelectPostProcessShaderAndTextures M .Spiral t i s).spiral = s.spiral + 1 * t :=
    rfl
  rw [h1, hcos]
  have hle := Real.cos_le_one s.spiral
  have hge := Real.neg_one_le_cos s.spiral
  exact ⟨rfl, h2, by linarith, by linarith⟩

/-- Witness of C15: the real cosine, phase 0 advanced by 2 seconds. -/
theorem spiral_level_witness :
    (Env.ofMath Real.exp Real.cos (fun x _ => x) Real.pi).cos = Real.cos ∧
    (SelectPostProcessShaderAndTextures (Env.ofMath Real.exp Real.cos (fun x _ => x) Real.pi)
      .Spiral 2 0 (SceneState.start : SceneState ℝ)).spiral
      = (SceneState.start : SceneState ℝ).spiral + 1 * 2 :=
  ⟨rfl, (spiral_level (Env.ofMath Real.exp Real.cos (fun x _ => x) Real.pi) rfl 2 0
    SceneState.start).2.1⟩

/-- Behind the camera `AreaPostProcess` is its full-screen copy followed by the
selection of the effect. -/
theorem AreaPostProcess_behind (M : Env α) (postProcess : PostProcess)
    (worldPoint : CVector3 α) (areaSize : CVector2 α) (frameTime : α) (i : Int)
    (s : SceneState α) (h : (M.PixelFromWorldPt worldPoint).z < M.NearClip) :
    AreaPostProcess M postProcess worldPoint areaSize frameTime i s
      = SelectPostProcessShaderAndTextures M postProcess frameTime i
          (FullScreenPostProcess M .Copy frameTime i s) := by
  unfold AreaPostProcess
  simp only []
  rw [if_pos h]

/-- Claim C16, amended. A call of `AreaPostProcess` whose world point has camera-space
distance less than the near clip distance skips the area quad: the only draw calls it
issues are the two of its full-screen Copy step (one off screen, one to the back
buffer), and the effect list is unchanged. -/
theorem area_behind_camera_draws (M : Env α) (postProcess : PostProcess)
    (worldPoint : CVector3 α) (areaSize : CVector2 α) (frameTime : α) (i : Int)
    (s : SceneState α) (h : (M.PixelFromWorldPt worldPoint).z < M.NearClip) :
    drawsSince s (AreaPostProcess M postProcess worldPoint areaSize frameTime i s)
      = drawsSince s (FullScreenPostProcess M .Copy frameTime i s) ∧
    (drawsSince s (AreaPostProcess M postProcess worldPoint areaSize frameTime i s)).map
      (fun d => (d.caller, d.postProcess, d.renderTarget))
      = [(.FullScreenPostProcess, .Copy, some (pingTarget i)),
         (.FullScreenPostProcess, .Copy, some .gBackBufferRenderTarget)] ∧
    (AreaPostProcess M postProcess worldPoint areaSize frameTime i s).gPostProcessList
      = s.gPostProcessList := by
  rw [AreaPostProcess_behind M postProcess worldPoint areaSize frameTime i s h]
  obtain ⟨p1, _, _, _, p5, _⟩ := preserves_select M postProcess frameTime i
    (FullScreenPostProcess M .Copy frameTime i s)
  obtain ⟨t1, ps, f1, f2, _⟩ := FullScreenPostProcess_draws M .Copy frameTime i s
  have e : drawsSince s (SelectPostProcessShaderAndTextures M postProcess frameTime i
      (FullScreenPostProcess M .Copy frameTime i s))
      = drawsSince s (FullScreenPostProcess M .Copy frameTime i s) := by
    unfold drawsSince
    rw [p1]
  refine ⟨e, ?_, p5.trans f2⟩
  rw [e, drawsSince_of_append f1]
  rfl

/-- Witness of C16: the origin seen through `Env.sample`, at distance 0 below the near
clip distance 1. -/
theorem area_behind_camera_draws_witness :
    (Env.sample.PixelFromWorldPt ⟨0, 0, 0⟩).z < Env.sample.NearClip ∧
    (drawsSince (SceneState.start : SceneState ℚ)
      (AreaPostProcess Env.sample .Tint ⟨0, 0, 0⟩ ⟨1, 1⟩ 0 0 SceneState.start)).map
      (fun d => (d.caller, d.postProcess, d.renderTarget))
      = [(.FullScreenPostProcess, .Copy, some (pingTarget 0)),
         (.FullScreenPostProcess, .Copy, some .gBackBufferRenderTarget)] :=
  ⟨by decide,
   (area_behind_camera_draws Env.sample .Tint ⟨0, 0, 0⟩ ⟨1, 1⟩ 0 0 SceneState.start
    (by decide)).2.1⟩

/-- Claim C16 as stated fails: a call behind the camera still issues draw calls, the
two of its full-screen copy. -/
theorem area_behind_camera_counterexample :
    ¬ (drawsSince (SceneState.start : SceneState ℚ)
        (AreaPostProcess Env.sample .Tint ⟨0, 0, 0⟩ ⟨1, 1⟩ 0 0 SceneState.start) = []) := by
  decide

/-- In front of the near clip plane `AreaPostProcess` leaves in `area2DDepth` the value
computed at lines 1014-1015. -/
theorem AreaPostProcess_depth (M : Env α) (postProcess : PostProcess)
    (worldPoint : CVector3 α) (areaSize : CVector2 α) (frameTime : α) (i : Int)
    (s : SceneState α) (h : M.NearClip ≤ (M.PixelFromWorldPt worldPoint).z) :
    (AreaPostProcess M postProcess worldPoint areaSize frameTime i
      s).gPostProcessingConstants.area2DDepth
      = M.FarClip * ((M.PixelFromWorldPt worldPoint).z - M.NearClip)
          / (M.FarClip - M.NearClip) / (M.PixelFromWorldPt worldPoint).z := by
  unfold AreaPostProcess
  simp only []
  rw [if_neg (not_lt.mpr h)]
  rfl

/-- The specified depth grows strictly with the distance beyond the near clip plane. -/
theorem specifiedDepth_strictMono (n f d1 d2 : α) (hn : 0 < n) (hf : n < f)
    (h1 : n ≤ d1) (h12 : d1 < d2) : specifiedDepth n f d1 < specifiedDepth n f d2 := by
  unfold specifiedDepth
  have hd1 : 0 < d1 := lt_of_lt_of_le hn h1
  have hd2 : 0 < d2 := lt_trans hd1 h12
  have hfn : 0 < f - n := sub_pos.mpr hf
  have hf0 : 0 < f := lt_trans hn hf
  rw [div_lt_div_iff₀ (mul_pos hfn hd1) (mul_pos hfn hd2)]
  have key : f * (d2 - n) * ((f - n) * d1) - f * (d1 - n) * ((f - n) * d2)
      = f * (f - n) * n * (d2 - d1) := by ring
  have hpos : 0 < f * (f - n) * n * (d2 - d1) :=
    mul_pos (mul_pos (mul_pos hf0 hfn) hn) (sub_pos.mpr h12)
  linarith

/-- The specified depth at the near clip plane. -/
theorem specifiedDepth_near (n f : α) : specifiedDepth n f n = 0 := by
  unfold specifiedDepth
  rw [sub_self, mul_zero, zero_div]

/-- The specified depth at the far clip plane. -/
theorem specifiedDepth_far (n f : α) (hn : 0 < n) (hf : n < f) : specifiedDepth n f f = 1 := by
  unfold specifiedDepth
  have hfn : 0 < f - n := sub_pos.mpr hf
  have hf0 : 0 < f := lt_trans hn hf
  rw [mul_comm f (f - n)]
  exact div_self (ne_of_gt (mul_pos hfn hf0))

/-- Claim C17. With near clip `n` and far clip `f`, `0 < n < f`, and a point at distance
`d ≥ n`, `AreaPostProcess` sets `area2DDepth` to `f * (d - n) / ((f - n) * d)`; that value
is 0 at `d = n`, 1 at `d = f`, strictly increasing in `d` from `n` on, and within `[0, 1]`
for `n ≤ d ≤ f`. -/
theorem area_depth_value (M : Env α) (postProcess : PostProcess)
    (worldPoint : CVector3 α) (areaSize : CVector2 α) (frameTime : α) (i : Int)
    (s : SceneState α) (hn : 0 < M.NearClip) (hf : M.NearClip < M.FarClip)
    (hd : M.NearClip ≤ (M.PixelFromWorldPt worldPoint).z) :
    (AreaPostProcess M postProcess worldPoint areaSize frameTime i
      s).gPostProcessingConstants.area2DDepth
      = specifiedDepth M.NearClip M.FarClip (M.PixelFromWorldPt worldPoint).z ∧
    specifiedDepth M.NearClip M.FarClip M.NearClip = 0 ∧
    specifiedDepth M.NearClip M.FarClip M.FarClip = 1 ∧
    (∀ d1 d2 : α, M.NearClip ≤ d1 → d1 < d2 →
      specifiedDepth M.NearClip M.FarClip d1 < specifiedDepth M.NearClip M.FarClip d2) ∧
    (∀ d : α, M.NearClip ≤ d → d ≤ M.FarClip →
      0 ≤ specifiedDepth M.NearClip M.FarClip d ∧
      specifiedDepth M.NearClip M.FarClip d ≤ 1) := by
  have mono := fun d1 d2 => specifiedDepth_strictMono M.NearClip M.FarClip d1 d2 hn hf
  have e0 := specifiedDepth_near M.NearClip M.FarClip
  have e1 := specifiedDepth_far M.NearClip M.FarClip hn hf
  refine ⟨?_, e0, e1, mono, ?_⟩
  · rw [AreaPostProcess_depth M postProcess worldPoint areaSize frameTime i s hd]
    unfold specifiedDepth
    rw [div_div]
  · intro d h1 h2
    constructor
    · rcases eq_or_lt_of_le h1 with h | h
      · rw [← h, e0]
      · rw [← e0]
        exact le_of_lt (mono M.NearClip d le_rfl h)
    · rcases eq_or_lt_of_le h2 with h | h
      · rw [h, e1]
      · rw [← e1]
        exact le_of_lt (mono d M.FarClip h1 h)

/-- Witness of C17: near clip 1, far clip 1000, a point at distance 2, where the depth
is `1000 * (2 - 1) / ((1000 - 1) * 2)`. -/
theorem area_depth_value_witness :
    (0 : ℚ) < Env.sample.NearClip ∧ Env.sample.NearClip < Env.sample.FarClip ∧
    Env.sample.NearClip ≤ (Env.sample.PixelFromWorldPt ⟨0, 0, 2⟩).z ∧
    (AreaPostProcess Env.sample .Tint ⟨0, 0, 2⟩ ⟨1, 1⟩ 0 0
      SceneState.start).gPostProcessingConstants.area2DDepth = specifiedDepth 1 1000 2 :=
  ⟨by decide, by decide, by decide,
   (area_depth_value Env.sample .Tint ⟨0, 0, 2⟩ ⟨1, 1⟩ 0 0 SceneState.start
    (by decide) (by decide) (by decide)).1⟩

/-- The draws of a frame with an empty effect list: the depth pre-pass with no colour
target, then the scene onto the back buffer. -/
theorem RenderScene_empty_draws (M : Env α) (frameTime : α) (s : SceneState α)
    (h : s.gPostProcessList = []) :
    (drawsSince s (RenderScene M frameTime s)).map (fun d => (d.caller, d.renderTarget))
      = List.replicate 4 (Caller.RenderDepthBufferFromCamera, none)
        ++ List.replicate 7
            (Caller.RenderSceneFromCamera, some RenderTargetView.gBackBufferRenderTarget) := by
  rcases s with ⟨cl, l, c1, c2, pp, sp, ctx, dr, fl, ww, kw, rc⟩
  simp only at h
  subst h
  simp [drawsSince, RenderScene, RenderDepthBufferFromCamera, RenderSceneFromCamera,
    RenderScene.polygonSweep, RenderScene.fullscreenSweep, RenderScene.bloomSweep, forLoop,
    SceneState.Draw, SceneState.OMSetRenderTargets, SceneState.PSSetShaderResources,
    SceneState.VSSetShader, SceneState.PSSetShader, SceneState.modifyPP, List.range_succ,
    List.replicate]

/-- Claim C18. With an empty effect list `RenderScene` renders the scene directly onto
the back buffer and runs no post-process pass: after the four draws of the depth
pre-pass every draw of the frame is a scene draw bound to the back buffer, none is
issued by `FullScreenPostProcess`, `PolygonPostProcess` or `SaveBaseSceneTexture`, and
the list of passes is empty. -/
theorem empty_list_renders_directly (M : Env α) (frameTime : α) (s : SceneState α)
    (h : s.gPostProcessList = []) :
    (drawsSince s (RenderScene M frameTime s)).map (fun d => (d.caller, d.renderTarget))
      = List.replicate 4 (Caller.RenderDepthBufferFromCamera, none)
        ++ List.replicate 7
            (Caller.RenderSceneFromCamera, some RenderTargetView.gBackBufferRenderTarget) ∧
    (∀ d ∈ drawsSince s (RenderScene M frameTime s),
      d.caller ≠ .FullScreenPostProcess ∧ d.caller ≠ .PolygonPostProcess ∧
      d.caller ≠ .SaveBaseSceneTexture) ∧
    passesOf (drawsSince s (RenderScene M frameTime s)) = [] := by
  have hd := RenderScene_empty_draws M frameTime s h
  have hp := passesOf_drawsSince (runs_RenderScene M frameTime s)
  rw [h] at hp
  refine ⟨hd, ?_, hp⟩
  intro d hmem
  have hin : (d.caller, d.renderTarget) ∈
      (drawsSince s (RenderScene M frameTime s)).map (fun d => (d.caller, d.renderTarget)) :=
    List.mem_map_of_mem _ hmem
  rw [hd] at hin
  have hc : d.caller = .RenderDepthBufferFromCamera ∨ d.caller = .RenderSceneFromCamera := by
    rcases List.mem_append.mp hin with h1 | h1
    · exact Or.inl (congrArg Prod.fst (List.eq_of_mem_replicate h1))
    · exact Or.inr (congrArg Prod.fst (List.eq_of_mem_replicate h1))
  rcases hc with e | e <;> rw [e] <;> exact ⟨by decide, by decide, by decide⟩

/-- Witness of C18: the start state, whose effect list is empty. -/
theorem empty_list_renders_directly_witness :
    (SceneState.start : SceneState ℚ).gPostProcessList = [] ∧
    passesOf (drawsSince (SceneState.start : SceneState ℚ)
      (RenderScene Env.sample 0 SceneState.start)) = [] :=
  ⟨rfl, (empty_list_renders_directly Env.sample 0 SceneState.start rfl).2.2⟩

/-- The bloom expansion is its part through the `BlurH` pass followed by the rest. -/
theorem bloomExpansion_split (M : Env α) (frameTime : α) (i : Int) (process : PostProcess)
    (s : SceneState α) :
    RenderScene.bloomExpansion M frameTime i process s
      = RenderScene.bloomExpansionRest M frameTime i
          (RenderScene.bloomExpansionBlurH M frameTime i process s) := rfl

theorem constantsAt_congr {s t : SceneState α} (h : t.gConstantsList = s.gConstantsList)
    (i : Int) : t.constantsAt i = s.constantsAt i := by
  unfold SceneState.constantsAt
  rw [h]

theorem touchConstants_constants (s : SceneState α) (i : Int) :
    (s.touchConstants i).gConstantsList = s.gConstantsList := by
  unfold SceneState.touchConstants
  split <;> rfl

theorem selectPingPong_constants (s : SceneState α) (i : Int) :
    (s.selectPingPong i).gConstantsList = s.gConstantsList := by
  unfold SceneState.selectPingPong
  simp only []
  split <;> rfl

theorem SaveBaseSceneTexture_constants (i : Int) (s : SceneState α) :
    (SaveBaseSceneTexture i s).gConstantsList = s.gConstantsList := by
  by_cases h : Int.tmod i 2 = 0 <;>
    simp [SaveBaseSceneTexture, h, SceneState.Draw, SceneState.OMSetRenderTargets,
      SceneState.setFullScreenArea, SceneState.modifyPP, SceneState.PSSetShader,
      SceneState.PSSetShaderResources, SceneState.VSSetShader]

theorem select_bloom1_constants (M : Env α) (frameTime : α) (j : Int) (s : SceneState α) :
    (SelectPostProcessShaderAndTextures M .Bloom1 frameTime j s).gConstantsList
      = s.gConstantsList := by
  simp only [SelectPostProcessShaderAndTextures]
  exact touchConstants_constants s j

theorem FullScreenPostProcess_bloom1_constants (M : Env α) (frameTime : α) (j : Int)
    (s : SceneState α) :
    (FullScreenPostProcess M .Bloom1 frameTime j s).gConstantsList = s.gConstantsList := by
  have e := (select_bloom1_constants M frameTime j
    ((s.VSSetShader .g2DQuadVertexShader).selectPingPong j)).trans
      (selectPingPong_constants (s.VSSetShader .g2DQuadVertexShader) j)
  unfold FullScreenPostProcess
  simp only []
  generalize SelectPostProcessShaderAndTextures M .Bloom1 frameTime j
    ((s.VSSetShader .g2DQuadVertexShader).selectPingPong j) = t at e
  simp [SceneState.Draw, SceneState.OMSetRenderTargets, SceneState.setFullScreenArea,
    SceneState.modifyPP, e, SceneState.VSSetShader]

/-- The strength a `BlurH` pass leaves in the constant buffer: the odd coercion of the
strength stored in the record at the index of the pass. -/
theorem FullScreenPostProcess_blurH_strength (M : Env α) (frameTime : α) (j : Int)
    (s : SceneState α) :
    (FullScreenPostProcess M .BlurH frameTime j s).gPostProcessingConstants.blurStrength
      = effectiveBlurStrength (s.constantsAt j).blurStrength := by
  have e0 : SelectPostProcessShaderAndTextures M .BlurH frameTime j
      ((s.VSSetShader .g2DQuadVertexShader).selectPingPong j)
      = selectBlurH M j ((s.VSSetShader .g2DQuadVertexShader).selectPingPong j) := by
    simp only [SelectPostProcessShaderAndTextures]
  have e := (selectBlurH_weights M j
    ((s.VSSetShader .g2DQuadVertexShader).selectPingPong j)).1
  rw [← e0, constantsAt_congr
    (selectPingPong_constants (s.VSSetShader .g2DQuadVertexShader) j) j] at e
  have e2 : (s.VSSetShader .g2DQuadVertexShader).constantsAt j = s.constantsAt j :=
    constantsAt_congr rfl j
  rw [e2] at e
  unfold FullScreenPostProcess
  simp only []
  generalize SelectPostProcessShaderAndTextures M .BlurH frameTime j
    ((s.VSSetShader .g2DQuadVertexShader).selectPingPong j) = t at e
  simp [SceneState.Draw, SceneState.OMSetRenderTargets, SceneState.setFullScreenArea,
    SceneState.modifyPP, e]

theorem selectBlurH_constants (M : Env α) (i : Int) (s : SceneState α) :
    (selectBlurH M i s).gConstantsList = s.gConstantsList := by
  have h1 : ∀ t : SceneState α, (blurKernelOffsets t).gConstantsList = t.gConstantsList := by
    intro t
    unfold blurKernelOffsets
    simp only []
    refine forLoop_invariant (fun u : SceneState α => u.gConstantsList = t.gConstantsList)
      _ _ _ ?_ _ rfl
    intro x u hu
    exact hu
  have h2 : ∀ r : SceneState α × α, (blurNormaliseLoop r).gConstantsList = r.1.gConstantsList := by
    intro r
    unfold blurNormaliseLoop
    refine forLoop_invariant (fun u : SceneState α => u.gConstantsList = r.1.gConstantsList)
      _ _ _ ?_ r.1 rfl
    intro x u hu
    exact hu
  have h3 : ∀ t : SceneState α, (blurWeightLoop M t).1.gConstantsList = t.gConstantsList := by
    intro t
    unfold blurWeightLoop
    simp only []
    refine forLoop_invariant (fun u : SceneState α × α => u.1.gConstantsList = t.gConstantsList)
      _ _ _ ?_ (t, (0 : α)) rfl
    intro x u hu
    exact hu
  unfold selectBlurH
  rw [h1, h2, h3]
  exact touchConstants_constants _ i

theorem FullScreenPostProcess_blurH_constants (M : Env α) (frameTime : α) (j : Int)
    (s : SceneState α) :
    (FullScreenPostProcess M .BlurH frameTime j s).gConstantsList = s.gConstantsList := by
  have e0 : SelectPostProcessShaderAndTextures M .BlurH frameTime j
      ((s.VSSetShader .g2DQuadVertexShader).selectPingPong j)
      = selectBlurH M j ((s.VSSetShader .g2DQuadVertexShader).selectPingPong j) := by
    simp only [SelectPostProcessShaderAndTextures]
  have e := (selectBlurH_constants M j
    ((s.VSSetShader .g2DQuadVertexShader).selectPingPong j)).trans
      (selectPingPong_constants (s.VSSetShader .g2DQuadVertexShader) j)
  rw [← e0] at e
  unfold FullScreenPostProcess
  simp only []
  generalize SelectPostProcessShaderAndTextures M .BlurH frameTime j
    ((s.VSSetShader .g2DQuadVertexShader).selectPingPong j) = t at e
  simp [SceneState.Draw, SceneState.OMSetRenderTargets, SceneState.setFullScreenArea,
    SceneState.modifyPP, e, SceneState.VSSetShader]

/-- The update of the record at `i` leaves the record at `i + 1` as it was. -/
theorem modifyConstants_constantsAt_succ (s : SceneState α) (i : Int)
    (f : Constants α → Constants α) :
    (s.modifyConstants i f).constantsAt (i + 1) = s.constantsAt (i + 1) := by
  unfold SceneState.modifyConstants
  split
  · next h =>
    unfold SceneState.constantsAt
    simp only [List.length_set]
    have hi : 0 ≤ i := by
      unfold inRange at h
      simp only [Bool.and_eq_true, decide_eq_true_eq] at h
      exact h.1
    have hne : i.toNat ≠ (i + 1).toNat := by omega
    simp only [List.getD_eq_getElem?_getD, List.getElem?_set_ne hne]
  · rfl

/-- The update of a record in range is read back at its index. -/
theorem modifyConstants_constantsAt_self (s : SceneState α) (i : Int)
    (f : Constants α → Constants α) (h : inRange i s.gConstantsList.length = true) :
    (s.modifyConstants i f).constantsAt i = f (s.constantsAt i) := by
  unfold SceneState.modifyConstants
  rw [if_pos h]
  unfold SceneState.constantsAt
  simp only [List.length_set]
  rw [if_pos h, if_pos h]
  have hlt : i.toNat < s.gConstantsList.length := by
    unfold inRange at h
    simp only [Bool.and_eq_true, decide_eq_true_eq] at h
    exact h.2
  simp [List.getD_eq_getElem?_getD, List.getElem?_set_self hlt]

/-- The strength the `BlurH` pass of a bloom expansion leaves in the constant buffer is
the odd coercion of the strength stored in the record at the index of that pass. -/
theorem bloomExpansionBlurH_strength (M : Env α) (frameTime : α) (i : Int)
    (s : SceneState α) :
    (RenderScene.bloomExpansionBlurH M frameTime i .Bloom1
      s).gPostProcessingConstants.blurStrength
      = effectiveBlurStrength (s.constantsAt (i + 1)).blurStrength := by
  unfold RenderScene.bloomExpansionBlurH
  simp only []
  rw [FullScreenPostProcess_blurH_strength]
  have e1 : ∀ t : SceneState α,
      ({ t with gCurrentPostProcess := PostProcess.BlurH } : SceneState α).constantsAt (i + 1)
        = t.constantsAt (i + 1) := fun t => constantsAt_congr rfl (i + 1)
  rw [e1, modifyConstants_constantsAt_succ]
  refine congrArg (fun c : Constants α => effectiveBlurStrength c.blurStrength) ?_
  refine constantsAt_congr ?_ (i + 1)
  rw [FullScreenPostProcess_bloom1_constants]
  exact SaveBaseSceneTexture_constants i s

/-- The record of the bloom entry stores 90 after the `BlurH` pass of its expansion. -/
theorem bloomExpansionBlurH_record (M : Env α) (frameTime : α) (i : Int)
    (s : SceneState α) (h : inRange i s.gConstantsList.length = true) :
    ((RenderScene.bloomExpansionBlurH M frameTime i .Bloom1 s).constantsAt i).blurStrength
      = 90 := by
  unfold RenderScene.bloomExpansionBlurH
  simp only []
  have e0 : (FullScreenPostProcess M .Bloom1 frameTime i
      ({ SaveBaseSceneTexture i s with gCurrentPostProcess := PostProcess.Bloom1 } :
        SceneState α)).gConstantsList = s.gConstantsList := by
    rw [FullScreenPostProcess_bloom1_constants]
    exact SaveBaseSceneTexture_constants i s
  have h2 : inRange i (FullScreenPostProcess M .Bloom1 frameTime i
      ({ SaveBaseSceneTexture i s with gCurrentPostProcess := PostProcess.Bloom1 } :
        SceneState α)).gConstantsList.length = true := by
    rw [e0]
    exact h
  rw [constantsAt_congr (FullScreenPostProcess_blurH_constants M frameTime (i + 1) _) i]
  have e1 : ∀ t : SceneState α,
      ({ t with gCurrentPostProcess := PostProcess.BlurH } : SceneState α).constantsAt i
        = t.constantsAt i := fun t => constantsAt_congr rfl i
  rw [e1, modifyConstants_constantsAt_self _ _ _ h2]

/-- Claim C19, defect. In the expansion of a Bloom1 entry at list index `i` the strength
the BlurH pass hands to the shading stage is, for every state, the effective strength of
the record at index `i + 1`, whereas line 1254 stores 90 in the record at index `i`. On
the state the program reaches by `InitScene`, the B key, the 1 key four times and the B
key, the second Bloom1 entry is at list position 9, and the records 9 and 10 of the
sixteen records are those of hue-tint entries, of strength 7: the expansion stores 90 in
record 9 and its BlurH pass runs with strength 7, not 90. -/
theorem bloom_blurH_strength_not_forced (M : Env α) (frameTime : α) (i : Int)
    (s : SceneState α) :
    (RenderScene.bloomExpansionBlurH M frameTime i .Bloom1
      s).gPostProcessingConstants.blurStrength
      = effectiveBlurStrength (s.constantsAt (i + 1)).blurStrength ∧
    Reachable Env.sample twoBlooms ∧
    twoBlooms.gPostProcessList[9]? = some ⟨.Bloom1, .Fullscreen⟩ ∧
    twoBlooms.gConstantsList.length = 16 ∧
    (twoBlooms.constantsAt 9).blurStrength = 7 ∧
    (twoBlooms.constantsAt (9 + 1)).blurStrength = 7 ∧
    ((RenderScene.bloomExpansionBlurH Env.sample 0 9 .Bloom1 twoBlooms).constantsAt
      9).blurStrength = 90 ∧
    (RenderScene.bloomExpansionBlurH Env.sample 0 9 .Bloom1
      twoBlooms).gPostProcessingConstants.blurStrength = 7 ∧
    (RenderScene.bloomExpansionBlurH Env.sample 0 9 .Bloom1
      twoBlooms).gPostProcessingConstants.blurStrength ≠ 90 := by
  have h7 : (RenderScene.bloomExpansionBlurH Env.sample 0 9 .Bloom1
      twoBlooms).gPostProcessingConstants.blurStrength = 7 := by
    rw [bloomExpansionBlurH_strength]
    decide
  refine ⟨bloomExpansionBlurH_strength M frameTime i s,
    Reachable.update _ _ (Reachable.update _ _ (Reachable.update _ _ (Reachable.update _ _
      (Reachable.update _ _ (Reachable.update _ _ (Reachable.init _ rfl rfl)))))),
    by decide, by decide, by decide, by decide,
    bloomExpansionBlurH_record Env.sample 0 9 twoBlooms (by decide), h7, ?_⟩
  rw [h7]
  decide

/-- Appending records of threshold 0.8 keeps every record old or of threshold 0.8. -/
theorem mem_append_created (l cs : List (Constants α))
    (hcs : ∀ c ∈ cs, c.bloomThreshold = 8 / 10) :
    ∀ c ∈ l ++ cs, c ∈ l ∨ c.bloomThreshold = 8 / 10 := by
  intro c hc
  rcases List.mem_append.mp hc with h | h
  · exact Or.inl h
  · exact Or.inr (hcs c h)

/-- Every record of the parameter list after `UpdateScene` was there before or is a
newly created one, of bloom threshold 0.8. -/
theorem UpdateScene_created (KeyHit : KeyCode → Bool) (s : SceneState α) :
    ∀ c ∈ (UpdateScene KeyHit s).gConstantsList,
      c ∈ s.gConstantsList ∨ c.bloomThreshold = 8 / 10 := by
  unfold UpdateScene
  by_cases h0 : KeyHit .Key_1 = true
  · rw [if_pos h0]
    simp only [pushProcess_constants, pushConstants_constants, modifyPP_constants,
      List.append_assoc, List.cons_append, List.nil_append]
    exact mem_append_created _ _ (by simp [Constants.ctor])
  rw [if_neg h0]
  by_cases h1 : KeyHit .Key_2 = true
  · rw [if_pos h1]
    simp only [pushProcess_constants, pushConstants_constants, modifyPP_constants,
      List.append_assoc, List.cons_append, List.nil_append]
    exact mem_append_created _ _ (by simp [Constants.ctor])
  rw [if_neg h1]
  by_cases h2 : KeyHit .Key_3 = true
  · rw [if_pos h2]
    simp only [pushProcess_constants, pushConstants_constants, modifyPP_constants,
      List.append_assoc, List.cons_append, List.nil_append]
    exact mem_append_created _ _ (by simp [Constants.ctor])
  rw [if_neg h2]
  by_cases h3 : KeyHit .Key_4 = true
  · rw [if_pos h3]
    simp only [pushProcess_constants, pushConstants_constants, modifyPP_constants,
      List.append_assoc, List.cons_append, List.nil_append]
    exact mem_append_created _ _ (by simp [Constants.ctor])
  rw [if_neg h3]
  by_cases h4 : KeyHit .Key_5 = true
  · rw [if_pos h4]
    simp only [pushProcess_constants, pushConstants_constants, modifyPP_constants,
      List.append_assoc, List.cons_append, List.nil_append]
    exact mem_append_created _ _ (by simp [Constants.ctor])
  rw [if_neg h4]
  by_cases h5 : KeyHit .Key_6 = true
  · rw [if_pos h5]
    simp only [pushProcess_constants, pushConstants_constants, modifyPP_constants,
      List.append_assoc, List.cons_append, List.nil_append]
    exact mem_append_created _ _ (by simp [Constants.ctor])
  rw [if_neg h5]
  by_cases h6 : KeyHit .Key_7 = true
  · rw [if_pos h6]
    simp only [pushProcess_constants, pushConstants_constants, modifyPP_constants,
      List.append_assoc, List.cons_append, List.nil_append]
    exact mem_append_created _ _ (by simp [Constants.ctor])
  rw [if_neg h6]
  by_cases h7 : KeyHit .Key_8 = true
  · rw [if_pos h7]
    simp only [pushProcess_constants, pushConstants_constants, modifyPP_constants,
      List.append_assoc, List.cons_append, List.nil_append]
    exact mem_append_created _ _ (by simp [Constants.ctor])
  rw [if_neg h7]
  by_cases h8 : KeyHit .Key_I = true
  · rw [if_pos h8]
    simp only [pushProcess_constants, pushConstants_constants, modifyPP_constants,
      List.append_assoc, List.cons_append, List.nil_append]
    exact mem_append_created _ _ (by simp [Constants.ctor])
  rw [if_neg h8]
  by_cases h9 : KeyHit .Key_N = true
  · rw [if_pos h9]
    simp only [pushProcess_constants, pushConstants_constants, modifyPP_constants,
      List.append_assoc, List.cons_append, List.nil_append]
    exact mem_append_created _ _ (by simp [Constants.ctor])
  rw [if_neg h9]
  by_cases h10 : KeyHit .Key_T = true
  · rw [if_pos h10]
    simp only [pushProcess_constants, pushConstants_constants, modifyPP_constants,
      List.append_assoc, List.cons_append, List.nil_append]
    exact mem_append_created _ _ (by simp [Constants.ctor])
  rw [if_neg h10]
  by_cases h11 : KeyHit .Key_R = true
  · rw [if_pos h11]
    simp only [pushProcess_constants, pushConstants_constants, modifyPP_constants,
      List.append_assoc, List.cons_append, List.nil_append]
    exact mem_append_created _ _ (by simp [Constants.ctor])
  rw [if_neg h11]
  by_cases h12 : KeyHit .Key_G = true
  · rw [if_pos h12]
    simp only [pushProcess_constants, pushConstants_constants, modifyPP_constants,
      List.append_assoc, List.cons_append, List.nil_append]
    exact mem_append_created _ _ (by simp [Constants.ctor])
  rw [if_neg h12]
  by_cases h13 : KeyHit .Key_B = true
  · rw [if_pos h13]
    simp only [pushProcess_constants, pushConstants_constants, modifyPP_constants,
      List.append_assoc, List.cons_append, List.nil_append]
    exact mem_append_created _ _ (by simp [Constants.ctor])
  rw [if_neg h13]
  by_cases h14 : KeyHit .Key_0 = true
  · rw [if_pos h14]
    intro c hc
    have hc2 : c ∈ [Constants.ctor, Constants.ctor, Constants.ctor, (Constants.ctor : Constants α)] :=
      hc
    simp only [List.mem_cons, List.mem_singleton, List.not_mem_nil, or_false, or_self] at hc2
    rw [hc2]
    exact Or.inr rfl
  rw [if_neg h14]
  exact fun c hc => Or.inl hc

/-- Every record of the parameter list after `InitScene` was there before or is a newly
created one, of bloom threshold 0.8. -/
theorem InitScene_created (s : SceneState α) :
    ∀ c ∈ (InitScene s).gConstantsList, c ∈ s.gConstantsList ∨ c.bloomThreshold = 8 / 10 := by
  have e : (InitScene s).gConstantsList
      = s.gConstantsList ++ [Constants.ctor, Constants.ctor, Constants.ctor, Constants.ctor] := by
    simp [InitScene, SceneState.pushProcess, SceneState.modifyPP]
  rw [e]
  exact mem_append_created _ _ (by simp [Constants.ctor])

/-- Claim C20, amended. The Key_B branch of `UpdateScene` (the quick-add path) appends
four parameter records that are `Constants()` with `blurStrength` set to 90: their
`bloomThreshold` is 0.8, and every record created by `UpdateScene` or `InitScene`, on
any path, has `bloomThreshold` 0.8. -/
theorem quick_add_records (KeyHit : KeyCode → Bool) (s : SceneState α)
    (hbefore : ∀ k, k ≠ .Key_B → k ≠ .Key_0 → KeyHit k = false)
    (hB : KeyHit .Key_B = true) :
    (UpdateScene KeyHit s).gConstantsList
      = s.gConstantsList
        ++ List.replicate 4 { (Constants.ctor : Constants α) with blurStrength := 90 } ∧
    ({ (Constants.ctor : Constants α) with blurStrength := 90 } : Constants α).bloomThreshold
      = 8 / 10 ∧
    ({ (Constants.ctor : Constants α) with blurStrength := 90 } : Constants α).blurStrength
      = 90 ∧
    (∀ (K : KeyCode → Bool) (t : SceneState α), ∀ c ∈ (UpdateScene K t).gConstantsList,
      c ∈ t.gConstantsList ∨ c.bloomThreshold = 8 / 10) ∧
    (∀ t : SceneState α, ∀ c ∈ (InitScene t).gConstantsList,
      c ∈ t.gConstantsList ∨ c.bloomThreshold = 8 / 10) := by
  refine ⟨?_, rfl, rfl, UpdateScene_created, InitScene_created⟩
  unfold UpdateScene
  rw [if_neg (by simp [hbefore]), if_neg (by simp [hbefore]), if_neg (by simp [hbefore]),
    if_neg (by simp [hbefore]), if_neg (by simp [hbefore]), if_neg (by simp [hbefore]),
    if_neg (by simp [hbefore]), if_neg (by simp [hbefore]), if_neg (by simp [hbefore]),
    if_neg (by simp [hbefore]), if_neg (by simp [hbefore]), if_neg (by simp [hbefore]),
    if_neg (by simp [hbefore]), if_pos hB]
  simp only [pushProcess_constants, pushConstants_constants, List.append_assoc,
    List.cons_append, List.nil_append]
  rfl

/-- Witness of C20: only the B key hit, on the initial scene. -/
theorem quick_add_records_witness :
    (∀ k, k ≠ KeyCode.Key_B → k ≠ KeyCode.Key_0 → onlyKey .Key_B k = false) ∧
    onlyKey .Key_B .Key_B = true ∧
    afterQuickAdd.gConstantsList
      = (InitScene (SceneState.start : SceneState ℚ)).gConstantsList
        ++ List.replicate 4 { (Constants.ctor : Constants ℚ) with blurStrength := 90 } :=
  ⟨fun k hk _ => by cases k <;> first | rfl | exact absurd rfl hk, rfl,
   (quick_add_records (onlyKey .Key_B) (InitScene SceneState.start)
    (fun k hk _ => by cases k <;> first | rfl | exact absurd rfl hk) rfl).1⟩

/-- Claim C20 as stated fails: after the quick-add path no record of the parameter list
has bloom threshold 90. -/
theorem quick_add_threshold_counterexample :
    ¬ ∃ c ∈ afterQuickAdd.gConstantsList, c.bloomThreshold = 90 := by
  rintro ⟨c, hc, h90⟩
  have h8 : c.bloomThreshold = 8 / 10 := by
    rcases UpdateScene_created (onlyKey .Key_B) (InitScene SceneState.start) c hc with h | h
    · rcases InitScene_created SceneState.start c h with h2 | h2
      · exact absurd h2 (List.not_mem_nil c)
      · exact h2
    · exact h
  rw [h8] at h90
  norm_num at h90

theorem selectPingPong_pp (s : SceneState α) (i : Int) :
    (s.selectPingPong i).gPostProcessingConstants = s.gPostProcessingConstants := by
  unfold SceneState.selectPingPong
  simp only []
  split <;> rfl

/-- The blur fields a full-screen pass leaves in the constant buffer are those its
selection step left. -/
theorem FullScreenPostProcess_blurFields (M : Env α) (postProcess : PostProcess)
    (frameTime : α) (j : Int) (s : SceneState α) :
    (FullScreenPostProcess M postProcess frameTime j s).gPostProcessingConstants.blurStrength
      = (SelectPostProcessShaderAndTextures M postProcess frameTime j
          ((s.VSSetShader .g2DQuadVertexShader).selectPingPong
            j)).gPostProcessingConstants.blurStrength ∧
    (FullScreenPostProcess M postProcess frameTime j s).gPostProcessingConstants.weight
      = (SelectPostProcessShaderAndTextures M postProcess frameTime j
          ((s.VSSetShader .g2DQuadVertexShader).selectPingPong
            j)).gPostProcessingConstants.weight ∧
    (FullScreenPostProcess M postProcess frameTime j s).gPostProcessingConstants.kernel
      = (SelectPostProcessShaderAndTextures M postProcess frameTime j
          ((s.VSSetShader .g2DQuadVertexShader).selectPingPong
            j)).gPostProcessingConstants.kernel := by
  unfold FullScreenPostProcess
  simp only []
  generalize SelectPostProcessShaderAndTextures M postProcess frameTime j
    ((s.VSSetShader .g2DQuadVertexShader).selectPingPong j) = t
  exact ⟨rfl, rfl, rfl⟩

/-- Claim C23. Selecting `BlurV` leaves the effective blur strength, every weight and
every offset unchanged, and so does a whole `BlurV` pass: a `BlurV` pass that follows a
`BlurH` pass runs with the strength, the weights and the offsets which the selection
step of that `BlurH` pass generated. -/
theorem blurV_reuses_kernel (M : Env α) (frameTime : α) (i j : Int) (s : SceneState α) :
    ((SelectPostProcessShaderAndTextures M .BlurV frameTime j
        s).gPostProcessingConstants.blurStrength = s.gPostProcessingConstants.blurStrength ∧
      (SelectPostProcessShaderAndTextures M .BlurV frameTime j
        s).gPostProcessingConstants.weight = s.gPostProcessingConstants.weight ∧
      (SelectPostProcessShaderAndTextures M .BlurV frameTime j
        s).gPostProcessingConstants.kernel = s.gPostProcessingConstants.kernel) ∧
    ((FullScreenPostProcess M .BlurV frameTime j
        (FullScreenPostProcess M .BlurH frameTime i s)).gPostProcessingConstants.blurStrength
        = (SelectPostProcessShaderAndTextures M .BlurH frameTime i
            ((s.VSSetShader .g2DQuadVertexShader).selectPingPong
              i)).gPostProcessingConstants.blurStrength ∧
      (FullScreenPostProcess M .BlurV frameTime j
        (FullScreenPostProcess M .BlurH frameTime i s)).gPostProcessingConstants.weight
        = (SelectPostProcessShaderAndTextures M .BlurH frameTime i
            ((s.VSSetShader .g2DQuadVertexShader).selectPingPong
              i)).gPostProcessingConstants.weight ∧
      (FullScreenPostProcess M .BlurV frameTime j
        (FullScreenPostProcess M .BlurH frameTime i s)).gPostProcessingConstants.kernel
        = (SelectPostProcessShaderAndTextures M .BlurH frameTime i
            ((s.VSSetShader .g2DQuadVertexShader).selectPingPong
              i)).gPostProcessingConstants.kernel) ∧
    (FullScreenPostProcess M .BlurV frameTime j
        (FullScreenPostProcess M .BlurH frameTime i s)).gPostProcessingConstants.blurStrength
      = effectiveBlurStrength (s.constantsAt i).blurStrength := by
  obtain ⟨v1, v2, v3⟩ := FullScreenPostProcess_blurFields M .BlurV frameTime j
    (FullScreenPostProcess M .BlurH frameTime i s)
  obtain ⟨h1, h2, h3⟩ := FullScreenPostProcess_blurFields M .BlurH frameTime i s
  have e : ∀ u : SceneState α,
      (SelectPostProcessShaderAndTextures M .BlurV frameTime j
        ((u.VSSetShader .g2DQuadVertexShader).selectPingPong j)).gPostProcessingConstants
        = u.gPostProcessingConstants := fun u =>
    selectPingPong_pp (u.VSSetShader .g2DQuadVertexShader) j
  rw [e] at v1 v2 v3
  refine ⟨⟨rfl, rfl, rfl⟩, ⟨v1.trans h1, v2.trans h2, v3.trans h3⟩, ?_⟩
  rw [v1]
  exact FullScreenPostProcess_blurH_strength M frameTime i s

/-- In front of the near clip plane `AreaPostProcess` leaves in the constant buffer the
region computed at lines 991-1009. -/
theorem AreaPostProcess_region (M : Env α) (postProcess : PostProcess)
    (worldPoint : CVector3 α) (areaSize : CVector2 α) (frameTime : α) (i : Int)
    (s : SceneState α) (h : M.NearClip ≤ (M.PixelFromWorldPt worldPoint).z) :
    (AreaPostProcess M postProcess worldPoint areaSize frameTime i
      s).gPostProcessingConstants.area2DSize
      = ⟨areaSize.x / (M.PixelSizeInWorldSpace (M.PixelFromWorldPt worldPoint).z).x
            / M.gViewportWidth,
         areaSize.y / (M.PixelSizeInWorldSpace (M.PixelFromWorldPt worldPoint).z).y
            / M.gViewportHeight⟩ ∧
    (AreaPostProcess M postProcess worldPoint areaSize frameTime i
      s).gPostProcessingConstants.area2DTopLeft
      = ⟨(M.PixelFromWorldPt worldPoint).x / M.gViewportWidth
            - 1 / 2 * (areaSize.x / (M.PixelSizeInWorldSpace (M.PixelFromWorldPt worldPoint).z).x
              / M.gViewportWidth),
         (M.PixelFromWorldPt worldPoint).y / M.gViewportHeight
            - 1 / 2 * (areaSize.y / (M.PixelSizeInWorldSpace (M.PixelFromWorldPt worldPoint).z).y
              / M.gViewportHeight)⟩ := by
  unfold AreaPostProcess
  simp only []
  rw [if_neg (not_lt.mpr h)]
  exact ⟨rfl, rfl⟩

/-- Claim C22. For every area pass whose point is not behind the camera,
`AreaPostProcess` sets the region size, per axis, to (requested world size / world size
of one pixel at that distance) / viewport size, and the region top-left to
centre - size / 2, the centre being the projected pixel position divided by the
viewport size; so top-left + size / 2 is the normalised projected centre. -/
theorem area_region (M : Env α) (postProcess : PostProcess)
    (worldPoint : CVector3 α) (areaSize : CVector2 α) (frameTime : α) (i : Int)
    (s : SceneState α) (h : M.NearClip ≤ (M.PixelFromWorldPt worldPoint).z) :
    ((AreaPostProcess M postProcess worldPoint areaSize frameTime i
        s).gPostProcessingConstants.area2DSize.x
      = areaSize.x / (M.PixelSizeInWorldSpace (M.PixelFromWorldPt worldPoint).z).x
          / M.gViewportWidth ∧
     (AreaPostProcess M postProcess worldPoint areaSize frameTime i
        s).gPostProcessingConstants.area2DSize.y
      = areaSize.y / (M.PixelSizeInWorldSpace (M.PixelFromWorldPt worldPoint).z).y
          / M.gViewportHeight) ∧
    ((AreaPostProcess M postProcess worldPoint areaSize frameTime i
        s).gPostProcessingConstants.area2DTopLeft.x
      = (M.PixelFromWorldPt worldPoint).x / M.gViewportWidth
        - (AreaPostProcess M postProcess worldPoint areaSize frameTime i
            s).gPostProcessingConstants.area2DSize.x / 2 ∧
     (AreaPostProcess M postProcess worldPoint areaSize frameTime i
        s).gPostProcessingConstants.area2DTopLeft.y
      = (M.PixelFromWorldPt worldPoint).y / M.gViewportHeight
        - (AreaPostProcess M postProcess worldPoint areaSize frameTime i
            s).gPostProcessingConstants.area2DSize.y / 2) ∧
    ((AreaPostProcess M postProcess worldPoint areaSize frameTime i
        s).gPostProcessingConstants.area2DTopLeft.x
      + (AreaPostProcess M postProcess worldPoint areaSize frameTime i
          s).gPostProcessingConstants.area2DSize.x / 2
        = (M.PixelFromWorldPt worldPoint).x / M.gViewportWidth ∧
     (AreaPostProcess M postProcess worldPoint areaSize frameTime i
        s).gPostProcessingConstants.area2DTopLeft.y
      + (AreaPostProcess M postProcess worldPoint areaSize frameTime i
          s).gPostProcessingConstants.area2DSize.y / 2
        = (M.PixelFromWorldPt worldPoint).y / M.gViewportHeight) := by
  obtain ⟨hsize, htl⟩ := AreaPostProcess_region M postProcess worldPoint areaSize frameTime i s h
  rw [hsize, htl]
  refine ⟨⟨rfl, rfl⟩, ⟨?_, ?_⟩, ⟨?_, ?_⟩⟩ <;> simp only [] <;> ring

/-- Witness of C22: a point at distance 2 in front of the near clip distance 1, a
requested size of 1280 by 960 world units. -/
theorem area_region_witness :
    Env.sample.NearClip ≤ (Env.sample.PixelFromWorldPt ⟨640, 480, 2⟩).z ∧
    (AreaPostProcess Env.sample .Tint ⟨640, 480, 2⟩ ⟨1280, 960⟩ 0 0
        SceneState.start).gPostProcessingConstants.area2DTopLeft.x
      + (AreaPostProcess Env.sample .Tint ⟨640, 480, 2⟩ ⟨1280, 960⟩ 0 0
          SceneState.start).gPostProcessingConstants.area2DSize.x / 2
        = (Env.sample.PixelFromWorldPt ⟨640, 480, 2⟩).x / Env.sample.gViewportWidth :=
  ⟨by decide,
   (area_region Env.sample .Tint ⟨640, 480, 2⟩ ⟨1280, 960⟩ 0 0 SceneState.start
    (by decide)).2.2.1⟩

/-- Claim C28. With the exact `fmod`, for every burn height `h` in `[0, 1)` and every
elapsed time `t ≥ 0` the burn height after a Burn selection is again in `[0, 1)`; so,
starting from 0, the height is in `[0, 1)` after every prefix of any sequence of Burn
selections with non-negative elapsed times. -/
theorem burn_height_in_unit_interval [FloorRing α] (M : Env α)
    (hfmod : ∀ x, M.fmod x 1 = fmodExact x 1) (i : Int) :
    (∀ (t : α) (u : SceneState α), 0 ≤ u.gPostProcessingConstants.burnHeight →
      u.gPostProcessingConstants.burnHeight < 1 → 0 ≤ t →
      0 ≤ (SelectPostProcessShaderAndTextures M .Burn t i
            u).gPostProcessingConstants.burnHeight ∧
      (SelectPostProcessShaderAndTextures M .Burn t i
            u).gPostProcessingConstants.burnHeight < 1) ∧
    (∀ (ts : List α) (s : SceneState α), s.gPostProcessingConstants.burnHeight = 0 →
      (∀ t ∈ ts, 0 ≤ t) → ∀ k : Nat,
      0 ≤ (burnSequence M i (ts.take k) s).gPostProcessingConstants.burnHeight ∧
      (burnSequence M i (ts.take k) s).gPostProcessingConstants.burnHeight < 1) := by
  constructor
  · intro t u h0 _ ht
    rw [select_burn_height, hfmod,
      fmodExact_one_of_nonneg (add_nonneg h0 (mul_nonneg (by norm_num) ht))]
    exact ⟨Int.fract_nonneg _, Int.fract_lt_one _⟩
  · intro ts s hs hts k
    have hk : ∀ t ∈ ts.take k, 0 ≤ t := fun t ht => hts t (List.mem_of_mem_take ht)
    rw [burnSequence_height M hfmod i (ts.take k) hk s 0 le_rfl (by rw [hs]; simp)]
    exact ⟨Int.fract_nonneg _, Int.fract_lt_one _⟩

/-- Witness of C28: the exact `fmod` over the rationals, one selection from height 0
with 3 seconds elapsed, and the sequence of 2 and 3 seconds from the start state. -/
theorem burn_height_in_unit_interval_witness :
    (∀ x : ℚ, (Env.ofMath (fun _ => 1) (fun _ => 1) fmodExact 3 : Env ℚ).fmod x 1
      = fmodExact x 1) ∧
    (0 : ℚ) ≤ (SceneState.start : SceneState ℚ).gPostProcessingConstants.burnHeight ∧
    (SceneState.start : SceneState ℚ).gPostProcessingConstants.burnHeight < 1 ∧
    (0 : ℚ) ≤ 3 ∧
    (SelectPostProcessShaderAndTextures
      (Env.ofMath (fun _ => 1) (fun _ => 1) fmodExact 3 : Env ℚ) .Burn 3 0
      SceneState.start).gPostProcessingConstants.burnHeight < 1 ∧
    (SceneState.start : SceneState ℚ).gPostProcessingConstants.burnHeight = 0 ∧
    (∀ t ∈ ([2, 3] : List ℚ), 0 ≤ t) ∧
    (burnSequence (Env.ofMath (fun _ => 1) (fun _ => 1) fmodExact 3 : Env ℚ) 0
      (([2, 3] : List ℚ).take 2) SceneState.start).gPostProcessingConstants.burnHeight < 1 :=
  ⟨fun _ => rfl, le_refl (0 : ℚ), (zero_lt_one : (0 : ℚ) < 1), by norm_num,
   ((burn_height_in_unit_interval (Env.ofMath (fun _ => 1) (fun _ => 1) fmodExact 3 : Env ℚ)
      (fun _ => rfl) 0).1 3 SceneState.start (le_refl (0 : ℚ)) (zero_lt_one : (0 : ℚ) < 1)
      (by norm_num)).2,
   rfl, by decide,
   ((burn_height_in_unit_interval (Env.ofMath (fun _ => 1) (fun _ => 1) fmodExact 3 : Env ℚ)
      (fun _ => rfl) 0).2 [2, 3] SceneState.start rfl (by decide) 2).2⟩

/-- The truncated midpoint of an effective strength below 1 is negative. -/
theorem midpoint_neg_of_nonpos {n : Int} (h1 : n ≤ 0) (h2 : n % 2 = 1) :
    Int.tdiv (n - 1) 2 < 0 := by
  have e : n - 1 = -(1 - n) := by ring
  rw [e, Int.neg_tdiv, Int.tdiv_eq_ediv (by omega) (by omega)]
  omega

/-- Above `INT_MIN` the effective strength is at most the stored strength. -/
theorem effectiveBlurStrength_le {c : Int} (hc : -2147483648 < c) :
    effectiveBlurStrength c ≤ c := by
  rw [effectiveBlurStrength_of_gt hc]
  split <;> omega

/-- At `INT_MIN = -2147483648` the decrement wraps around: the effective strength is
`INT_MAX = 2147483647`. -/
theorem effectiveBlurStrength_int_min : effectiveBlurStrength (-2147483648) = 2147483647 := by
  decide

/-- Claim C27, amended. For every stored blur strength `s ≥ 1`, with effective strength
`n` (`1 ≤ n ≤ s`), the indices of `weight` written by the `BlurH` branch are exactly
those of `[0, n)` and so are the indices of `kernel` written; for a stored strength `s`
with `INT_MIN < s ≤ 0` the midpoint `(n - 1) / 2` is negative and `kernel[midpoint]` is
written. -/
theorem blurH_write_indices (M : Env α) (frameTime : α) (i : Int) (s : SceneState α) :
    (1 ≤ (s.constantsAt i).blurStrength →
      1 ≤ effectiveBlurStrength (s.constantsAt i).blurStrength ∧
      effectiveBlurStrength (s.constantsAt i).blurStrength ≤ (s.constantsAt i).blurStrength ∧
      (∀ j : Int,
        j ∈ weightWritesSince s (SelectPostProcessShaderAndTextures M .BlurH frameTime i s) ↔
          0 ≤ j ∧ j < effectiveBlurStrength (s.constantsAt i).blurStrength) ∧
      (∀ j : Int,
        j ∈ kernelWritesSince s (SelectPostProcessShaderAndTextures M .BlurH frameTime i s) ↔
          0 ≤ j ∧ j < effectiveBlurStrength (s.constantsAt i).blurStrength)) ∧
    (-2147483648 < (s.constantsAt i).blurStrength → (s.constantsAt i).blurStrength ≤ 0 →
      Int.tdiv (effectiveBlurStrength (s.constantsAt i).blurStrength - 1) 2 < 0 ∧
      Int.tdiv (effectiveBlurStrength (s.constantsAt i).blurStrength - 1) 2 ∈
        kernelWritesSince s (SelectPostProcessShaderAndTextures M .BlurH frameTime i s)) := by
  have h1 : SelectPostProcessShaderAndTextures M .BlurH frameTime i s = selectBlurH M i s :=
    rfl
  obtain ⟨w1, w2⟩ := writesSince_selectBlurH M i s
  have hodd := effectiveBlurStrength_odd (s.constantsAt i).blurStrength
  rw [h1, w1, w2]
  constructor
  · intro hs
    have hn := effectiveBlurStrength_pos hs
    have hle := effectiveBlurStrength_le
      (show -2147483648 < (s.constantsAt i).blurStrength by omega)
    obtain ⟨hm0, hm⟩ := midpoint_of_odd hn hodd
    refine ⟨hn, hle, fun j => ?_, fun j => ?_⟩
    · rw [List.mem_append, or_self, mem_weightIndices]
      omega
    · rw [mem_kernelIndices]
      omega
  · intro hmin hs
    exact ⟨midpoint_neg_of_nonpos (le_trans (effectiveBlurStrength_le hmin) hs) hodd,
      List.mem_cons_self _ _⟩

/-- Witness of C27: a stored strength 8, of effective strength 7, and a stored
strength 0, above `INT_MIN`, of effective strength -1 and midpoint -1. -/
theorem blurH_write_indices_witness :
    (1 ≤ ((oneRecord 8 : SceneState ℚ).constantsAt 0).blurStrength ∧
      ∀ j : Int,
        j ∈ kernelWritesSince (oneRecord 8 : SceneState ℚ)
            (SelectPostProcessShaderAndTextures Env.sample .BlurH 0 0 (oneRecord 8)) ↔
          0 ≤ j ∧ j < effectiveBlurStrength
            ((oneRecord 8 : SceneState ℚ).constantsAt 0).blurStrength) ∧
    (-2147483648 < ((oneRecord 0 : SceneState ℚ).constantsAt 0).blurStrength ∧
      ((oneRecord 0 : SceneState ℚ).constantsAt 0).blurStrength ≤ 0 ∧
      Int.tdiv (effectiveBlurStrength
        ((oneRecord 0 : SceneState ℚ).constantsAt 0).blurStrength - 1) 2 < 0) :=
  ⟨⟨by decide,
    ((blurH_write_indices Env.sample 0 0 (oneRecord 8)).1 (by decide)).2.2.2⟩,
   ⟨by decide, by decide,
    ((blurH_write_indices Env.sample 0 0 (oneRecord 0)).2 (by decide) (by decide)).1⟩⟩

/-- Claim C27 as stated fails for the stored strength `INT_MIN = -2147483648`, which is
at most 0: the decrement wraps around, the `BlurH` branch leaves the effective strength
`INT_MAX = 2147483647` in the constant buffer, and the midpoint `(n - 1) / 2` is
1073741823, not negative. -/
theorem blurH_midpoint_counterexample :
    ((oneRecord (-2147483648) : SceneState ℚ).constantsAt 0).blurStrength ≤ 0 ∧
    (SelectPostProcessShaderAndTextures Env.sample .BlurH 0 0
      (oneRecord (-2147483648))).gPostProcessingConstants.blurStrength = 2147483647 ∧
    effectiveBlurStrength ((oneRecord (-2147483648) : SceneState ℚ).constantsAt 0).blurStrength
      = 2147483647 ∧
    Int.tdiv (effectiveBlurStrength
      ((oneRecord (-2147483648) : SceneState ℚ).constantsAt 0).blurStrength - 1) 2
      = 1073741823 ∧
    ¬ Int.tdiv (effectiveBlurStrength
      ((oneRecord (-2147483648) : SceneState ℚ).constantsAt 0).blurStrength - 1) 2 < 0 := by
  have e0 : ((oneRecord (-2147483648) : SceneState ℚ).constantsAt 0).blurStrength
      = -2147483648 := rfl
  have h1 : SelectPostProcessShaderAndTextures Env.sample .BlurH 0 0
      (oneRecord (-2147483648)) = selectBlurH Env.sample 0 (oneRecord (-2147483648)) := rfl
  refine ⟨by rw [e0]; decide, ?_, ?_, ?_, ?_⟩
  · rw [h1, (selectBlurH_weights Env.sample 0 (oneRecord (-2147483648))).1, e0]
    exact effectiveBlurStrength_int_min
  · rw [e0]
    exact effectiveBlurStrength_int_min
  · rw [e0, effectiveBlurStrength_int_min]
    decide
  · rw [e0, effectiveBlurStrength_int_min]
    decide

/-- The weight expression is symmetric about its mean. -/
theorem blurWeightExpr_symm (M : Env α) (mid k : Int) :
    blurWeightExpr M ((mid : Int) : α) 40 (mid + k)
      = blurWeightExpr M ((mid : Int) : α) 40 (mid - k) := by
  have harg : (((((mid + k : Int) : α) - (mid : α)) / 40) ^ 2
      + ((((mid + k : Int) : α) - (mid : α)) / 40) ^ 2)
      = (((((mid - k : Int) : α) - (mid : α)) / 40) ^ 2
        + ((((mid - k : Int) : α) - (mid : α)) / 40) ^ 2) := by
    push_cast
    ring
  unfold blurWeightExpr
  rw [harg]

/-- With the real exponential the weight expression is largest at its mean. -/
theorem blurWeightExpr_le_mid (M : Env ℝ) (hexp : M.exp = Real.exp) (hpi : 0 < M.PI)
    (mid x : Int) :
    blurWeightExpr M ((mid : Int) : ℝ) 40 x ≤ blurWeightExpr M ((mid : Int) : ℝ) 40 mid := by
  unfold blurWeightExpr
  rw [hexp]
  have hden : (0 : ℝ) < 2 * M.PI * 40 * 40 := by positivity
  refine div_le_div_of_nonneg_right ?_ (le_of_lt hden)
  refine Real.exp_le_exp.mpr ?_
  have h1 : (0 : ℝ) ≤ (((x : ℝ) - (mid : ℝ)) / 40) ^ 2 := sq_nonneg _
  have h2 : ((((mid : Int) : ℝ) - (mid : ℝ)) / 40) ^ 2 = 0 := by
    rw [sub_self, zero_div]
    norm_num
  rw [h2]
  linarith

/-- Claim C30. In real arithmetic, for every stored strength of at least 1, with effective
strength `n ≥ 1` and `mid = (n - 1) / 2`, the normalised `BlurH` weights `weight[0..n-1]`
are strictly positive, symmetric about the midpoint (`weight[mid + k] = weight[mid - k]`
for every `k` in `[0..mid]`) and maximal at the midpoint. -/
theorem blurH_weights_shape (M : Env ℝ) (hexp : M.exp = Real.exp) (hpi : M.PI = Real.pi)
    (frameTime : ℝ) (i : Int) (s : SceneState ℝ) (hs : 1 ≤ (s.constantsAt i).blurStrength) :
    1 ≤ effectiveBlurStrength (s.constantsAt i).blurStrength ∧
    (∀ x : Int, 0 ≤ x → x < effectiveBlurStrength (s.constantsAt i).blurStrength →
      0 < (SelectPostProcessShaderAndTextures M .BlurH frameTime i
            s).gPostProcessingConstants.weight x) ∧
    (∀ k : Int, 0 ≤ k →
      k ≤ Int.tdiv (effectiveBlurStrength (s.constantsAt i).blurStrength - 1) 2 →
      (SelectPostProcessShaderAndTextures M .BlurH frameTime i
          s).gPostProcessingConstants.weight
          (Int.tdiv (effectiveBlurStrength (s.constantsAt i).blurStrength - 1) 2 + k)
        = (SelectPostProcessShaderAndTextures M .BlurH frameTime i
            s).gPostProcessingConstants.weight
            (Int.tdiv (effectiveBlurStrength (s.constantsAt i).blurStrength - 1) 2 - k)) ∧
    (∀ x : Int, 0 ≤ x → x < effectiveBlurStrength (s.constantsAt i).blurStrength →
      (SelectPostProcessShaderAndTextures M .BlurH frameTime i
          s).gPostProcessingConstants.weight x
        ≤ (SelectPostProcessShaderAndTextures M .BlurH frameTime i
            s).gPostProcessingConstants.weight
            (Int.tdiv (effectiveBlurStrength (s.constantsAt i).blurStrength - 1) 2)) := by
  have h1 : SelectPostProcessShaderAndTextures M .BlurH frameTime i s = selectBlurH M i s :=
    rfl
  have hE : ∀ x, 0 < M.exp x := by
    rw [hexp]
    exact Real.exp_pos
  have hP : 0 < M.PI := by
    rw [hpi]
    exact Real.pi_pos
  obtain ⟨_, hw⟩ := selectBlurH_weights M i s
  have hn := effectiveBlurStrength_pos hs
  obtain ⟨hm0, hm⟩ := midpoint_of_odd hn
    (effectiveBlurStrength_odd (s.constantsAt i).blurStrength)
  rw [h1]
  generalize effectiveBlurStrength (s.constantsAt i).blurStrength = n at hw hn hm0 hm
  generalize Int.tdiv (n - 1) 2 = mid at hw hm0 hm
  have hcast : ((n.toNat : Nat) : Int) = n := Int.toNat_of_nonneg (by omega)
  rw [hcast] at hw
  have hS : 0 < ∑ k ∈ Finset.range n.toNat, blurWeightExpr M ((mid : Int) : ℝ) 40 (k : Int) := by
    refine Finset.sum_pos (fun k _ => blurWeightExpr_pos M hE hP _ _) ?_
    exact ⟨0, Finset.mem_range.mpr (by omega)⟩
  refine ⟨hn, fun x hx0 hxn => ?_, fun k hk0 hkm => ?_, fun x hx0 hxn => ?_⟩
  · rw [hw x hx0 hxn]
    exact div_pos (blurWeightExpr_pos M hE hP _ _) hS
  · rw [hw (mid + k) (by omega) (by omega), hw (mid - k) (by omega) (by omega),
      blurWeightExpr_symm]
  · rw [hw x hx0 hxn, hw mid hm0 (by omega)]
    exact div_le_div_of_nonneg_right (blurWeightExpr_le_mid M hexp hP mid x) (le_of_lt hS)

/-- Witness of C30: the real exponential and pi, a stored strength 8 (effective strength
7, midpoint 3): the weights at the indices 2 and 4 are equal. -/
theorem blurH_weights_shape_witness :
    (Env.ofMath Real.exp Real.cos (fun x _ => x) Real.pi).exp = Real.exp ∧
    (Env.ofMath Real.exp Real.cos (fun x _ => x) Real.pi).PI = Real.pi ∧
    1 ≤ ((oneRecord 8 : SceneState ℝ).constantsAt 0).blurStrength ∧
    (SelectPostProcessShaderAndTextures (Env.ofMath Real.exp Real.cos (fun x _ => x) Real.pi)
        .BlurH 0 0 (oneRecord 8)).gPostProcessingConstants.weight
        (Int.tdiv (effectiveBlurStrength
          ((oneRecord 8 : SceneState ℝ).constantsAt 0).blurStrength - 1) 2 + 1)
      = (SelectPostProcessShaderAndTextures
          (Env.ofMath Real.exp Real.cos (fun x _ => x) Real.pi)
          .BlurH 0 0 (oneRecord 8)).gPostProcessingConstants.weight
          (Int.tdiv (effectiveBlurStrength
            ((oneRecord 8 : SceneState ℝ).constantsAt 0).blurStrength - 1) 2 - 1) ∧
    0 < (SelectPostProcessShaderAndTextures
          (Env.ofMath Real.exp Real.cos (fun x _ => x) Real.pi)
          .BlurH 0 0 (oneRecord 8)).gPostProcessingConstants.weight 0 ∧
    (SelectPostProcessShaderAndTextures
          (Env.ofMath Real.exp Real.cos (fun x _ => x) Real.pi)
          .BlurH 0 0 (oneRecord 8)).gPostProcessingConstants.weight 0
      ≤ (SelectPostProcessShaderAndTextures
          (Env.ofMath Real.exp Real.cos (fun x _ => x) Real.pi)
          .BlurH 0 0 (oneRecord 8)).gPostProcessingConstants.weight
          (Int.tdiv (effectiveBlurStrength
            ((oneRecord 8 : SceneState ℝ).constantsAt 0).blurStrength - 1) 2) :=
  ⟨rfl, rfl, by decide,
   (blurH_weights_shape (Env.ofMath Real.exp Real.cos (fun x _ => x) Real.pi) rfl rfl 0 0
      (oneRecord 8) (by decide)).2.2.1 1 (by decide) (by decide),
   (blurH_weights_shape (Env.ofMath Real.exp Real.cos (fun x _ => x) Real.pi) rfl rfl 0 0
      (oneRecord 8) (by decide)).2.1 0 (by decide) (by decide),
   (blurH_weights_shape (Env.ofMath Real.exp Real.cos (fun x _ => x) Real.pi) rfl rfl 0 0
      (oneRecord 8) (by decide)).2.2.2 0 (by decide) (by decide)⟩

/-- The step passes at every position do not depend on the kind of an Area-mode entry
that is not a bloom entry. -/
theorem stepPasses_area_kind (l1 l2 : List ProcessAndMode) (k k' : PostProcess)
    (hk : k ≠ .Bloom1) (hk' : k' ≠ .Bloom1) (y : Nat) :
    polygonStepPasses (l1 ++ ⟨k, .Area⟩ :: l2) y
      = polygonStepPasses (l1 ++ ⟨k', .Area⟩ :: l2) y ∧
    fullscreenStepPasses (l1 ++ ⟨k, .Area⟩ :: l2) y
      = fullscreenStepPasses (l1 ++ ⟨k', .Area⟩ :: l2) y ∧
    bloomStepPasses (l1 ++ ⟨k, .Area⟩ :: l2) y
      = bloomStepPasses (l1 ++ ⟨k', .Area⟩ :: l2) y := by
  unfold polygonStepPasses fullscreenStepPasses bloomStepPasses atEntry
  rcases Nat.lt_trichotomy y l1.length with h | h | h
  · rw [List.getElem?_append_left h, List.getElem?_append_left h]
    exact ⟨rfl, rfl, rfl⟩
  · subst h
    rw [List.getElem?_append_right (le_refl _), List.getElem?_append_right (le_refl _)]
    simp [hk, hk']
  · rw [List.getElem?_append_right (le_of_lt h), List.getElem?_append_right (le_of_lt h)]
    obtain ⟨d, hd⟩ : ∃ d, y - l1.length = d + 1 := ⟨y - l1.length - 1, by omega⟩
    rw [hd, List.getElem?_cons_succ, List.getElem?_cons_succ]
    exact ⟨rfl, rfl, rfl⟩

/-- The passes of a frame do not depend on the kind of an Area-mode entry that is not
a bloom entry. -/
theorem framePasses_area_kind (l1 l2 : List ProcessAndMode) (k k' : PostProcess)
    (hk : k ≠ .Bloom1) (hk' : k' ≠ .Bloom1) :
    framePasses (l1 ++ ⟨k, .Area⟩ :: l2) = framePasses (l1 ++ ⟨k', .Area⟩ :: l2) := by
  have e1 : polygonStepPasses (l1 ++ ⟨k, .Area⟩ :: l2)
      = polygonStepPasses (l1 ++ ⟨k', .Area⟩ :: l2) :=
    funext fun y => (stepPasses_area_kind l1 l2 k k' hk hk' y).1
  have e2 : fullscreenStepPasses (l1 ++ ⟨k, .Area⟩ :: l2)
      = fullscreenStepPasses (l1 ++ ⟨k', .Area⟩ :: l2) :=
    funext fun y => (stepPasses_area_kind l1 l2 k k' hk hk' y).2.1
  have e3 : bloomStepPasses (l1 ++ ⟨k, .Area⟩ :: l2)
      = bloomStepPasses (l1 ++ ⟨k', .Area⟩ :: l2) :=
    funext fun y => (stepPasses_area_kind l1 l2 k k' hk hk' y).2.2
  have hlen : (l1 ++ ⟨k, .Area⟩ :: l2).length = (l1 ++ ⟨k', .Area⟩ :: l2).length := by
    simp
  rw [← framePasses_eq_range, ← framePasses_eq_range, e1, e2, e3, hlen]

/-- Claim C29. An entry whose mode is Area and whose kind is not Bloom1 contributes no
pass to the frame: at its position the bodies of the three loops of `RenderScene` leave
the state as it is, and the passes of the frame are the same when the kind of the entry
is replaced by any other kind than Bloom1. -/
theorem area_entry_contributes_no_pass (M : Env α) (frameTime : α) :
    (∀ (i : Int) (s : SceneState α) (e : ProcessAndMode), s.entryAt i = some e →
      e.mode = .Area → e.process ≠ .Bloom1 →
      RenderScene.polygonStep M frameTime i s = s ∧
      RenderScene.fullscreenStep M frameTime i s = s ∧
      RenderScene.bloomStep M frameTime i s = s) ∧
    (∀ (s : SceneState α) (l1 l2 : List ProcessAndMode) (k k' : PostProcess),
      k ≠ .Bloom1 → k' ≠ .Bloom1 → s.gPostProcessList = l1 ++ ⟨k, .Area⟩ :: l2 →
      passesOf (drawsSince s (RenderScene M frameTime s))
        = passesOf (drawsSince (s.withList (l1 ++ ⟨k', .Area⟩ :: l2))
            (RenderScene M frameTime (s.withList (l1 ++ ⟨k', .Area⟩ :: l2))))) := by
  constructor
  · intro i s e he hmode hproc
    unfold RenderScene.polygonStep RenderScene.fullscreenStep RenderScene.bloomStep
    rw [he]
    simp [hmode, hproc]
  · intro s l1 l2 k k' hk hk' hl
    rw [passesOf_drawsSince (runs_RenderScene M frameTime s),
      passesOf_drawsSince (runs_RenderScene M frameTime (s.withList _)), hl]
    exact framePasses_area_kind l1 l2 k k' hk hk'

/-- Witness of C29: the list of an Area-mode Tint entry followed by a full-screen
HueTint entry, and the same list with Distort in place of Tint. -/
theorem area_entry_contributes_no_pass_witness :
    ((SceneState.start : SceneState ℚ).withList
        [⟨.Tint, .Area⟩, ⟨.HueTint, .Fullscreen⟩]).entryAt 0 = some ⟨.Tint, .Area⟩ ∧
    RenderScene.polygonStep Env.sample 0 0
        ((SceneState.start : SceneState ℚ).withList [⟨.Tint, .Area⟩, ⟨.HueTint, .Fullscreen⟩])
      = (SceneState.start : SceneState ℚ).withList [⟨.Tint, .Area⟩, ⟨.HueTint, .Fullscreen⟩] ∧
    PostProcess.Tint ≠ PostProcess.Bloom1 ∧ PostProcess.Distort ≠ PostProcess.Bloom1 ∧
    passesOf (drawsSince
        ((SceneState.start : SceneState ℚ).withList [⟨.Tint, .Area⟩, ⟨.HueTint, .Fullscreen⟩])
        (RenderScene Env.sample 0
          ((SceneState.start : SceneState ℚ).withList
            [⟨.Tint, .Area⟩, ⟨.HueTint, .Fullscreen⟩])))
      = passesOf (drawsSince
          (((SceneState.start : SceneState ℚ).withList
            [⟨.Tint, .Area⟩, ⟨.HueTint, .Fullscreen⟩]).withList
              ([] ++ ⟨.Distort, .Area⟩ :: [⟨.HueTint, .Fullscreen⟩]))
          (RenderScene Env.sample 0
            (((SceneState.start : SceneState ℚ).withList
              [⟨.Tint, .Area⟩, ⟨.HueTint, .Fullscreen⟩]).withList
                ([] ++ ⟨.Distort, .Area⟩ :: [⟨.HueTint, .Fullscreen⟩])))) :=
  ⟨rfl,
   ((area_entry_contributes_no_pass Env.sample 0).1 0
      ((SceneState.start : SceneState ℚ).withList [⟨.Tint, .Area⟩, ⟨.HueTint, .Fullscreen⟩])
      ⟨.Tint, .Area⟩ rfl rfl (by decide)).1,
   by decide, by decide,
   (area_entry_contributes_no_pass Env.sample 0).2
      ((SceneState.start : SceneState ℚ).withList [⟨.Tint, .Area⟩, ⟨.HueTint, .Fullscreen⟩])
      [] [⟨.HueTint, .Fullscreen⟩] .Tint .Distort (by decide) (by decide) rfl⟩

theorem sameFaults_refl (s : SceneState α) : SameFaults s s := ⟨rfl, rfl, rfl⟩

theorem sameFaults_trans {s t u : SceneState α} (h1 : SameFaults s t) (h2 : SameFaults t u) :
    SameFaults s u :=
  ⟨h2.1.trans h1.1, h2.2.1.trans h1.2.1, h2.2.2.trans h1.2.2⟩

theorem sameFaults_of_preserves {s t : SceneState α} (hp : Preserves s t)
    (hf : t.faults = s.faults) : SameFaults s t :=
  ⟨hp.2.2.2.2.1, hp.2.2.2.2.2, hf⟩

theorem inRange_of_sameFaults {s t : SceneState α} (h : SameFaults s t) {i : Int}
    (hi : inRange i s.gConstantsList.length = true) :
    inRange i t.gConstantsList.length = true := by
  rw [h.2.1]
  exact hi

theorem touchConstants_of_inRange (s : SceneState α) (i : Int)
    (h : inRange i s.gConstantsList.length = true) : s.touchConstants i = s := by
  unfold SceneState.touchConstants
  rw [if_pos h]

theorem modifyConstants_faults (s : SceneState α) (i : Int) (f : Constants α → Constants α)
    (h : inRange i s.gConstantsList.length = true) :
    (s.modifyConstants i f).faults = s.faults := by
  unfold SceneState.modifyConstants
  rw [if_pos h]

theorem sameFaults_modifyConstants (s : SceneState α) (i : Int)
    (f : Constants α → Constants α) (h : inRange i s.gConstantsList.length = true) :
    SameFaults s (s.modifyConstants i f) :=
  sameFaults_of_preserves (preserves_modifyConstants s i f) (modifyConstants_faults s i f h)

theorem modifyPP_faults (s : SceneState α)
    (f : PostProcessingConstants α → PostProcessingConstants α) :
    (s.modifyPP f).faults = s.faults := rfl

theorem selectBlurH_faults (M : Env α) (i : Int) (s : SceneState α)
    (h : inRange i s.gConstantsList.length = true) :
    (selectBlurH M i s).faults = s.faults := by
  have h1 : ∀ t : SceneState α, (blurKernelOffsets t).faults = t.faults := by
    intro t
    unfold blurKernelOffsets
    simp only []
    refine forLoop_invariant (fun u : SceneState α => u.faults = t.faults) _ _ _ ?_ _ rfl
    intro x u hu
    exact hu
  have h2 : ∀ r : SceneState α × α, (blurNormaliseLoop r).faults = r.1.faults := by
    intro r
    unfold blurNormaliseLoop
    refine forLoop_invariant (fun u : SceneState α => u.faults = r.1.faults) _ _ _ ?_ r.1 rfl
    intro x u hu
    exact hu
  have h3 : ∀ t : SceneState α, (blurWeightLoop M t).1.faults = t.faults := by
    intro t
    unfold blurWeightLoop
    simp only []
    refine forLoop_invariant (fun u : SceneState α × α => u.1.faults = t.faults)
      _ _ _ ?_ (t, (0 : α)) rfl
    intro x u hu
    exact hu
  unfold selectBlurH
  rw [h1, h2, h3]
  show ((s.PSSetShader .gBlurHPostProcess).touchConstants i).faults = s.faults
  rw [touchConstants_of_inRange (s.PSSetShader .gBlurHPostProcess) i h]
  rfl

/-- A selection whose index is within the parameter list logs no fault. -/
theorem select_faults (M : Env α) (postProcess : PostProcess) (frameTime : α) (i : Int)
    (s : SceneState α) (h : inRange i s.gConstantsList.length = true) :
    (SelectPostProcessShaderAndTextures M postProcess frameTime i s).faults = s.faults := by
  cases postProcess
  case BlurH => exact selectBlurH_faults M i s h
  case Underwater =>
    simp only [SelectPostProcessShaderAndTextures]
    generalize hs1 : (s.PSSetShader .gUnderwaterPostProcess).modifyPP
      (fun pp => { pp with waterColour := ⟨2 / 10, 4 / 10, 1⟩ }) = s1
    have f1 : s1.faults = s.faults := by
      rw [← hs1]
      rfl
    have hr1 : inRange i s1.gConstantsList.length = true := by
      rw [← hs1]
      exact h
    have hr2 : ∀ f : Constants α → Constants α,
        inRange i (s1.modifyConstants i f).gConstantsList.length = true := by
      intro f
      rw [(preserves_modifyConstants s1 i f).2.2.2.2.2]
      exact hr1
    rw [modifyPP_faults, touchConstants_of_inRange s1 i hr1,
      touchConstants_of_inRange (s1.modifyConstants i _) i (hr2 _),
      modifyConstants_faults _ _ _ hr1]
    exact f1
  all_goals
    simp [SelectPostProcessShaderAndTextures, touchConstants_of_inRange, h,
      SceneState.modifyPP, SceneState.PSSetShader, SceneState.PSSetShaderResources,
      SceneState.advanceRandom, SceneState.advanceSpiral]

theorem selectPingPong_faults (s : SceneState α) (i : Int) :
    (s.selectPingPong i).faults = s.faults := by
  unfold SceneState.selectPingPong
  simp only []
  split <;> rfl

theorem sameFaults_FullScreenPostProcess (M : Env α) (postProcess : PostProcess)
    (frameTime : α) (i : Int) (s : SceneState α)
    (h : inRange i s.gConstantsList.length = true) :
    SameFaults s (FullScreenPostProcess M postProcess frameTime i s) := by
  obtain ⟨_, _, _, d2, d3⟩ := FullScreenPostProcess_draws M postProcess frameTime i s
  refine ⟨d2, d3, ?_⟩
  have hr : inRange i
      ((s.VSSetShader .g2DQuadVertexShader).selectPingPong i).gConstantsList.length = true := by
    rw [selectPingPong_constants]
    exact h
  have e := (select_faults M postProcess frameTime i _ hr).trans
    (selectPingPong_faults (s.VSSetShader .g2DQuadVertexShader) i)
  unfold FullScreenPostProcess
  simp only []
  generalize SelectPostProcessShaderAndTextures M postProcess frameTime i
    ((s.VSSetShader .g2DQuadVertexShader).selectPingPong i) = t at e
  exact e

theorem sameFaults_PolygonPostProcess (M : Env α) (postProcess : PostProcess)
    (quad : Fin 4 → CVector3 α) (frameTime : α) (i : Int) (s : SceneState α)
    (h : inRange i s.gConstantsList.length = true) :
    SameFaults s (PolygonPostProcess M postProcess quad frameTime i s) := by
  obtain ⟨_, _, _, _, _, d2, d3⟩ := PolygonPostProcess_draws M postProcess quad frameTime i s
  refine ⟨d2, d3, ?_⟩
  have c := sameFaults_FullScreenPostProcess M .Copy frameTime i s h
  have hr : inRange i
      ((FullScreenPostProcess M .Copy frameTime i s).selectPingPong i).gConstantsList.length
        = true := by
    rw [selectPingPong_constants]
    exact inRange_of_sameFaults c h
  have e := ((select_faults M postProcess frameTime i _ hr).trans
    (selectPingPong_faults (FullScreenPostProcess M .Copy frameTime i s) i)).trans c.2.2
  unfold PolygonPostProcess
  simp only []
  generalize SelectPostProcessShaderAndTextures M postProcess frameTime i
    ((FullScreenPostProcess M .Copy frameTime i s).selectPingPong i) = t at e
  exact e

theorem sameFaults_SaveBaseSceneTexture (i : Int) (s : SceneState α) :
    SameFaults s (SaveBaseSceneTexture i s) := by
  obtain ⟨_, d2, d3⟩ := SaveBaseSceneTexture_draws i s
  refine ⟨d2, congrArg List.length d3, ?_⟩
  by_cases h : Int.tmod i 2 = 0 <;>
    simp [SaveBaseSceneTexture, h, SceneState.Draw, SceneState.OMSetRenderTargets,
      SceneState.setFullScreenArea, SceneState.modifyPP, SceneState.PSSetShader,
      SceneState.PSSetShaderResources, SceneState.VSSetShader]

theorem sameFaults_setCurrent (s : SceneState α) (p : PostProcess) :
    SameFaults s { s with gCurrentPostProcess := p } := ⟨rfl, rfl, rfl⟩

/-- A bloom expansion whose four pass indices are within the parameter list logs no
fault. -/
theorem sameFaults_bloomExpansion (M : Env α) (frameTime : α) (i : Int)
    (process : PostProcess) (s : SceneState α)
    (h0 : inRange i s.gConstantsList.length = true)
    (h1 : inRange (i + 1) s.gConstantsList.length = true)
    (h2 : inRange (i + 1 + 1) s.gConstantsList.length = true)
    (h3 : inRange (i + 1 + 1 + 1) s.gConstantsList.length = true) :
    SameFaults s (RenderScene.bloomExpansion M frameTime i process s) := by
  unfold RenderScene.bloomExpansion
  simp only []
  have b1 := sameFaults_trans (sameFaults_SaveBaseSceneTexture i s) (sameFaults_setCurrent _ process)
  have b2 := sameFaults_trans b1
    (sameFaults_FullScreenPostProcess M process frameTime i _ (inRange_of_sameFaults b1 h0))
  have b3 := sameFaults_trans b2 (sameFaults_modifyConstants _ i
    (fun c => { c with blurStrength := 90 }) (inRange_of_sameFaults b2 h0))
  have b4 := sameFaults_trans b3 (sameFaults_setCurrent _ .BlurH)
  have b5 := sameFaults_trans b4
    (sameFaults_FullScreenPostProcess M .BlurH frameTime (i + 1) _ (inRange_of_sameFaults b4 h1))
  have b6 := sameFaults_trans b5 (sameFaults_setCurrent _ .BlurV)
  have b7 := sameFaults_trans b6
    (sameFaults_FullScreenPostProcess M .BlurV frameTime (i + 1 + 1) _
      (inRange_of_sameFaults b6 h2))
  have b8 := sameFaults_trans b7 (sameFaults_setCurrent _ .Bloom2)
  have b9 := sameFaults_trans b8
    (sameFaults_FullScreenPostProcess M .Bloom2 frameTime (i + 1 + 1 + 1) _
      (inRange_of_sameFaults b8 h3))
  exact sameFaults_trans b9
    (sameFaults_FullScreenPostProcess M .Copy frameTime i _ (inRange_of_sameFaults b9 h0))

theorem inRange_natCast {k c : Nat} (h : k < c) : inRange (0 + (k : Int)) c = true := by
  unfold inRange
  simp only [Bool.and_eq_true, decide_eq_true_eq]
  omega

theorem inRange_of_bounds {i : Int} {c : Nat} (h0 : 0 ≤ i) (h1 : i < (c : Int)) :
    inRange i c = true := by
  unfold inRange
  simp only [Bool.and_eq_true, decide_eq_true_eq]
  omega

theorem touchPoints_of_inRange (s : SceneState α) (i : Int) (h : inRange i 4 = true) :
    s.touchPoints i = s := by
  unfold SceneState.touchPoints
  rw [if_pos h]

theorem sameFaults_polygonStep (M : Env α) (frameTime : α) (k : Nat) (s : SceneState α)
    (hpoly : ∀ e, s.gPostProcessList[k]? = some e → e.mode = .Polygon → k < 4)
    (hlen : s.gPostProcessList.length ≤ s.gConstantsList.length) :
    SameFaults s (RenderScene.polygonStep M frameTime (0 + (k : Int)) s) := by
  unfold RenderScene.polygonStep
  rw [entryAt_natCast]
  rcases hk : s.gPostProcessList[k]? with _ | e
  · exact sameFaults_refl s
  · simp only []
    split
    · next hm =>
      have klt : k < s.gPostProcessList.length := (List.getElem?_eq_some_iff.1 hk).1
      rw [touchPoints_of_inRange _ _ (inRange_natCast (hpoly e hk hm))]
      exact sameFaults_PolygonPostProcess M e.process _ frameTime _ s
        (inRange_natCast (lt_of_lt_of_le klt hlen))
    · exact sameFaults_refl s

theorem sameFaults_fullscreenStep (M : Env α) (frameTime : α) (k : Nat) (s : SceneState α)
    (hlen : s.gPostProcessList.length ≤ s.gConstantsList.length) :
    SameFaults s (RenderScene.fullscreenStep M frameTime (0 + (k : Int)) s) := by
  unfold RenderScene.fullscreenStep
  rw [entryAt_natCast]
  rcases hk : s.gPostProcessList[k]? with _ | e
  · exact sameFaults_refl s
  · simp only []
    split
    · have klt : k < s.gPostProcessList.length := (List.getElem?_eq_some_iff.1 hk).1
      exact sameFaults_trans (sameFaults_setCurrent s e.process)
        (sameFaults_FullScreenPostProcess M e.process frameTime _ _
          (inRange_natCast (lt_of_lt_of_le klt hlen)))
    · exact sameFaults_refl s

theorem sameFaults_bloomStep (M : Env α) (frameTime : α) (k : Nat) (s : SceneState α)
    (hbloom : ∀ e, s.gPostProcessList[k]? = some e → e.process = .Bloom1 →
      k + 3 < s.gConstantsList.length) :
    SameFaults s (RenderScene.bloomStep M frameTime (0 + (k : Int)) s) := by
  unfold RenderScene.bloomStep
  rw [entryAt_natCast]
  rcases hk : s.gPostProcessList[k]? with _ | e
  · exact sameFaults_refl s
  · simp only []
    split
    · next hb =>
      have h3 := hbloom e hk hb
      exact sameFaults_bloomExpansion M frameTime _ e.process s
        (inRange_of_bounds (by omega) (by omega)) (inRange_of_bounds (by omega) (by omega))
        (inRange_of_bounds (by omega) (by omega)) (inRange_of_bounds (by omega) (by omega))
    · exact sameFaults_refl s

theorem sameFaults_forLoop (n : Nat) (body : Int → SceneState α → SceneState α)
    (s0 : SceneState α)
    (h : ∀ (k : Nat) (s : SceneState α), SameFaults s0 s → SameFaults s (body (0 + (k : Int)) s)) :
    SameFaults s0 (forLoop 0 (n : Int) body s0) := by
  unfold forLoop
  simp only [sub_zero, Int.toNat_ofNat]
  induction n with
  | zero => exact sameFaults_refl s0
  | succ n ih =>
    rw [List.range_succ, List.foldl_append]
    simp only [List.foldl_cons, List.foldl_nil]
    exact sameFaults_trans ih (h n _ ih)

theorem sameFaults_polygonSweep (M : Env α) (frameTime : α) (s : SceneState α)
    (hpoly : ∀ k e, s.gPostProcessList[k]? = some e → e.mode = .Polygon → k < 4)
    (hlen : s.gPostProcessList.length ≤ s.gConstantsList.length) :
    SameFaults s (RenderScene.polygonSweep M frameTime s) := by
  unfold RenderScene.polygonSweep
  split
  · exact sameFaults_forLoop s.gPostProcessList.length _ s (fun k t ht =>
      sameFaults_polygonStep M frameTime k t (by rw [ht.1]; exact hpoly k)
        (by rw [ht.1, ht.2.1]; exact hlen))
  · exact sameFaults_refl s

theorem sameFaults_fullscreenSweep (M : Env α) (frameTime : α) (s : SceneState α)
    (hlen : s.gPostProcessList.length ≤ s.gConstantsList.length) :
    SameFaults s (RenderScene.fullscreenSweep M frameTime s) := by
  unfold RenderScene.fullscreenSweep
  split
  · exact sameFaults_forLoop s.gPostProcessList.length _ s (fun k t ht =>
      sameFaults_fullscreenStep M frameTime k t (by rw [ht.1, ht.2.1]; exact hlen))
  · exact sameFaults_refl s

theorem sameFaults_bloomSweep (M : Env α) (frameTime : α) (s : SceneState α)
    (hbloom : ∀ k e, s.gPostProcessList[k]? = some e → e.process = .Bloom1 →
      k + 3 < s.gConstantsList.length) :
    SameFaults s (RenderScene.bloomSweep M frameTime s) := by
  unfold RenderScene.bloomSweep
  split
  · exact sameFaults_forLoop s.gPostProcessList.length _ s (fun k t ht =>
      sameFaults_bloomStep M frameTime k t (by rw [ht.1, ht.2.1]; exact hbloom k))
  · exact sameFaults_refl s

theorem sameFaults_Draw (s : SceneState α) (c : Caller) (pp : PostProcess) (i : Int) :
    SameFaults s (s.Draw c pp i) := ⟨rfl, rfl, rfl⟩

theorem sameFaults_VSSetShader (s : SceneState α) (vs : VertexShader) :
    SameFaults s (s.VSSetShader vs) := ⟨rfl, rfl, rfl⟩

theorem sameFaults_PSSetShader (s : SceneState α) (ps : PixelShader) :
    SameFaults s (s.PSSetShader ps) := ⟨rfl, rfl, rfl⟩

theorem sameFaults_OMSetRenderTargets (s : SceneState α) (rt : Option RenderTargetView) :
    SameFaults s (s.OMSetRenderTargets rt) := ⟨rfl, rfl, rfl⟩

theorem sameFaults_PSSetShaderResources (s : SceneState α) (slot : Nat)
    (srv : Option ShaderResourceView) : SameFaults s (s.PSSetShaderResources slot srv) := by
  unfold SceneState.PSSetShaderResources
  split <;> exact ⟨rfl, rfl, rfl⟩

theorem sameFaults_modifyPP (s : SceneState α)
    (f : PostProcessingConstants α → PostProcessingConstants α) :
    SameFaults s (s.modifyPP f) := ⟨rfl, rfl, rfl⟩

theorem sameFaults_RenderDepthBufferFromCamera (s : SceneState α) :
    SameFaults s (RenderDepthBufferFromCamera s) := by
  unfold RenderDepthBufferFromCamera
  simp only []
  repeat
    first
    | with_reducible exact sameFaults_refl _
    | with_reducible refine sameFaults_trans ?_ (sameFaults_Draw _ _ _ _)
    | with_reducible refine sameFaults_trans ?_ (sameFaults_PSSetShader _ _)
    | with_reducible refine sameFaults_trans ?_ (sameFaults_VSSetShader _ _)

theorem sameFaults_RenderSceneFromCamera (s : SceneState α) :
    SameFaults s (RenderSceneFromCamera s) := by
  unfold RenderSceneFromCamera
  simp only []
  refine forLoop_invariant (fun t => SameFaults s t) _ _ _ ?_ _ ?_
  · intro x t ht
    exact sameFaults_trans ht (sameFaults_Draw _ _ _ _)
  repeat
    first
    | with_reducible exact sameFaults_refl _
    | with_reducible refine sameFaults_trans ?_ (sameFaults_Draw _ _ _ _)
    | with_reducible refine sameFaults_trans ?_ (sameFaults_PSSetShader _ _)
    | with_reducible refine sameFaults_trans ?_ (sameFaults_VSSetShader _ _)
    | with_reducible refine sameFaults_trans ?_ (sameFaults_PSSetShaderResources _ _ _)

/-- A frame logs no out-of-range access when every Polygon-mode entry is at a position
below 4, the parameter list is at least as long as the effect list, and three more
records follow the position of every `Bloom1` entry. -/
theorem sameFaults_RenderScene (M : Env α) (frameTime : α) (s : SceneState α)
    (hpoly : ∀ k e, s.gPostProcessList[k]? = some e → e.mode = .Polygon → k < 4)
    (hlen : s.gPostProcessList.length ≤ s.gConstantsList.length)
    (hbloom : ∀ k e, s.gPostProcessList[k]? = some e → e.process = .Bloom1 →
      k + 3 < s.gConstantsList.length) :
    SameFaults s (RenderScene M frameTime s) := by
  unfold RenderScene
  simp only []
  have a1 := sameFaults_OMSetRenderTargets s none
  have a2 := sameFaults_trans a1
    (sameFaults_RenderDepthBufferFromCamera (s.OMSetRenderTargets none))
  have a3 : SameFaults s
      (if (RenderDepthBufferFromCamera (s.OMSetRenderTargets none)).gPostProcessList.length ≠ 0
       then (RenderDepthBufferFromCamera (s.OMSetRenderTargets none)).OMSetRenderTargets
          (some .gSceneRenderTarget)
       else (RenderDepthBufferFromCamera (s.OMSetRenderTargets none)).OMSetRenderTargets
          (some .gBackBufferRenderTarget)) := by
    split
    · exact sameFaults_trans a2 (sameFaults_OMSetRenderTargets _ _)
    · exact sameFaults_trans a2 (sameFaults_OMSetRenderTargets _ _)
  have a4 := sameFaults_trans a3 (sameFaults_PSSetShaderResources _ 2 (some .gDepthShaderView))
  have a5 := sameFaults_trans a4 (sameFaults_RenderSceneFromCamera _)
  have a6 := sameFaults_trans a5
    (sameFaults_modifyPP _ (fun pp => { pp with IsFullScreen := false }))
  have a7 := sameFaults_trans a6 (sameFaults_polygonSweep M frameTime _
    (by rw [a6.1]; exact hpoly) (by rw [a6.1, a6.2.1]; exact hlen))
  have a8 := sameFaults_trans a7
    (sameFaults_modifyPP _ (fun pp => { pp with IsFullScreen := true }))
  have a9 := sameFaults_trans a8 (sameFaults_fullscreenSweep M frameTime _
    (by rw [a8.1, a8.2.1]; exact hlen))
  have a10 := sameFaults_trans a9 (sameFaults_bloomSweep M frameTime _
    (by rw [a9.1, a9.2.1]; exact hbloom))
  have a11 := sameFaults_trans a10
    (sameFaults_OMSetRenderTargets _ (some .gBackBufferRenderTarget))
  exact sameFaults_trans a11 (sameFaults_PSSetShaderResources _ 0 none)

theorem windowsThenFullscreen_append {l : List ProcessAndMode} (h : WindowsThenFullscreen l)
    (p : PostProcess) : WindowsThenFullscreen (l ++ [⟨p, .Fullscreen⟩]) := by
  obtain ⟨rest, hl, hr⟩ := h
  refine ⟨rest ++ [⟨p, .Fullscreen⟩], by rw [hl, List.append_assoc], ?_⟩
  intro e he
  rcases List.mem_append.mp he with h1 | h1
  · exact hr e h1
  · rw [List.mem_singleton.mp h1]

/-- `UpdateScene` keeps the effect list of the shape four windows, then Fullscreen-mode
entries. -/
theorem UpdateScene_shape (KeyHit : KeyCode → Bool) (s : SceneState α)
    (h : WindowsThenFullscreen s.gPostProcessList) :
    WindowsThenFullscreen (UpdateScene KeyHit s).gPostProcessList := by
  unfold UpdateScene
  by_cases h0 : KeyHit .Key_1 = true
  · rw [if_pos h0]
    simp only [pushProcess_list, pushConstants_list, modifyPP_list]
    repeat
      first
      | exact h
      | refine windowsThenFullscreen_append ?_ _
  rw [if_neg h0]
  by_cases h1 : KeyHit .Key_2 = true
  · rw [if_pos h1]
    simp only [pushProcess_list, pushConstants_list, modifyPP_list]
    repeat
      first
      | exact h
      | refine windowsThenFullscreen_append ?_ _
  rw [if_neg h1]
  by_cases h2 : KeyHit .Key_3 = true
  · rw [if_pos h2]
    simp only [pushProcess_list, pushConstants_list, modifyPP_list]
    repeat
      first
      | exact h
      | refine windowsThenFullscreen_append ?_ _
  rw [if_neg h2]
  by_cases h3 : KeyHit .Key_4 = true
  · rw [if_pos h3]
    simp only [pushProcess_list, pushConstants_list, modifyPP_list]
    repeat
      first
      | exact h
      | refine windowsThenFullscreen_append ?_ _
  rw [if_neg h3]
  by_cases h4 : KeyHit .Key_5 = true
  · rw [if_pos h4]
    simp only [pushProcess_list, pushConstants_list, modifyPP_list]
    repeat
      first
      | exact h
      | refine windowsThenFullscreen_append ?_ _
  rw [if_neg h4]
  by_cases h5 : KeyHit .Key_6 = true
  · rw [if_pos h5]
    simp only [pushProcess_list, pushConstants_list, modifyPP_list]
    repeat
      first
      | exact h
      | refine windowsThenFullscreen_append ?_ _
  rw [if_neg h5]
  by_cases h6 : KeyHit .Key_7 = true
  · rw [if_pos h6]
    simp only [pushProcess_list, pushConstants_list, modifyPP_list]
    repeat
      first
      | exact h
      | refine windowsThenFullscreen_append ?_ _
  rw [if_neg h6]
  by_cases h7 : KeyHit .Key_8 = true
  · rw [if_pos h7]
    simp only [pushProcess_list, pushConstants_list, modifyPP_list]
    repeat
      first
      | exact h
      | refine windowsThenFullscreen_append ?_ _
  rw [if_neg h7]
  by_cases h8 : KeyHit .Key_I = true
  · rw [if_pos h8]
    simp only [pushProcess_list, pushConstants_list, modifyPP_list]
    repeat
      first
      | exact h
      | refine windowsThenFullscreen_append ?_ _
  rw [if_neg h8]
  by_cases h9 : KeyHit .Key_N = true
  · rw [if_pos h9]
    simp only [pushProcess_list, pushConstants_list, modifyPP_list]
    repeat
      first
      | exact h
      | refine windowsThenFullscreen_append ?_ _
  rw [if_neg h9]
  by_cases h10 : KeyHit .Key_T = true
  · rw [if_pos h10]
    simp only [pushProcess_list, pushConstants_list, modifyPP_list]
    repeat
      first
      | exact h
      | refine windowsThenFullscreen_append ?_ _
  rw [if_neg h10]
  by_cases h11 : KeyHit .Key_R = true
  · rw [if_pos h11]
    simp only [pushProcess_list, pushConstants_list, modifyPP_list]
    repeat
      first
      | exact h
      | refine windowsThenFullscreen_append ?_ _
  rw [if_neg h11]
  by_cases h12 : KeyHit .Key_G = true
  · rw [if_pos h12]
    simp only [pushProcess_list, pushConstants_list, modifyPP_list]
    repeat
      first
      | exact h
      | refine windowsThenFullscreen_append ?_ _
  rw [if_neg h12]
  by_cases h13 : KeyHit .Key_B = true
  · rw [if_pos h13]
    simp only [pushProcess_list, pushConstants_list, modifyPP_list]
    repeat
      first
      | exact h
      | refine windowsThenFullscreen_append ?_ _
  rw [if_neg h13]
  by_cases h14 : KeyHit .Key_0 = true
  · rw [if_pos h14]
    exact ⟨[], rfl, fun e he => absurd he (List.not_mem_nil e)⟩
  rw [if_neg h14]
  exact h

/-- In every reachable state the effect list is the four windows followed by
Fullscreen-mode entries, and the parameter list is as long as the effect list plus
three records per `Bloom1` entry. -/
theorem reachable_shape (M : Env α) (s : SceneState α) (h : Reachable M s) :
    WindowsThenFullscreen s.gPostProcessList ∧
    s.gConstantsList.length
      = s.gPostProcessList.length + 3 * bloomCount s.gPostProcessList := by
  induction h with
  | init s hc hl =>
    constructor
    · refine ⟨[], ?_, fun e he => absurd he (List.not_mem_nil e)⟩
      simp only [InitScene, modifyPP_list, hl]
      rfl
    · simp only [InitScene, modifyPP_list, modifyPP_constants, hc, hl]
      rfl
  | update KeyHit s _ ih =>
    exact ⟨UpdateScene_shape KeyHit s ih.1, UpdateScene_lengths KeyHit s ih.2⟩
  | render frameTime s _ ih =>
    obtain ⟨_, _, _, _, h1, h2⟩ := runs_RenderScene M frameTime s
    rw [h1, h2]
    exact ih

theorem windows_polygon_lt {l : List ProcessAndMode} (h : WindowsThenFullscreen l)
    (k : Nat) (e : ProcessAndMode) (hk : l[k]? = some e) (hm : e.mode = .Polygon) : k < 4 := by
  obtain ⟨rest, hl, hr⟩ := h
  by_contra hge
  have h4 : windowEntries.length ≤ k := by
    have : windowEntries.length = 4 := rfl
    omega
  rw [hl, List.getElem?_append_right h4] at hk
  have hf := hr e (List.getElem?_mem hk)
  rw [hm] at hf
  exact absurd hf (by decide)

theorem bloomCount_pos {l : List ProcessAndMode} (k : Nat) (e : ProcessAndMode)
    (hk : l[k]? = some e) (hb : e.process = .Bloom1) : 1 ≤ bloomCount l := by
  unfold bloomCount
  exact List.countP_pos_iff.mpr ⟨e, List.getElem?_mem hk, by simp [hb]⟩

/-- A frame rendered from a reachable state logs no out-of-range access. -/
theorem reachable_frame_faults (M : Env α) (s : SceneState α) (h : Reachable M s)
    (frameTime : α) : faultsSince s (RenderScene M frameTime s) = [] := by
  obtain ⟨hw, hlen⟩ := reachable_shape M s h
  have hsame := sameFaults_RenderScene M frameTime s
    (fun k e hk hm => windows_polygon_lt hw k e hk hm) (by omega)
    (fun k e hk hb => by
      have h1 := bloomCount_pos k e hk hb
      have h2 : k < s.gPostProcessList.length := (List.getElem?_eq_some_iff.1 hk).1
      omega)
  unfold faultsSince
  rw [hsame.2.2]
  exact List.drop_length _

/-- Claim C24. In every state reachable from `InitScene` by `UpdateScene` key events (and
rendered frames) the effect list is the four Polygon-mode entries NightVision,
Underwater, Inverted, HueTint at the positions 0 to 3 followed only by Fullscreen-mode
entries; so the list is never empty, holds no Area-mode entry, every Polygon-mode entry
is at a position below 4, and no lookup `points[i]` of a frame is out of range. -/
theorem reachable_list_shape (M : Env α) (s : SceneState α) (h : Reachable M s) :
    (∃ rest, s.gPostProcessList
        = [⟨.NightVision, .Polygon⟩, ⟨.Underwater, .Polygon⟩, ⟨.Inverted, .Polygon⟩,
           ⟨.HueTint, .Polygon⟩] ++ rest ∧ ∀ e ∈ rest, e.mode = .Fullscreen) ∧
    s.gPostProcessList ≠ [] ∧
    (∀ e ∈ s.gPostProcessList, e.mode ≠ .Area) ∧
    (∀ (k : Nat) (e : ProcessAndMode), s.gPostProcessList[k]? = some e →
      e.mode = .Polygon → k < 4) ∧
    (∀ frameTime : α, ∀ f ∈ faultsSince s (RenderScene M frameTime s),
      ∀ i : Int, f ≠ Fault.points i) := by
  obtain ⟨hw, _⟩ := reachable_shape M s h
  refine ⟨hw, ?_, ?_, fun k e hk hm => windows_polygon_lt hw k e hk hm, ?_⟩
  · obtain ⟨rest, hl, _⟩ := hw
    rw [hl]
    exact List.cons_ne_nil _ _
  · obtain ⟨rest, hl, hr⟩ := hw
    intro e he
    rw [hl] at he
    have hwin : ∀ w ∈ windowEntries, w.mode ≠ .Area := by decide
    rcases List.mem_append.mp he with h1 | h1
    · exact hwin e h1
    · rw [hr e h1]
      decide
  · intro frameTime f hf
    rw [reachable_frame_faults M s h frameTime] at hf
    exact absurd hf (List.not_mem_nil f)

/-- Witness of C24: the state after `InitScene`, the B key and the 1 key. -/
theorem reachable_list_shape_witness :
    Reachable Env.sample bloomThenHue ∧ bloomThenHue.gPostProcessList ≠ [] ∧
    ∀ (k : Nat) (e : ProcessAndMode), bloomThenHue.gPostProcessList[k]? = some e →
      e.mode = .Polygon → k < 4 :=
  ⟨Reachable.update _ _ (Reachable.update _ _ (Reachable.init _ rfl rfl)),
   (reachable_list_shape Env.sample bloomThenHue
    (Reachable.update _ _ (Reachable.update _ _ (Reachable.init _ rfl rfl)))).2.1,
   (reachable_list_shape Env.sample bloomThenHue
    (Reachable.update _ _ (Reachable.update _ _ (Reachable.init _ rfl rfl)))).2.2.2.1⟩

/-- Claim C25. In every state reachable from `InitScene` by `UpdateScene` key events (and
rendered frames) the parameter list is as long as the effect list plus three records
per `Bloom1` entry; so no lookup `gConstantsList[k]` of a frame is out of range, and for
a `Bloom1` entry at position `i` the index `i + 1`, at which the `BlurH` pass of its
expansion looks its strength up, is within the parameter list. -/
theorem reachable_lookups_in_bounds (M : Env α) (s : SceneState α) (h : Reachable M s) :
    s.gConstantsList.length
      = s.gPostProcessList.length + 3 * bloomCount s.gPostProcessList ∧
    (∀ frameTime : α, ∀ f ∈ faultsSince s (RenderScene M frameTime s),
      ∀ k : Int, f ≠ Fault.gConstantsList k) ∧
    (∀ (i : Nat) (e : ProcessAndMode), s.gPostProcessList[i]? = some e →
      e.process = .Bloom1 → inRange ((i : Int) + 1) s.gConstantsList.length = true) ∧
    (∀ (frameTime : α) (i : Nat) (e : ProcessAndMode), s.gPostProcessList[i]? = some e →
      e.process = .Bloom1 →
      (RenderScene.bloomExpansion M frameTime i .Bloom1 s).faults = s.faults) := by
  obtain ⟨_, hlen⟩ := reachable_shape M s h
  have hin : ∀ (i : Nat) (e : ProcessAndMode), s.gPostProcessList[i]? = some e →
      e.process = .Bloom1 → i + 3 < s.gConstantsList.length := by
    intro i e hi hb
    have h1 := bloomCount_pos i e hi hb
    have h2 : i < s.gPostProcessList.length := (List.getElem?_eq_some_iff.1 hi).1
    omega
  refine ⟨hlen, ?_, ?_, ?_⟩
  · intro frameTime f hf
    rw [reachable_frame_faults M s h frameTime] at hf
    exact absurd hf (List.not_mem_nil f)
  · intro i e hi hb
    have h3 := hin i e hi hb
    exact inRange_of_bounds (by omega) (by omega)
  · intro frameTime i e hi hb
    have h3 := hin i e hi hb
    exact (sameFaults_bloomExpansion M frameTime i .Bloom1 s
      (inRange_of_bounds (by omega) (by omega)) (inRange_of_bounds (by omega) (by omega))
      (inRange_of_bounds (by omega) (by omega))
      (inRange_of_bounds (by omega) (by omega))).2.2

/-- Witness of C25: the state after `InitScene` and the B key, whose bloom entry is at
position 4 of five entries and whose parameter list has eight records. -/
theorem reachable_lookups_in_bounds_witness :
    Reachable Env.sample afterQuickAdd ∧
    afterQuickAdd.gPostProcessList[4]? = some ⟨.Bloom1, .Fullscreen⟩ ∧
    inRange (((4 : Nat) : Int) + 1) afterQuickAdd.gConstantsList.length = true ∧
    (RenderScene.bloomExpansion Env.sample 0 ((4 : Nat) : Int) .Bloom1 afterQuickAdd).faults
      = afterQuickAdd.faults :=
  ⟨Reachable.update _ _ (Reachable.init _ rfl rfl), by decide,
   (reachable_lookups_in_bounds Env.sample afterQuickAdd
    (Reachable.update _ _ (Reachable.init _ rfl rfl))).2.2.1 4 ⟨.Bloom1, .Fullscreen⟩
      (by decide) rfl,
   (reachable_lookups_in_bounds Env.sample afterQuickAdd
    (Reachable.update _ _ (Reachable.init _ rfl rfl))).2.2.2 0 4 ⟨.Bloom1, .Fullscreen⟩
      (by decide) rfl⟩

theorem chain_getElem? {β : Type} {R : β → β → Prop} {l : List β} (h : List.Chain' R l)
    (k : Nat) (p q : β) (hp : l[k]? = some p) (hq : l[k + 1]? = some q) : R p q := by
  induction l generalizing k with
  | nil => simp at hp
  | cons x t ih =>
    cases k with
    | zero =>
      cases t with
      | nil => simp at hq
      | cons y t' =>
        simp only [List.getElem?_cons_zero, Option.some.injEq, zero_add,
          List.getElem?_cons_succ] at hp hq
        subst hp hq
        exact (List.chain'_cons.mp h).1
    | succ k =>
      simp only [List.getElem?_cons_succ] at hp hq
      exact ih h.tail k hp hq

/-- The head of the entry passes from position `a` is a full-screen pass of index `a`. -/
theorem entryPasses_head (a : Nat) (l : List ProcessAndMode) :
    ∀ y ∈ (entryPasses a l).head?, ∃ pp, y = fullScreenPass pp a := by
  intro y hy
  cases l with
  | nil => simp [entryPasses] at hy
  | cons e l =>
    unfold entryPasses at hy
    split at hy
    · simp only [List.cons_append, List.head?_cons, Option.mem_def, Option.some.injEq] at hy
      exact ⟨.Copy, hy.symm⟩
    · simp only [List.cons_append, List.head?_cons, Option.mem_def, Option.some.injEq] at hy
      exact ⟨e.process, hy.symm⟩

theorem chainsOrPatches_next (c : Caller) (pp pp' : PostProcess) (a : Nat) :
    ChainsOrPatches ⟨c, pp, (a : Int), some (pingRead a), pingWrite a⟩
      (fullScreenPass pp' ((a + 1 : Nat) : Int)) := by
  refine ⟨fun _ => ?_, fun h => absurd h (by simp [fullScreenPass])⟩
  simp only [fullScreenPass]
  push_cast
  rw [pingRead_succ]

theorem chainsOrPatches_patch (pp : PostProcess) (a : Nat) :
    ChainsOrPatches (fullScreenPass .Copy (a : Int)) (polygonPass pp (a : Int)) := by
  refine ⟨fun h => absurd rfl h, fun _ => ⟨rfl, rfl, rfl, ?_⟩⟩
  simp only [polygonPass, fullScreenPass, ne_eq, Option.some.injEq]
  exact pingRead_ne_pingWrite _

/-- The entry passes satisfy `ChainsOrPatches` pass after pass. -/
theorem entryPasses_chain (a : Nat) (l : List ProcessAndMode) :
    List.Chain' ChainsOrPatches (entryPasses a l) := by
  induction l generalizing a with
  | nil => exact List.chain'_nil
  | cons e l ih =>
    have hhead := entryPasses_head (a + 1) l
    unfold entryPasses
    split
    · refine List.Chain'.append ?_ (ih (a + 1)) ?_
      · exact List.chain'_pair.mpr (chainsOrPatches_patch e.process a)
      · intro x hx y hy
        obtain ⟨pp', rfl⟩ := hhead y hy
        simp only [List.getLast?_cons_cons, List.getLast?_singleton, Option.mem_def,
          Option.some.injEq] at hx
        subst hx
        exact chainsOrPatches_next _ _ pp' a
    · refine List.Chain'.append (List.chain'_singleton _) (ih (a + 1)) ?_
      intro x hx y hy
      obtain ⟨pp', rfl⟩ := hhead y hy
      simp only [List.getLast?_singleton, Option.mem_def, Option.some.injEq] at hx
      subst hx
      exact chainsOrPatches_next _ _ pp' a

/-- For Fullscreen-mode entries other than `Bloom1` the three sweeps from position `a`
are the entry passes. -/
theorem sweeps_fullscreen_eq (F : List ProcessAndMode)
    (hF : ∀ e ∈ F, e.mode = .Fullscreen ∧ e.process ≠ .Bloom1) (a : Nat) :
    ((F.enumFrom a).filter (fun p => p.2.mode = .Polygon)).flatMap
        (fun p => [fullScreenPass .Copy p.1, polygonPass p.2.process p.1]) = [] ∧
    ((F.enumFrom a).filter (fun p => p.2.mode = .Fullscreen ∧ p.2.process ≠ .Bloom1)).flatMap
        (fun p => [fullScreenPass p.2.process p.1]) = entryPasses a F ∧
    ((F.enumFrom a).filter (fun p => p.2.process = .Bloom1)).flatMap
        (fun p => bloomPasses p.1) = [] := by
  induction F generalizing a with
  | nil => exact ⟨rfl, rfl, rfl⟩
  | cons e F ih =>
    obtain ⟨hm, hb⟩ := hF e (List.mem_cons_self _ _)
    obtain ⟨i1, i2, i3⟩ := ih (fun x hx => hF x (List.mem_cons_of_mem _ hx)) (a + 1)
    refine ⟨?_, ?_, ?_⟩
    · rw [List.enumFrom_cons, List.filter_cons_of_neg (by simp [hm])]
      exact i1
    · rw [List.enumFrom_cons, List.filter_cons_of_pos (by simp [hm, hb]), List.flatMap_cons, i2]
      simp [entryPasses, hm]
    · rw [List.enumFrom_cons, List.filter_cons_of_neg (by simp [hb])]
      exact i3

/-- For a list without `Bloom1` and Area-mode entries whose Polygon-mode entries come
first, the three sweeps from position `a` are the entry passes. -/
theorem sweeps_eq_entryPasses (P F : List ProcessAndMode)
    (hP : ∀ e ∈ P, e.mode = .Polygon ∧ e.process ≠ .Bloom1)
    (hF : ∀ e ∈ F, e.mode = .Fullscreen ∧ e.process ≠ .Bloom1) (a : Nat) :
    (((P ++ F).enumFrom a).filter (fun p => p.2.mode = .Polygon)).flatMap
        (fun p => [fullScreenPass .Copy p.1, polygonPass p.2.process p.1])
      ++ (((P ++ F).enumFrom a).filter
            (fun p => p.2.mode = .Fullscreen ∧ p.2.process ≠ .Bloom1)).flatMap
          (fun p => [fullScreenPass p.2.process p.1])
      ++ (((P ++ F).enumFrom a).filter (fun p => p.2.process = .Bloom1)).flatMap
          (fun p => bloomPasses p.1)
      = entryPasses a (P ++ F) := by
  induction P generalizing a with
  | nil =>
    obtain ⟨i1, i2, i3⟩ := sweeps_fullscreen_eq F hF a
    rw [List.nil_append, i1, i2, i3]
    simp
  | cons e P ih =>
    obtain ⟨hm, hb⟩ := hP e (List.mem_cons_self _ _)
    have i := ih (fun x hx => hP x (List.mem_cons_of_mem _ hx)) (a + 1)
    rw [List.cons_append, List.enumFrom_cons, List.filter_cons_of_pos (by simp [hm]),
      List.filter_cons_of_neg (by simp [hm]), List.filter_cons_of_neg (by simp [hb]),
      List.flatMap_cons]
    simp only [entryPasses, hm, if_true, List.append_assoc, List.cons_append,
      List.nil_append] at i ⊢
    rw [i]

theorem framePasses_eq_entryPasses (P F : List ProcessAndMode)
    (hP : ∀ e ∈ P, e.mode = .Polygon ∧ e.process ≠ .Bloom1)
    (hF : ∀ e ∈ F, e.mode = .Fullscreen ∧ e.process ≠ .Bloom1) :
    framePasses (P ++ F) = entryPasses 0 (P ++ F) :=
  sweeps_eq_entryPasses P F hP hF 0

/-- With a non-empty effect list the frame starts with the four draws of the depth
pre-pass and the seven draws of the scene, the scene being rendered into
`gSceneRenderTarget`. -/
theorem RenderScene_scene_target (M : Env α) (frameTime : α) (s : SceneState α)
    (hne : s.gPostProcessList ≠ []) :
    ((drawsSince s (RenderScene M frameTime s)).take 11).map
        (fun d => (d.caller, d.renderTarget))
      = List.replicate 4 (Caller.RenderDepthBufferFromCamera, none)
        ++ List.replicate 7
            (Caller.RenderSceneFromCamera, some RenderTargetView.gSceneRenderTarget) := by
  have hlen : (RenderDepthBufferFromCamera (s.OMSetRenderTargets none)).gPostProcessList.length
      ≠ 0 := by
    rw [runs_list_eq (runs_RenderDepthBufferFromCamera (s.OMSetRenderTargets none))]
    exact fun h => hne (List.length_eq_zero.mp h)
  unfold RenderScene
  simp only []
  rw [if_pos hlen]
  generalize ht0 : RenderSceneFromCamera
    (((RenderDepthBufferFromCamera (s.OMSetRenderTargets none)).OMSetRenderTargets
      (some .gSceneRenderTarget)).PSSetShaderResources 2 (some .gDepthShaderView)) = t0
  have r0 : Runs s t0 [] := by
    rw [← ht0]
    exact runs_step (runs_step (runs_step (runs_step (runs_OMSetRenderTargets s none)
      (runs_RenderDepthBufferFromCamera _)) (runs_OMSetRenderTargets _ _))
      (runs_PSSetShaderResources _ 2 (some .gDepthShaderView))) (runs_RenderSceneFromCamera _)
  have hmap : (drawsSince s t0).map (fun d => (d.caller, d.renderTarget))
      = List.replicate 4 (Caller.RenderDepthBufferFromCamera, none)
        ++ List.replicate 7
            (Caller.RenderSceneFromCamera, some RenderTargetView.gSceneRenderTarget) := by
    rw [← ht0]
    simp [drawsSince, RenderDepthBufferFromCamera, RenderSceneFromCamera, forLoop,
      SceneState.Draw, SceneState.OMSetRenderTargets, SceneState.PSSetShaderResources,
      SceneState.VSSetShader, SceneState.PSSetShader, List.range_succ, List.replicate]
  obtain ⟨pre, hp1, _⟩ := r0
  rw [drawsSince_of_append hp1] at hmap
  have hp2 : pre.length = 11 := by
    have := congrArg List.length hmap
    simpa using this
  have a6 := runs_modifyPP t0 (fun pp => { pp with IsFullScreen := false })
  have a7 := runs_trans a6 (runs_polygonSweep M frameTime _)
  have a8 := runs_trans a7 (runs_modifyPP _ (fun pp => { pp with IsFullScreen := true }))
  have a9 := runs_trans a8 (runs_fullscreenSweep M frameTime _)
  have a10 := runs_trans a9 (runs_bloomSweep M frameTime _)
  have a11 := runs_trans a10 (runs_OMSetRenderTargets _ (some .gBackBufferRenderTarget))
  have a12 := runs_trans a11 (runs_PSSetShaderResources _ 0 none)
  obtain ⟨ds, hd, _⟩ := a12
  unfold drawsSince
  rw [hd, hp1, List.append_assoc, List.drop_left, List.take_left' hp2]
  exact hmap

/-- Claim C26, amended. For every effect list without `Bloom1` and Area-mode entries
whose Polygon-mode entries all precede its Fullscreen-mode entries, the scene is
rendered into `gSceneRenderTarget`, the first pass of the frame reads that surface
(`gSceneTexture`), every later pass other than the patch pass of a Polygon-mode entry
reads the surface written by the pass executed immediately before it, and the patch
pass of a Polygon-mode entry follows the copy pass of that entry and reads and writes
the surfaces that copy pass read and wrote (so it does not read what the copy wrote). -/
theorem bloom_free_chain (M : Env α) (frameTime : α) (s : SceneState α)
    (P F : List ProcessAndMode) (hl : s.gPostProcessList = P ++ F)
    (hP : ∀ e ∈ P, e.mode = .Polygon ∧ e.process ≠ .Bloom1)
    (hF : ∀ e ∈ F, e.mode = .Fullscreen ∧ e.process ≠ .Bloom1) :
    (P ++ F ≠ [] →
      ((drawsSince s (RenderScene M frameTime s)).take 11).map
          (fun d => (d.caller, d.renderTarget))
        = List.replicate 4 (Caller.RenderDepthBufferFromCamera, none)
          ++ List.replicate 7
              (Caller.RenderSceneFromCamera, some RenderTargetView.gSceneRenderTarget)) ∧
    (∀ p, (passesOf (drawsSince s (RenderScene M frameTime s)))[0]? = some p →
      p.read = some RenderTargetView.gSceneRenderTarget.texture) ∧
    (∀ k p q, (passesOf (drawsSince s (RenderScene M frameTime s)))[k]? = some p →
      (passesOf (drawsSince s (RenderScene M frameTime s)))[k + 1]? = some q →
      q.caller ≠ .PolygonPostProcess → q.read = some p.write) ∧
    (∀ k p q, (passesOf (drawsSince s (RenderScene M frameTime s)))[k]? = some p →
      (passesOf (drawsSince s (RenderScene M frameTime s)))[k + 1]? = some q →
      q.caller = .PolygonPostProcess →
      p = fullScreenPass .Copy q.index ∧ q.read = p.read ∧ q.write = p.write ∧
      q.read ≠ some p.write) := by
  rw [passesOf_drawsSince (runs_RenderScene M frameTime s), hl,
    framePasses_eq_entryPasses P F hP hF]
  have hchain := entryPasses_chain 0 (P ++ F)
  refine ⟨fun hne => RenderScene_scene_target M frameTime s (by rw [hl]; exact hne), ?_,
    fun k p q hp hq hc => (chain_getElem? hchain k p q hp hq).1 hc,
    fun k p q hp hq hc => (chain_getElem? hchain k p q hp hq).2 hc⟩
  intro p hp
  obtain ⟨pp, rfl⟩ := entryPasses_head 0 (P ++ F) p (by
    rw [← List.head?_eq_getElem?] at hp
    exact hp)
  rfl

/-- Witness of C26: the four windows followed by a full-screen HueTint entry. -/
theorem bloom_free_chain_witness :
    windowsThenHue.gPostProcessList = windowEntries ++ [⟨.HueTint, .Fullscreen⟩] ∧
    (∀ e ∈ windowEntries, e.mode = .Polygon ∧ e.process ≠ .Bloom1) ∧
    (∀ e ∈ [(⟨.HueTint, .Fullscreen⟩ : ProcessAndMode)],
      e.mode = .Fullscreen ∧ e.process ≠ .Bloom1) ∧
    windowEntries ++ [(⟨.HueTint, .Fullscreen⟩ : ProcessAndMode)] ≠ [] ∧
    (passesOf (drawsSince windowsThenHue (RenderScene Env.sample 0 windowsThenHue)))[0]?
      = some (fullScreenPass .Copy 0) ∧
    (passesOf (drawsSince windowsThenHue (RenderScene Env.sample 0 windowsThenHue)))[0 + 1]?
      = some (polygonPass .NightVision 0) ∧
    (fullScreenPass .Copy 0).read = some RenderTargetView.gSceneRenderTarget.texture ∧
    (polygonPass .NightVision 0).read = (fullScreenPass .Copy 0).read ∧
    (passesOf (drawsSince windowsThenHue (RenderScene Env.sample 0 windowsThenHue)))[7]?
      = some (polygonPass .HueTint 3) ∧
    (passesOf (drawsSince windowsThenHue (RenderScene Env.sample 0 windowsThenHue)))[7 + 1]?
      = some (fullScreenPass .HueTint 4) ∧
    (fullScreenPass .HueTint 4).caller ≠ .PolygonPostProcess ∧
    (fullScreenPass .HueTint 4).read = some (polygonPass .HueTint 3).write := by
  have hps : passesOf (drawsSince windowsThenHue (RenderScene Env.sample 0 windowsThenHue))
      = framePasses (windowEntries ++ [⟨.HueTint, .Fullscreen⟩]) :=
    passesOf_drawsSince (runs_RenderScene Env.sample 0 windowsThenHue)
  have h0 : (passesOf (drawsSince windowsThenHue
      (RenderScene Env.sample 0 windowsThenHue)))[0]? = some (fullScreenPass .Copy 0) := by
    rw [hps]
    decide
  have h1 : (passesOf (drawsSince windowsThenHue
      (RenderScene Env.sample 0 windowsThenHue)))[0 + 1]?
      = some (polygonPass .NightVision 0) := by
    rw [hps]
    decide
  have h7 : (passesOf (drawsSince windowsThenHue
      (RenderScene Env.sample 0 windowsThenHue)))[7]? = some (polygonPass .HueTint 3) := by
    rw [hps]
    decide
  have h8 : (passesOf (drawsSince windowsThenHue
      (RenderScene Env.sample 0 windowsThenHue)))[7 + 1]?
      = some (fullScreenPass .HueTint 4) := by
    rw [hps]
    decide
  have hthm := bloom_free_chain Env.sample 0 windowsThenHue windowEntries
    [⟨.HueTint, .Fullscreen⟩] rfl (by decide) (by decide)
  exact ⟨rfl, by decide, by decide, by decide, h0, h1, hthm.2.1 _ h0,
    (hthm.2.2.2 0 _ _ h0 h1 rfl).2.1, h7, h8, by decide,
    hthm.2.2.1 7 _ _ h7 h8 (by decide)⟩

/-- Claim C26 as stated fails on the list of `InitScene`, the four windows: the second
pass of the frame, the patch pass of the first window, reads `gSceneTexture` although
the pass before it, the copy pass of that window, wrote `gSceneTextureTwo`. -/
theorem bloom_free_chain_counterexample :
    ¬ chainsEveryPass (passesOf (drawsSince (InitScene (SceneState.start : SceneState ℚ))
        (RenderScene Env.sample 0 (InitScene SceneState.start)))) := by
  have hps : passesOf (drawsSince (InitScene (SceneState.start : SceneState ℚ))
      (RenderScene Env.sample 0 (InitScene SceneState.start))) = framePasses windowEntries :=
    passesOf_drawsSince (runs_RenderScene Env.sample 0 (InitScene SceneState.start))
  rw [hps]
  intro h
  have := h 0 (fullScreenPass .Copy 0) (polygonPass .NightVision 0) (by decide) (by decide)
  revert this
  decide

theorem advances_same {t : α} {s s' : SceneState α}
    (h1 : s'.gPostProcessList = s.gPostProcessList)
    (h2 : s'.gPostProcessingConstants.heatHazeTimer = s.gPostProcessingConstants.heatHazeTimer)
    (h3 : s'.spiral = s.spiral) : Advances t s s' 0 0 := by
  refine ⟨h1, ?_, ?_⟩
  · rw [h2]
    simp
  · rw [h3]
    simp

theorem advances_refl (t : α) (s : SceneState α) : Advances t s s 0 0 :=
  advances_same rfl rfl rfl

theorem advances_trans {t : α} {s u v : SceneState α} {a b c d : Nat}
    (h1 : Advances t s u a b) (h2 : Advances t u v c d) : Advances t s v (a + c) (b + d) := by
  obtain ⟨a1, a2, a3⟩ := h1
  obtain ⟨b1, b2, b3⟩ := h2
  refine ⟨b1.trans a1, ?_, ?_⟩
  · rw [b2, a2]
    push_cast
    ring
  · rw [b3, a3]
    push_cast
    ring

theorem advances_step {t : α} {s u v : SceneState α} {a b : Nat}
    (h1 : Advances t s u a b) (h2 : Advances t u v 0 0) : Advances t s v a b := by
  simpa using advances_trans h1 h2

theorem advances_touchConstants (t : α) (s : SceneState α) (i : Int) :
    Advances t s (s.touchConstants i) 0 0 := by
  unfold SceneState.touchConstants
  split <;> exact advances_same rfl rfl rfl

theorem advances_modifyConstants (t : α) (s : SceneState α) (i : Int)
    (f : Constants α → Constants α) : Advances t s (s.modifyConstants i f) 0 0 := by
  unfold SceneState.modifyConstants
  split <;> exact advances_same rfl rfl rfl

theorem advances_touchPoints (t : α) (s : SceneState α) (i : Int) :
    Advances t s (s.touchPoints i) 0 0 := by
  unfold SceneState.touchPoints
  split <;> exact advances_same rfl rfl rfl

theorem advances_selectPingPong (t : α) (s : SceneState α) (i : Int) :
    Advances t s (s.selectPingPong i) 0 0 := by
  unfold SceneState.selectPingPong
  simp only []
  split <;> exact advances_same rfl rfl rfl

theorem advances_PSSetShader (t : α) (s : SceneState α) (ps : PixelShader) :
    Advances t s (s.PSSetShader ps) 0 0 := advances_same rfl rfl rfl

theorem advances_VSSetShader (t : α) (s : SceneState α) (vs : VertexShader) :
    Advances t s (s.VSSetShader vs) 0 0 := advances_same rfl rfl rfl

theorem advances_OMSetRenderTargets (t : α) (s : SceneState α)
    (rt : Option RenderTargetView) : Advances t s (s.OMSetRenderTargets rt) 0 0 :=
  advances_same rfl rfl rfl

theorem advances_Draw (t : α) (s : SceneState α) (c : Caller) (pp : PostProcess) (i : Int) :
    Advances t s (s.Draw c pp i) 0 0 := advances_same rfl rfl rfl

theorem advances_PSSetShaderResources (t : α) (s : SceneState α) (slot : Nat)
    (srv : Option ShaderResourceView) : Advances t s (s.PSSetShaderResources slot srv) 0 0 := by
  unfold SceneState.PSSetShaderResources
  split <;> exact advances_same rfl rfl rfl

theorem advances_advanceRandom (t : α) (s : SceneState α) :
    Advances t s s.advanceRandom 0 0 := advances_same rfl rfl rfl

theorem advances_modifyPP (t : α) (s : SceneState α)
    (f : PostProcessingConstants α → PostProcessingConstants α)
    (hf : ∀ pp, (f pp).heatHazeTimer = pp.heatHazeTimer) :
    Advances t s (s.modifyPP f) 0 0 :=
  advances_same rfl (hf _) rfl

theorem advances_setCurrent (t : α) (s : SceneState α) (p : PostProcess) :
    Advances t s { s with gCurrentPostProcess := p } 0 0 := advances_same rfl rfl rfl

theorem advances_selectBlurH (t : α) (M : Env α) (i : Int) (s : SceneState α) :
    Advances t s (selectBlurH M i s) 0 0 := by
  have h1 : ∀ u : SceneState α, Advances t u (blurKernelOffsets u) 0 0 := by
    intro u
    unfold blurKernelOffsets
    simp only []
    refine forLoop_invariant (fun v : SceneState α => Advances t u v 0 0) _ _ _ ?_ _
      (advances_same rfl rfl rfl)
    intro x v hv
    exact advances_step hv (advances_same rfl rfl rfl)
  have h2 : ∀ r : SceneState α × α, Advances t r.1 (blurNormaliseLoop r) 0 0 := by
    intro r
    unfold blurNormaliseLoop
    refine forLoop_invariant (fun v : SceneState α => Advances t r.1 v 0 0) _ _ _ ?_ r.1
      (advances_refl t r.1)
    intro x v hv
    exact advances_step hv (advances_same rfl rfl rfl)
  have h3 : ∀ u : SceneState α, Advances t u (blurWeightLoop M u).1 0 0 := by
    intro u
    unfold blurWeightLoop
    simp only []
    refine forLoop_invariant (fun v : SceneState α × α => Advances t u v.1 0 0) _ _ _ ?_
      (u, (0 : α)) (advances_refl t u)
    intro x v hv
    exact advances_step hv (advances_same rfl rfl rfl)
  unfold selectBlurH
  refine advances_step ?_ (h1 _)
  refine advances_step ?_ (h2 _)
  refine advances_step ?_ (h3 _)
  refine advances_step ?_ (advances_same rfl rfl rfl)
  refine advances_step ?_ (advances_same rfl rfl rfl)
  refine advances_step ?_ (advances_touchConstants t _ i)
  exact advances_same rfl rfl rfl

/-- A selection advances the heat-haze timer once when its kind is HeatHaze and the
spiral phase once when its kind is Spiral. -/
theorem advances_select (M : Env α) (postProcess : PostProcess) (frameTime : α) (i : Int)
    (s : SceneState α) :
    Advances frameTime s (SelectPostProcessShaderAndTextures M postProcess frameTime i s)
      (kindHit .HeatHaze postProcess) (kindHit .Spiral postProcess) := by
  cases postProcess
  case BlurH => exact advances_selectBlurH frameTime M i s
  case HeatHaze =>
    refine ⟨rfl, ?_, ?_⟩
    · simp [SelectPostProcessShaderAndTextures, kindHit, SceneState.modifyPP,
        SceneState.PSSetShader]
    · simp [SelectPostProcessShaderAndTextures, kindHit, SceneState.modifyPP,
        SceneState.PSSetShader]
  case Spiral =>
    refine ⟨rfl, ?_, ?_⟩
    · simp [SelectPostProcessShaderAndTextures, kindHit, SceneState.modifyPP,
        SceneState.PSSetShader, SceneState.advanceSpiral]
    · simp [SelectPostProcessShaderAndTextures, kindHit, SceneState.modifyPP,
        SceneState.PSSetShader, SceneState.advanceSpiral]
  all_goals
    simp only [SelectPostProcessShaderAndTextures, kindHit, reduceCtorEq, if_false]
    repeat
      first
      | with_reducible exact advances_refl frameTime _
      | with_reducible refine advances_step ?_ (advances_touchConstants frameTime _ _)
      | with_reducible refine advances_step ?_ (advances_modifyConstants frameTime _ _ _)
      | with_reducible refine advances_step ?_ (advances_PSSetShader frameTime _ _)
      | with_reducible refine advances_step ?_ (advances_PSSetShaderResources frameTime _ _ _)
      | with_reducible refine advances_step ?_ (advances_advanceRandom frameTime _)
      | refine advances_step ?_ (advances_modifyPP frameTime _ _ (fun _ => rfl))

theorem advances_FullScreenPostProcess (M : Env α) (postProcess : PostProcess)
    (frameTime : α) (i : Int) (s : SceneState α) :
    Advances frameTime s (FullScreenPostProcess M postProcess frameTime i s)
      (kindHit .HeatHaze postProcess) (kindHit .Spiral postProcess) := by
  have e := advances_trans
    (advances_step (advances_VSSetShader frameTime s .g2DQuadVertexShader)
      (advances_selectPingPong frameTime _ i))
    (advances_select M postProcess frameTime i
      ((s.VSSetShader .g2DQuadVertexShader).selectPingPong i))
  rw [zero_add, zero_add] at e
  unfold FullScreenPostProcess
  simp only []
  generalize SelectPostProcessShaderAndTextures M postProcess frameTime i
    ((s.VSSetShader .g2DQuadVertexShader).selectPingPong i) = u at e
  exact advances_step e (advances_same rfl rfl rfl)

theorem advances_PolygonPostProcess (M : Env α) (postProcess : PostProcess)
    (quad : Fin 4 → CVector3 α) (frameTime : α) (i : Int) (s : SceneState α) :
    Advances frameTime s (PolygonPostProcess M postProcess quad frameTime i s)
      (kindHit .HeatHaze postProcess) (kindHit .Spiral postProcess) := by
  have c : Advances frameTime s (FullScreenPostProcess M .Copy frameTime i s) 0 0 :=
    advances_FullScreenPostProcess M .Copy frameTime i s
  have e := advances_trans (advances_step c (advances_selectPingPong frameTime _ i))
    (advances_select M postProcess frameTime i
      ((FullScreenPostProcess M .Copy frameTime i s).selectPingPong i))
  rw [zero_add, zero_add] at e
  unfold PolygonPostProcess
  simp only []
  generalize SelectPostProcessShaderAndTextures M postProcess frameTime i
    ((FullScreenPostProcess M .Copy frameTime i s).selectPingPong i) = u at e
  exact advances_step e (advances_same rfl rfl rfl)

theorem advances_SaveBaseSceneTexture (t : α) (i : Int) (s : SceneState α) :
    Advances t s (SaveBaseSceneTexture i s) 0 0 := by
  refine advances_same ?_ ?_ ?_ <;>
    by_cases h : Int.tmod i 2 = 0 <;>
    simp [SaveBaseSceneTexture, h, SceneState.Draw, SceneState.OMSetRenderTargets,
      SceneState.setFullScreenArea, SceneState.modifyPP, SceneState.PSSetShader,
      SceneState.PSSetShaderResources, SceneState.VSSetShader]

/-- The expansion of a bloom entry advances neither the timer nor the phase. -/
theorem advances_bloomExpansion (M : Env α) (frameTime : α) (i : Int) (s : SceneState α) :
    Advances frameTime s (RenderScene.bloomExpansion M frameTime i .Bloom1 s) 0 0 := by
  unfold RenderScene.bloomExpansion
  simp only []
  have b1 := advances_step (advances_SaveBaseSceneTexture frameTime i s)
    (advances_setCurrent frameTime _ .Bloom1)
  have b2 : Advances frameTime s _ 0 0 := advances_step b1
    (advances_FullScreenPostProcess M .Bloom1 frameTime i _)
  have b3 := advances_step b2 (advances_modifyConstants frameTime _ i
    (fun c => { c with blurStrength := 90 }))
  have b4 := advances_step b3 (advances_setCurrent frameTime _ .BlurH)
  have b5 : Advances frameTime s _ 0 0 := advances_step b4
    (advances_FullScreenPostProcess M .BlurH frameTime (i + 1) _)
  have b6 := advances_step b5 (advances_setCurrent frameTime _ .BlurV)
  have b7 : Advances frameTime s _ 0 0 := advances_step b6
    (advances_FullScreenPostProcess M .BlurV frameTime (i + 1 + 1) _)
  have b8 := advances_step b7 (advances_setCurrent frameTime _ .Bloom2)
  have b9 : Advances frameTime s _ 0 0 := advances_step b8
    (advances_FullScreenPostProcess M .Bloom2 frameTime (i + 1 + 1 + 1) _)
  exact advances_step b9 (advances_FullScreenPostProcess M .Copy frameTime i _)

theorem advances_polygonStep (M : Env α) (frameTime : α) (k : Nat) (s : SceneState α) :
    Advances frameTime s (RenderScene.polygonStep M frameTime (0 + (k : Int)) s)
      (hitsAt s.gPostProcessList k
        (fun e => if e.mode = .Polygon then kindHit .HeatHaze e.process else 0))
      (hitsAt s.gPostProcessList k
        (fun e => if e.mode = .Polygon then kindHit .Spiral e.process else 0)) := by
  unfold RenderScene.polygonStep hitsAt
  rw [entryAt_natCast]
  cases s.gPostProcessList[k]? with
  | none => exact advances_refl frameTime s
  | some e =>
    simp only []
    split
    · have := advances_trans (advances_touchPoints frameTime s (0 + (k : Int)))
        (advances_PolygonPostProcess M e.process (pointsAt (0 + (k : Int))) frameTime
          (0 + (k : Int)) (s.touchPoints (0 + (k : Int))))
      simpa using this
    · exact advances_refl frameTime s

theorem advances_fullscreenStep (M : Env α) (frameTime : α) (k : Nat) (s : SceneState α) :
    Advances frameTime s (RenderScene.fullscreenStep M frameTime (0 + (k : Int)) s)
      (hitsAt s.gPostProcessList k
        (fun e => if e.mode = .Fullscreen ∧ e.process ≠ .Bloom1
          then kindHit .HeatHaze e.process else 0))
      (hitsAt s.gPostProcessList k
        (fun e => if e.mode = .Fullscreen ∧ e.process ≠ .Bloom1
          then kindHit .Spiral e.process else 0)) := by
  unfold RenderScene.fullscreenStep hitsAt
  rw [entryAt_natCast]
  cases s.gPostProcessList[k]? with
  | none => exact advances_refl frameTime s
  | some e =>
    simp only []
    split
    · have := advances_trans (advances_setCurrent frameTime s e.process)
        (advances_FullScreenPostProcess M e.process frameTime (0 + (k : Int))
          { s with gCurrentPostProcess := e.process })
      simpa using this
    · exact advances_refl frameTime s

theorem advances_bloomStep (M : Env α) (frameTime : α) (k : Nat) (s : SceneState α) :
    Advances frameTime s (RenderScene.bloomStep M frameTime (0 + (k : Int)) s) 0 0 := by
  unfold RenderScene.bloomStep
  rw [entryAt_natCast]
  cases s.gPostProcessList[k]? with
  | none => exact advances_refl frameTime s
  | some e =>
    simp only []
    split
    · next hb =>
      rw [hb]
      exact advances_bloomExpansion M frameTime _ s
    · exact advances_refl frameTime s

theorem advances_forLoop (t : α) (l : List ProcessAndMode) (n : Nat)
    (body : Int → SceneState α → SceneState α) (g h : Nat → Nat)
    (hstep : ∀ (k : Nat) (s : SceneState α), s.gPostProcessList = l →
      Advances t s (body (0 + (k : Int)) s) (g k) (h k))
    (s : SceneState α) (hs : s.gPostProcessList = l) :
    Advances t s (forLoop 0 (n : Int) body s) ((List.range n).map g).sum
      ((List.range n).map h).sum := by
  unfold forLoop
  simp only [sub_zero, Int.toNat_ofNat]
  induction n with
  | zero => simpa using advances_refl t s
  | succ n ih =>
    rw [List.range_succ, List.foldl_append, List.map_append, List.map_append,
      List.sum_append, List.sum_append]
    refine advances_trans ih ?_
    simp only [List.foldl_cons, List.foldl_nil, List.map_cons, List.map_nil, List.sum_cons,
      List.sum_nil, add_zero]
    exact hstep n _ (ih.1.trans hs)

theorem range_sum_hitsAt (l : List ProcessAndMode) (f : ProcessAndMode → Nat) :
    ((List.range l.length).map (fun k => hitsAt l k f)).sum = (l.map f).sum := by
  induction l using List.reverseRecOn with
  | nil => rfl
  | append_singleton l x ih =>
    rw [List.length_append, List.length_singleton, List.range_succ, List.map_append,
      List.sum_append, List.map_append, List.sum_append]
    have h1 : (List.range l.length).map (fun k => hitsAt (l ++ [x]) k f)
        = (List.range l.length).map (fun k => hitsAt l k f) := by
      refine List.map_congr_left (fun k hk => ?_)
      unfold hitsAt
      rw [List.getElem?_append_left (List.mem_range.mp hk)]
    rw [h1, ih]
    simp [hitsAt]

theorem sum_indicator_eq_countP (p : ProcessAndMode → Bool) (l : List ProcessAndMode) :
    (l.map (fun e => if p e = true then 1 else 0)).sum = l.countP p := by
  induction l with
  | nil => rfl
  | cons e l ih =>
    rw [List.map_cons, List.sum_cons, ih, List.countP_cons]
    omega

theorem sweepHits_eq_executions (K : PostProcess) (hK : K ≠ .Bloom1)
    (l : List ProcessAndMode) :
    (l.map (fun e => if e.mode = .Polygon then kindHit K e.process else 0)).sum
      + (l.map (fun e => if e.mode = .Fullscreen ∧ e.process ≠ .Bloom1
          then kindHit K e.process else 0)).sum
      = executions K l := by
  have hfun : (fun e : ProcessAndMode =>
      (if e.mode = .Polygon then kindHit K e.process else 0)
        + (if e.mode = .Fullscreen ∧ e.process ≠ .Bloom1 then kindHit K e.process else 0))
      = fun e => if decide (e.process = K ∧ (e.mode = .Polygon ∨ e.mode = .Fullscreen)) = true
          then 1 else 0 := by
    funext e
    rcases e with ⟨p, m⟩
    by_cases hp : p = K
    · subst hp
      cases m <;> simp [kindHit, hK]
    · cases m <;> simp [kindHit, hp]
  unfold executions
  rw [← List.sum_map_add, hfun, sum_indicator_eq_countP]

theorem advances_polygonSweep (M : Env α) (frameTime : α) (s : SceneState α) :
    Advances frameTime s (RenderScene.polygonSweep M frameTime s)
      (s.gPostProcessList.map
        (fun e => if e.mode = .Polygon then kindHit .HeatHaze e.process else 0)).sum
      (s.gPostProcessList.map
        (fun e => if e.mode = .Polygon then kindHit .Spiral e.process else 0)).sum := by
  unfold RenderScene.polygonSweep
  split
  · have h := advances_forLoop frameTime s.gPostProcessList s.gPostProcessList.length _ _ _
      (fun k t ht => by simpa [ht] using advances_polygonStep M frameTime k t) s rfl
    rw [range_sum_hitsAt, range_sum_hitsAt] at h
    exact h
  · next h =>
    have hnil : s.gPostProcessList = [] := List.length_eq_zero.mp (by simpa using h)
    rw [hnil]
    exact advances_refl frameTime s

theorem advances_fullscreenSweep (M : Env α) (frameTime : α) (s : SceneState α) :
    Advances frameTime s (RenderScene.fullscreenSweep M frameTime s)
      (s.gPostProcessList.map
        (fun e => if e.mode = .Fullscreen ∧ e.process ≠ .Bloom1
          then kindHit .HeatHaze e.process else 0)).sum
      (s.gPostProcessList.map
        (fun e => if e.mode = .Fullscreen ∧ e.process ≠ .Bloom1
          then kindHit .Spiral e.process else 0)).sum := by
  unfold RenderScene.fullscreenSweep
  split
  · have h := advances_forLoop frameTime s.gPostProcessList s.gPostProcessList.length _ _ _
      (fun k t ht => by simpa [ht] using advances_fullscreenStep M frameTime k t) s rfl
    rw [range_sum_hitsAt, range_sum_hitsAt] at h
    exact h
  · next h =>
    have hnil : s.gPostProcessList = [] := List.length_eq_zero.mp (by simpa using h)
    rw [hnil]
    exact advances_refl frameTime s

theorem advances_bloomSweep (M : Env α) (frameTime : α) (s : SceneState α) :
    Advances frameTime s (RenderScene.bloomSweep M frameTime s) 0 0 := by
  unfold RenderScene.bloomSweep
  split
  · have h := advances_forLoop frameTime s.gPostProcessList s.gPostProcessList.length _
      (fun _ => 0) (fun _ => 0)
      (fun k t _ => advances_bloomStep M frameTime k t) s rfl
    simpa using h
  · exact advances_refl frameTime s

theorem advances_RenderDepthBufferFromCamera (t : α) (s : SceneState α) :
    Advances t s (RenderDepthBufferFromCamera s) 0 0 := by
  unfold RenderDepthBufferFromCamera
  simp only []
  with_reducible refine advances_step ?_ (advances_Draw t _ _ _ _)
  with_reducible refine advances_step ?_ (advances_Draw t _ _ _ _)
  with_reducible refine advances_step ?_ (advances_Draw t _ _ _ _)
  with_reducible refine advances_step ?_ (advances_Draw t _ _ _ _)
  with_reducible refine advances_step ?_ (advances_PSSetShader t _ _)
  with_reducible refine advances_step ?_ (advances_VSSetShader t _ _)
  exact advances_refl t s

theorem advances_RenderSceneFromCamera (t : α) (s : SceneState α) :
    Advances t s (RenderSceneFromCamera s) 0 0 := by
  unfold RenderSceneFromCamera
  simp only []
  refine forLoop_invariant (fun u => Advances t s u 0 0) _ _ _ ?_ _ ?_
  · intro x u hu
    exact advances_step hu (advances_Draw t _ _ _ _)
  with_reducible refine advances_step ?_ (advances_PSSetShaderResources t _ _ _)
  with_reducible refine advances_step ?_ (advances_PSSetShader t _ _)
  with_reducible refine advances_step ?_ (advances_VSSetShader t _ _)
  with_reducible refine advances_step ?_ (advances_Draw t _ _ _ _)
  with_reducible refine advances_step ?_ (advances_PSSetShaderResources t _ _ _)
  with_reducible refine advances_step ?_ (advances_PSSetShader t _ _)
  with_reducible refine advances_step ?_ (advances_VSSetShader t _ _)
  with_reducible refine advances_step ?_ (advances_Draw t _ _ _ _)
  with_reducible refine advances_step ?_ (advances_PSSetShaderResources t _ _ _)
  with_reducible refine advances_step ?_ (advances_Draw t _ _ _ _)
  with_reducible refine advances_step ?_ (advances_PSSetShaderResources t _ _ _)
  with_reducible refine advances_step ?_ (advances_Draw t _ _ _ _)
  with_reducible refine advances_step ?_ (advances_PSSetShaderResources t _ _ _)
  with_reducible refine advances_step ?_ (advances_Draw t _ _ _ _)
  with_reducible refine advances_step ?_ (advances_PSSetShaderResources t _ _ _)
  with_reducible refine advances_step ?_ (advances_PSSetShader t _ _)
  with_reducible refine advances_step ?_ (advances_VSSetShader t _ _)
  with_reducible refine advances_step ?_ (advances_PSSetShader t _ _)
  exact advances_refl t s

/-- A frame advances the heat-haze timer once per HeatHaze entry in Polygon or
Fullscreen mode and the spiral phase once per such Spiral entry. -/
theorem advances_RenderScene (M : Env α) (frameTime : α) (s : SceneState α) :
    Advances frameTime s (RenderScene M frameTime s)
      (executions .HeatHaze s.gPostProcessList) (executions .Spiral s.gPostProcessList) := by
  unfold RenderScene
  simp only []
  have a1 := advances_OMSetRenderTargets frameTime s none
  have a2 := advances_step a1
    (advances_RenderDepthBufferFromCamera frameTime (s.OMSetRenderTargets none))
  have a3 : Advances frameTime s
      (if (RenderDepthBufferFromCamera (s.OMSetRenderTargets none)).gPostProcessList.length ≠ 0
       then (RenderDepthBufferFromCamera (s.OMSetRenderTargets none)).OMSetRenderTargets
          (some .gSceneRenderTarget)
       else (RenderDepthBufferFromCamera (s.OMSetRenderTargets none)).OMSetRenderTargets
          (some .gBackBufferRenderTarget)) 0 0 := by
    split
    · exact advances_step a2 (advances_OMSetRenderTargets _ _ _)
    · exact advances_step a2 (advances_OMSetRenderTargets _ _ _)
  have a4 := advances_step a3
    (advances_PSSetShaderResources frameTime _ 2 (some .gDepthShaderView))
  have a5 := advances_step a4 (advances_RenderSceneFromCamera frameTime _)
  have a6 := advances_step a5
    (advances_modifyPP frameTime _ (fun pp => { pp with IsFullScreen := false })
      (fun _ => rfl))
  have a7 := advances_trans a6 (advances_polygonSweep M frameTime _)
  have a8 := advances_step a7
    (advances_modifyPP frameTime _ (fun pp => { pp with IsFullScreen := true })
      (fun _ => rfl))
  have a9 := advances_trans a8 (advances_fullscreenSweep M frameTime _)
  have a10 := advances_step a9 (advances_bloomSweep M frameTime _)
  have a11 := advances_step a10
    (advances_OMSetRenderTargets frameTime _ (some .gBackBufferRenderTarget))
  have a12 := advances_step a11 (advances_PSSetShaderResources frameTime _ 0 none)
  rw [a6.1, a8.1, zero_add, zero_add,
    sweepHits_eq_executions .HeatHaze (by decide) s.gPostProcessList,
    sweepHits_eq_executions .Spiral (by decide) s.gPostProcessList] at a12
  exact a12

/-- A selection of Underwater with an index within the parameter list advances the
water wiggle phase of the record at that index by its speed times the elapsed time. -/
theorem select_underwater_wiggle (M : Env α) (t : α) (i : Int) (s : SceneState α)
    (h : inRange i s.gConstantsList.length = true) :
    ((SelectPostProcessShaderAndTextures M .Underwater t i s).constantsAt i).Wiggle
      = (s.constantsAt i).Wiggle + (s.constantsAt i).WiggleSpeed * t := by
  simp only [SelectPostProcessShaderAndTextures]
  generalize hs1 : (s.PSSetShader .gUnderwaterPostProcess).modifyPP
    (fun pp => { pp with waterColour := ⟨2 / 10, 4 / 10, 1⟩ }) = s1
  have c1 : s1.gConstantsList = s.gConstantsList := by
    rw [← hs1]
    rfl
  have hr1 : inRange i s1.gConstantsList.length = true := by
    rw [c1]
    exact h
  have hr2 : ∀ f : Constants α → Constants α,
      inRange i (s1.modifyConstants i f).gConstantsList.length = true := by
    intro f
    rw [(preserves_modifyConstants s1 i f).2.2.2.2.2]
    exact hr1
  rw [touchConstants_of_inRange s1 i hr1,
    touchConstants_of_inRange (s1.modifyConstants i _) i (hr2 _)]
  have e : ∀ (u : SceneState α) (f : PostProcessingConstants α → PostProcessingConstants α),
      (u.modifyPP f).constantsAt i = u.constantsAt i := fun u f => constantsAt_congr rfl i
  rw [e, modifyConstants_constantsAt_self s1 i _ hr1, constantsAt_congr c1 i]

/-- Claim C21, amended. Every animated phase accumulator is advanced once per selection of
its kind, not once per frame: a Burn selection replaces the burn height `h` by
`fmod(h + 0.2 t, 1)`, a Spiral selection adds `1.0 t` to the spiral phase, a HeatHaze
selection adds `t` to the heat-haze timer, a HueTint selection adds the hue speed of
its record times `t` to the hue wiggle phase, an Underwater selection adds the speed of
its record times `t` to the water wiggle phase of that record; and a `RenderScene` frame
with elapsed time `t` advances the heat-haze timer and the spiral phase once per entry
of the kind in Polygon or Fullscreen mode, by `t` times the number of such entries. -/
theorem accumulators_advance_per_selection (M : Env α) (t : α) (i : Int) (s : SceneState α) :
    (SelectPostProcessShaderAndTextures M .Burn t i s).gPostProcessingConstants.burnHeight
      = M.fmod (s.gPostProcessingConstants.burnHeight + 2 / 10 * t) 1 ∧
    (SelectPostProcessShaderAndTextures M .Spiral t i s).spiral = s.spiral + 1 * t ∧
    (SelectPostProcessShaderAndTextures M .HeatHaze t i s).gPostProcessingConstants.heatHazeTimer
      = s.gPostProcessingConstants.heatHazeTimer + t ∧
    (SelectPostProcessShaderAndTextures M .HueTint t i s).gPostProcessingConstants.HueWiggle
      = s.gPostProcessingConstants.HueWiggle + (s.constantsAt i).HueWiggleSpeed * t ∧
    (inRange i s.gConstantsList.length = true →
      ((SelectPostProcessShaderAndTextures M .Underwater t i s).constantsAt i).Wiggle
        = (s.constantsAt i).Wiggle + (s.constantsAt i).WiggleSpeed * t) ∧
    (RenderScene M t s).gPostProcessingConstants.heatHazeTimer
      = s.gPostProcessingConstants.heatHazeTimer
        + (executions .HeatHaze s.gPostProcessList : α) * t ∧
    (RenderScene M t s).spiral
      = s.spiral + (executions .Spiral s.gPostProcessList : α) * t := by
  obtain ⟨_, h2, h3⟩ := advances_RenderScene M t s
  refine ⟨rfl, rfl, rfl, ?_, select_underwater_wiggle M t i s, h2, h3⟩
  simp only [SelectPostProcessShaderAndTextures, SceneState.modifyPP,
    touchConstants_pp (s.PSSetShader .gHueTintPostProcess) i]
  rfl

/-- Witness of C21: an Underwater selection at position 1 of the state after
`InitScene`, whose parameter list has four records. -/
theorem accumulators_advance_per_selection_witness :
    inRange 1 (InitScene (SceneState.start : SceneState ℚ)).gConstantsList.length = true ∧
    ((SelectPostProcessShaderAndTextures Env.sample .Underwater 2 1
        (InitScene SceneState.start)).constantsAt 1).Wiggle
      = ((InitScene (SceneState.start : SceneState ℚ)).constantsAt 1).Wiggle
        + ((InitScene (SceneState.start : SceneState ℚ)).constantsAt 1).WiggleSpeed * 2 :=
  ⟨by decide,
   (accumulators_advance_per_selection Env.sample 2 1 (InitScene SceneState.start)).2.2.2.2.1
    (by decide)⟩

/-- Claim C21 as stated fails: with two HeatHaze entries in the list (the 6 key hit
twice) a frame of one second does not advance the heat-haze timer by one second (it
advances it by two). -/
theorem accumulators_once_per_frame_counterexample :
    ¬ ((RenderScene Env.sample 1 twoHeatHaze).gPostProcessingConstants.heatHazeTimer
        = twoHeatHaze.gPostProcessingConstants.heatHazeTimer + 1) := by
  obtain ⟨_, h2, _⟩ := advances_RenderScene Env.sample 1 twoHeatHaze
  have he : executions .HeatHaze twoHeatHaze.gPostProcessList = 2 := by decide
  rw [h2, he]
  norm_num

end ScenePP
